import Mathlib

/-! Laundry Squadron: cloth and particle physics (`Game/Physics.hpp`) and
mesh construction (`Engine/Renderer/Mesh.cpp`).

A shallow embedding of the cloth simulation declared in `Physics.hpp` and of
the static mesh builders `Mesh::CreateCube` and `Mesh::CreateIcoSphere`.

Modelling conventions.

* `float` and `double` values are elements of a linearly ordered field `α`
  (exact arithmetic; `static_cast<float>` is the identity).  The square root
  used by `Vector3::CalculateMagnitude` is passed as a parameter `sqrt`.
* C++ `int` values are elements of `Int`; the products `numRows * numCols`
  and `row * numRows + col` are assumed to fit in an `int`.
* A `Particle*` returned by `Cloth::GetParticle` is an `Option Int`:
  `none` is `nullptr`, `some i` is the address `&m_clothParticles[i]`
  (the index is kept as computed, so it may lie outside the vector).
* Reading or writing through a pointer that is null or outside the vector is
  undefined behaviour; the operations that do so return `none` there.
-/

namespace LaundrySquadron

/-! ## Vector3 -/

/-- Engine `Vector3`: three scalar components. -/
structure Vector3 (α : Type) where
  x : α
  y : α
  z : α
deriving DecidableEq, Repr

namespace Vector3

variable {α : Type}

/-- The constant `Vector3::ZERO`. -/
def ZERO [Zero α] : Vector3 α := ⟨0, 0, 0⟩

/-- Componentwise sum, `operator+`. -/
def add [Add α] (a b : Vector3 α) : Vector3 α := ⟨a.x + b.x, a.y + b.y, a.z + b.z⟩

/-- Componentwise difference, `operator-`. -/
def sub [Sub α] (a b : Vector3 α) : Vector3 α := ⟨a.x - b.x, a.y - b.y, a.z - b.z⟩

/-- Unary minus. -/
def neg [Neg α] (a : Vector3 α) : Vector3 α := ⟨-a.x, -a.y, -a.z⟩

/-- Multiplication by a scalar on the right, `operator*( Vector3, float )`. -/
def scale [Mul α] (a : Vector3 α) (s : α) : Vector3 α := ⟨a.x * s, a.y * s, a.z * s⟩

/-- The length `Vector3::CalculateMagnitude`, for a given square root. -/
def CalculateMagnitude [Add α] [Mul α] (sqrt : α → α) (a : Vector3 α) : α :=
  sqrt (a.x * a.x + a.y * a.y + a.z * a.z)

end Vector3

/-! ## Forces and the linear dynamics state -/

/-- A `Force` is a pure function of the state (position, velocity) and the
mass: the embedding of `Force::CalcForceForStateAndMass`. -/
abbrev Force (α : Type) := Vector3 α → Vector3 α → α → Vector3 α

/-- Modelled from the spec: `GravityForce::CalcForceForStateAndMass` is only
declared in `Physics.hpp`; the spec gives "constant force = mass × g along a
fixed direction". -/
def GravityForce {α : Type} [Mul α] (magnitude : α) (direction : Vector3 α) : Force α :=
  fun _ _ mass => direction.scale (mass * magnitude)

/-- The class `LinearDynamicsState`. -/
structure LinearDynamicsState (α : Type) where
  m_position : Vector3 α
  m_velocity : Vector3 α
  m_forces : List (Force α)

namespace LinearDynamicsState

variable {α : Type}

/-- Modelled from the spec: `LinearDynamicsState::CalcNetForceForMass` is
only declared in `Physics.hpp`; the net force is the vector sum over all owned
forces evaluated against the current state. -/
def CalcNetForceForMass [Zero α] [Add α] (s : LinearDynamicsState α) (mass : α) : Vector3 α :=
  s.m_forces.foldl (fun acc f => acc.add (f s.m_position s.m_velocity mass)) Vector3.ZERO

/-- Modelled from the spec: `LinearDynamicsState::StepWithForwardEuler` is
only declared in `Physics.hpp`; the spec gives the semi-implicit step
`v' = v + a·dt; p' = p + v'·dt` with `a = (ΣF)/mass`. -/
def StepWithForwardEuler [Field α] (s : LinearDynamicsState α) (mass deltaSeconds : α) :
    LinearDynamicsState α :=
  let a := (s.CalcNetForceForMass mass).scale (1 / mass)
  let v := s.m_velocity.add (a.scale deltaSeconds)
  { s with m_velocity := v, m_position := s.m_position.add (v.scale deltaSeconds) }

/-- The member `AddForce`: `m_forces.push_back( newForce )`. -/
def AddForce (s : LinearDynamicsState α) (newForce : Force α) : LinearDynamicsState α :=
  { s with m_forces := s.m_forces ++ [newForce] }

end LinearDynamicsState

/-! ## Particle -/

/-- The enum `ParticleType`. -/
inductive ParticleType where
  | PARTICLE_AABB3
  | PARTICLE_SPHERE
deriving DecidableEq, Repr

/-- The class `Particle`; `m_state = none` is the null state pointer. -/
structure Particle (α : Type) where
  m_mass : α
  m_secondsToLive : α
  m_renderType : ParticleType
  m_renderRadius : α
  m_state : Option (LinearDynamicsState α)
  m_isPinned : Bool

namespace Particle

variable {α : Type}

/-- The constructor `Particle( renderType, mass, secondsToLive, renderRadius )`:
no dynamics state, not pinned. -/
def new (renderType : ParticleType) (mass secondsToLive renderRadius : α) : Particle α :=
  { m_mass := mass, m_secondsToLive := secondsToLive, m_renderType := renderType,
    m_renderRadius := renderRadius, m_state := none, m_isPinned := false }

/-- The member `SetParticleState`. -/
def SetParticleState (p : Particle α) (newState : LinearDynamicsState α) : Particle α :=
  { p with m_state := some newState }

/-- The member `SetIsExpired`: `m_secondsToLive = newVal ? -1.f : 1.f`. -/
def SetIsExpired [One α] [Neg α] (p : Particle α) (newVal : Bool) : Particle α :=
  { p with m_secondsToLive := if newVal then -1 else 1 }

/-- The member `IsExpired`: `m_secondsToLive <= 0.f`. -/
def IsExpired [LinearOrderedField α] (p : Particle α) : Bool :=
  decide (p.m_secondsToLive ≤ 0)

/-- The member `GetIsPinned`. -/
def GetIsPinned (p : Particle α) : Bool := p.m_isPinned

/-- The member `SetIsPinned`. -/
def SetIsPinned (p : Particle α) (newVal : Bool) : Particle α :=
  { p with m_isPinned := newVal }

/-- Modelled from the spec: `Particle::GetPosition` is only declared in
`Physics.hpp`, under the comment that the returned `bool` indicates failure,
that is, a particle without state; it delegates to the owned dynamics state.
`none` is the failure result, in which case the out-parameter is not
written. -/
def GetPosition (p : Particle α) : Option (Vector3 α) :=
  p.m_state.map (fun s => s.m_position)

/-- Modelled from the spec: `Particle::SetPosition` is only declared in
`Physics.hpp`; it delegates to the owned dynamics state and does nothing when
no state is attached. -/
def SetPosition (p : Particle α) (newPosition : Vector3 α) : Particle α :=
  { p with m_state := p.m_state.map (fun s => { s with m_position := newPosition }) }

/-- Modelled from the spec: `Particle::Translate` is only declared in
`Physics.hpp`; it adds its argument to the position of the owned dynamics
state and does nothing when no state is attached. -/
def Translate [Add α] (p : Particle α) (offset : Vector3 α) : Particle α :=
  { p with m_state := p.m_state.map (fun s => { s with m_position := s.m_position.add offset }) }

/-- Modelled from the spec: `Particle::AddForce` is only declared in
`Physics.hpp`; the force is appended to the owned state's force list. -/
def AddForce (p : Particle α) (newForce : Force α) : Particle α :=
  { p with m_state := p.m_state.map (fun s => s.AddForce newForce) }

/-- Modelled from the spec: `Particle::GetForces` is only declared in
`Physics.hpp`; it yields the forces of the owned state. -/
def GetForces (p : Particle α) : List (Force α) :=
  match p.m_state with
  | none => []
  | some s => s.m_forces

/-- Modelled from the spec: `Particle::CloneForcesFromParticle` is only
declared in `Physics.hpp`; every force of the source particle is copied and
added to this particle's state. -/
def CloneForcesFromParticle (p : Particle α) (sourceParticle : Particle α) : Particle α :=
  sourceParticle.GetForces.foldl (fun q f => q.AddForce f) p

/-- Modelled from the spec: `Particle::StepAndAge` is only declared in
`Physics.hpp`; it integrates via the state (forward Euler) and decrements
`secondsToLive` by `dt`. -/
def StepAndAge [Field α] (p : Particle α) (deltaSeconds : α) : Particle α :=
  { p with
    m_state := p.m_state.map (fun s => s.StepWithForwardEuler p.m_mass deltaSeconds),
    m_secondsToLive := p.m_secondsToLive - deltaSeconds }

end Particle

/-! ## Cloth -/

/-- The enum `ConstraintType`. -/
inductive ConstraintType where
  | STRETCH
  | SHEAR
  | BEND
deriving DecidableEq, Repr

/-- The struct `ClothConstraint`; `p1` and `p2` are particle pointers. -/
structure ClothConstraint (α : Type) where
  type : ConstraintType
  p1 : Option Int
  p2 : Option Int
  restDistance : α
deriving DecidableEq, Repr

/-- The data members of the class `Cloth`, except `m_currentTopRightPosition`,
which only `CalcTopRightPosFromTopLeft` writes and nothing reads. -/
structure Cloth (α : Type) where
  m_particleTemplate : Particle α
  m_originalTopLeftPosition : Vector3 α
  m_currentTopLeftPosition : Vector3 α
  m_numRows : Int
  m_numCols : Int
  m_numConstraintSolverIterations : Nat
  m_baseDistanceBetweenParticles : α
  m_ratioDistanceStructuralToShear : α
  m_ratioDistanceStructuralToBend : α
  m_clothConstraints : List (ClothConstraint α)
  m_clothParticles : List (Particle α)

/-- Dereference of a particle pointer into the vector `m_clothParticles`;
`none` when the pointer is null or outside the vector. -/
def derefParticle {α : Type} (ps : List (Particle α)) : Option Int → Option (Particle α)
  | none => none
  | some i => if 0 ≤ i then ps[i.toNat]? else none

/-- Write through a particle pointer: the pointee is replaced by `f` of it;
`none` when the pointer is null or outside the vector. -/
def modifyParticle {α : Type} (ps : List (Particle α)) (ptr : Option Int)
    (f : Particle α → Particle α) : Option (List (Particle α)) :=
  match derefParticle ps ptr with
  | none => none
  | some p => some (ps.set (ptr.getD 0).toNat (f p))

/-- The loop `for ( int i = 0; i < n; i++ ) body( i )` over a state, where
the body may fail. -/
def forLoop {σ : Type} (n : Int) (body : Int → σ → Option σ) (s : σ) : Option σ :=
  (List.range n.toNat).foldlM (fun st (i : Nat) => body (i : Int) st) s

/-- Insertion into a `std::set< ClothConstraint* >`, kept as the list of
(address, pointee) pairs in ascending address order: `std::set::insert` does
nothing when the key is already present. -/
def setInsert {α : Type} (k : Nat) (v : ClothConstraint α) :
    List (Nat × ClothConstraint α) → List (Nat × ClothConstraint α)
  | [] => [(k, v)]
  | e :: rest =>
    if k < e.1 then (k, v) :: e :: rest
    else if k = e.1 then e :: rest
    else e :: setInsert k v rest

/-- The successive calls `tmpSet.insert( new ClothConstraint( ... ) )`: the
`n`-th object allocated so far is given the address `addr n`. -/
def insertAll {α : Type} (addr : Nat → Nat) :
    Nat → List (ClothConstraint α) → List (Nat × ClothConstraint α) →
    List (Nat × ClothConstraint α)
  | _, [], s => s
  | n, v :: vs, s => insertAll addr (n + 1) vs (setInsert (addr n) v s)

namespace Cloth

variable {α : Type}

/-- The member `Cloth::GetParticle`. -/
def GetParticle (cl : Cloth α) (rowStartTop colStartLeft : Int) : Option Int :=
  if rowStartTop > cl.m_numRows then none
  else if colStartLeft > cl.m_numCols then none
  else some (rowStartTop * cl.m_numRows + colStartLeft)

/-- The body of the two loops of `Cloth::AssignParticleStates` at cell
`(r, c)`. -/
def assignCell [Field α] (baseDistance : α) (velocity : Vector3 α) (r c : Int)
    (cl : Cloth α) : Option (Cloth α) :=
  let startPosition : Vector3 α :=
    (Vector3.mk ((c : α) * baseDistance) 0 (-(r : α) * baseDistance)).add
      cl.m_currentTopLeftPosition
  let currentParticle := cl.GetParticle r c
  (modifyParticle cl.m_clothParticles currentParticle (fun p =>
      (p.SetParticleState ⟨startPosition, velocity, []⟩).CloneForcesFromParticle
        cl.m_particleTemplate)).map
    (fun ps => { cl with m_clothParticles := ps })

/-- The member `Cloth::AssignParticleStates`; `nonPlanarDepth` is not read by
the source either. -/
def AssignParticleStates [Field α] (cl : Cloth α) (baseDistance _nonPlanarDepth : α)
    (velocity : Vector3 α) : Option (Cloth α) :=
  let lds : LinearDynamicsState α := ⟨Vector3.ZERO, Vector3.ZERO, []⟩
  let gravity : Force α := GravityForce (981 / 100) ⟨0, 0, -1⟩
  let cl1 : Cloth α :=
    { cl with m_particleTemplate := (cl.m_particleTemplate.SetParticleState lds).AddForce gravity }
  forLoop cl1.m_numRows (fun r st =>
    forLoop cl1.m_numCols (fun c st2 => assignCell baseDistance velocity r c st2) st) cl1

/-- The constraints allocated by the body of the two loops of
`Cloth::AddConstraints` at cell `(r, c)`, in program order. -/
def cellConstraints (cl : Cloth α) (baseDistance shearDist bendDist : α) (r c : Int) :
    List (ClothConstraint α) :=
  (if r + 1 < cl.m_numRows then
    [⟨.STRETCH, cl.GetParticle r c, cl.GetParticle (r + 1) c, baseDistance⟩] else []) ++
  (if r - 1 ≥ 0 then
    [⟨.STRETCH, cl.GetParticle r c, cl.GetParticle (r - 1) c, baseDistance⟩] else []) ++
  (if c + 1 < cl.m_numCols then
    [⟨.STRETCH, cl.GetParticle r c, cl.GetParticle r (c + 1), baseDistance⟩] else []) ++
  (if c - 1 ≥ 0 then
    [⟨.STRETCH, cl.GetParticle r c, cl.GetParticle r (c - 1), baseDistance⟩] else []) ++
  (if r + 1 < cl.m_numRows ∧ c + 1 < cl.m_numCols then
    [⟨.SHEAR, cl.GetParticle r c, cl.GetParticle (r + 1) (c + 1), shearDist⟩] else []) ++
  (if r - 1 ≥ 0 ∧ c + 1 < cl.m_numCols then
    [⟨.SHEAR, cl.GetParticle r c, cl.GetParticle (r - 1) (c + 1), shearDist⟩] else []) ++
  (if r + 1 < cl.m_numRows ∧ c - 1 ≥ 0 then
    [⟨.SHEAR, cl.GetParticle r c, cl.GetParticle (r + 1) (c - 1), shearDist⟩] else []) ++
  (if r - 1 ≥ 0 ∧ c - 1 ≥ 0 then
    [⟨.SHEAR, cl.GetParticle r c, cl.GetParticle (r - 1) (c - 1), shearDist⟩] else []) ++
  (if r + 2 < cl.m_numRows then
    [⟨.BEND, cl.GetParticle r c, cl.GetParticle (r + 2) c, bendDist⟩] else []) ++
  (if r - 2 ≥ 0 then
    [⟨.BEND, cl.GetParticle r c, cl.GetParticle (r - 2) c, bendDist⟩] else []) ++
  (if c + 2 < cl.m_numCols then
    [⟨.BEND, cl.GetParticle r c, cl.GetParticle r (c + 2), bendDist⟩] else []) ++
  (if c - 2 ≥ 0 then
    [⟨.BEND, cl.GetParticle r c, cl.GetParticle r (c - 2), bendDist⟩] else [])

/-- All constraints allocated by `Cloth::AddConstraints`, in program order
(rows outermost, then columns, then the twelve tests of the body). -/
def newConstraints [Mul α] (cl : Cloth α)
    (baseDistance ratioStructuralToShear ratioStructuralToBend : α) :
    List (ClothConstraint α) :=
  let shearDist := baseDistance * ratioStructuralToShear
  let bendDist := baseDistance * ratioStructuralToBend
  (List.range cl.m_numRows.toNat).flatMap (fun (r : Nat) =>
    (List.range cl.m_numCols.toNat).flatMap (fun (c : Nat) =>
      cl.cellConstraints baseDistance shearDist bendDist (r : Int) (c : Int)))

/-- The member `Cloth::AddConstraints`: the allocated constraints go through
the pointer-keyed `tmpSet` and are then pushed back, in ascending address
order, onto `m_clothConstraints`.  `addr n` is the address of the `n`-th
allocated constraint. -/
def AddConstraints [Mul α] (cl : Cloth α) (addr : Nat → Nat)
    (baseDistance ratioStructuralToShear ratioStructuralToBend : α) : Cloth α :=
  let tmpSet :=
    insertAll addr 0
      (cl.newConstraints baseDistance ratioStructuralToShear ratioStructuralToBend) []
  { cl with m_clothConstraints := cl.m_clothConstraints ++ tmpSet.map Prod.snd }

/-- The member initialiser list of the constructor `Cloth::Cloth` followed by
its `push_back` loop: `numRows * numCols` particles with `secondsToLive = 1`
and no dynamics state, and a template particle with `secondsToLive = -1`. -/
def allocate [Field α] (originTopLeftPosition : Vector3 α)
    (particleRenderType : ParticleType) (particleMass particleRadius : α)
    (numRows numCols : Int) (numConstraintSolverIterations : Nat)
    (baseDistanceBetweenParticles ratioDistanceStructuralToShear
      ratioDistanceStructuralToBend : α) : Cloth α :=
  { m_particleTemplate := Particle.new particleRenderType particleMass (-1) particleRadius
    m_originalTopLeftPosition := originTopLeftPosition
    m_currentTopLeftPosition := originTopLeftPosition
    m_numRows := numRows
    m_numCols := numCols
    m_numConstraintSolverIterations := numConstraintSolverIterations
    m_baseDistanceBetweenParticles := baseDistanceBetweenParticles
    m_ratioDistanceStructuralToShear := ratioDistanceStructuralToShear
    m_ratioDistanceStructuralToBend := ratioDistanceStructuralToBend
    m_clothConstraints := []
    m_clothParticles :=
      List.replicate (numRows * numCols).toNat
        (Particle.new particleRenderType particleMass 1 particleRadius) }

/-- The last two statements of the constructor `Cloth::Cloth`:
`GetParticle( 0, 0 )->SetIsPinned( true )` and
`GetParticle( 0, numCols - 1 )->SetIsPinned( true )`. -/
def pinCorners (cl : Cloth α) (numCols : Int) : Option (Cloth α) :=
  (modifyParticle cl.m_clothParticles (cl.GetParticle 0 0)
      (fun p => p.SetIsPinned true)).bind (fun ps3 =>
    (modifyParticle ps3 (cl.GetParticle 0 (numCols - 1))
        (fun p => p.SetIsPinned true)).map (fun ps4 =>
      { cl with m_clothParticles := ps4 }))

/-- The constructor `Cloth::Cloth`.  `addr` is the allocator's choice of
addresses for the constraints (see `AddConstraints`); the result is `none`
when the constructor writes through a pointer outside `m_clothParticles`. -/
def new [Field α] (addr : Nat → Nat) (originTopLeftPosition : Vector3 α)
    (particleRenderType : ParticleType) (particleMass particleRadius : α)
    (numRows numCols : Int) (numConstraintSolverIterations : Nat)
    (baseDistanceBetweenParticles ratioDistanceStructuralToShear
      ratioDistanceStructuralToBend : α)
    (initialGlobalVelocity : Vector3 α) : Option (Cloth α) :=
  ((allocate originTopLeftPosition particleRenderType particleMass particleRadius
      numRows numCols numConstraintSolverIterations baseDistanceBetweenParticles
      ratioDistanceStructuralToShear ratioDistanceStructuralToBend).AssignParticleStates
      baseDistanceBetweenParticles originTopLeftPosition.y initialGlobalVelocity).bind
    (fun cl1 =>
      (cl1.AddConstraints addr baseDistanceBetweenParticles
        ratioDistanceStructuralToShear ratioDistanceStructuralToBend).pinCorners numCols)

/-- The body of the first loop of `Cloth::Update` at `particleIndex`.  The
state is the particle vector together with the list of the indices on which
`StepAndAge` has been called so far (a record of the calls, not program
data). -/
def integrateParticle [LinearOrderedField α] (fixedTimeStep : α) (particleIndex : Int)
    (st : List (Particle α) × List Int) : Option (List (Particle α) × List Int) :=
  match derefParticle st.1 (some particleIndex) with
  | none => none
  | some p =>
    if p.GetIsPinned = false ∨ p.IsExpired = true then
      some (st.1.set particleIndex.toNat (p.StepAndAge fixedTimeStep), st.2 ++ [particleIndex])
    else some st

/-- The first loop of `Cloth::Update`: every particle index below
`m_numRows * m_numCols` is visited in ascending order. -/
def integrateParticles [LinearOrderedField α] (cl : Cloth α) (fixedTimeStep : α) :
    Option (List (Particle α) × List Int) :=
  forLoop (cl.m_numRows * cl.m_numCols) (integrateParticle fixedTimeStep)
    (cl.m_clothParticles, [])

/-- The second loop of `Cloth::Update`: the iterator walk over
`m_clothConstraints` that erases a constraint when `p1` is expired and `p2` is
expired (`p2` is only read when `p1` is expired). -/
def eraseExpiredConstraints [LinearOrderedField α] (ps : List (Particle α)) :
    List (ClothConstraint α) → Option (List (ClothConstraint α))
  | [] => some []
  | cc :: rest =>
    match derefParticle ps cc.p1 with
    | none => none
    | some q1 =>
      if q1.IsExpired = true then
        match derefParticle ps cc.p2 with
        | none => none
        | some q2 =>
          if q2.IsExpired = true then eraseExpiredConstraints ps rest
          else (eraseExpiredConstraints ps rest).map (fun l => cc :: l)
      else (eraseExpiredConstraints ps rest).map (fun l => cc :: l)

/-- The body of the inner loop of `Cloth::SatisfyConstraints` for one
constraint; the state is the particle vector and the running `norm`.  Reading
the position of an endpoint without dynamics state leaves the local
`Vector3` unwritten and is treated as undefined. -/
def satisfyConstraint [LinearOrderedField α] (sqrt : α → α) (deltaSeconds : α)
    (currentConstraint : ClothConstraint α) (st : List (Particle α) × α) :
    Option (List (Particle α) × α) :=
  match derefParticle st.1 currentConstraint.p1 with
  | none => none
  | some q1 =>
  match q1.GetPosition with
  | none => none
  | some particlePosition1 =>
  match derefParticle st.1 currentConstraint.p2 with
  | none => none
  | some q2 =>
  match q2.GetPosition with
  | none => none
  | some particlePosition2 =>
    let currentDisplacement := particlePosition2.sub particlePosition1
    if currentDisplacement = Vector3.ZERO then some st
    else
      let currentDistance := currentDisplacement.CalculateMagnitude sqrt
      let stiffness : α := 100
      let halfCorrectionVector :=
        (currentDisplacement.scale stiffness).scale
          (1 / 2 * (1 - currentConstraint.restDistance / currentDistance))
      let norm := st.2 +
        (currentConstraint.restDistance - currentDistance) *
          (currentConstraint.restDistance - currentDistance)
      let isPinnedParticle1 := q1.GetIsPinned
      let isPinnedParticle2 := q2.GetIsPinned
      let ps1 :=
        if isPinnedParticle1 = false then
          modifyParticle st.1 currentConstraint.p1 (fun p => p.Translate
            ((halfCorrectionVector.scale (if isPinnedParticle2 then 2 else 1)).scale
              deltaSeconds))
        else some st.1
      match ps1 with
      | none => none
      | some ps1 =>
        let ps2 :=
          if isPinnedParticle2 = false then
            modifyParticle ps1 currentConstraint.p2 (fun p => p.Translate
              ((halfCorrectionVector.neg.scale (if isPinnedParticle1 then 2 else 1)).scale
                deltaSeconds))
          else some ps1
        ps2.map (fun ps => (ps, norm))

/-- One pass of the outer loop of `Cloth::SatisfyConstraints`: the inner loop
over `constraintIndex`, the vector `m_clothConstraints` being unchanged. -/
def satisfyPass [LinearOrderedField α] (sqrt : α → α) (deltaSeconds : α)
    (constraints : List (ClothConstraint α)) (st : List (Particle α) × α) :
    Option (List (Particle α) × α) :=
  constraints.foldlM (fun acc cc => satisfyConstraint sqrt deltaSeconds cc acc) st

/-- The member `Cloth::SatisfyConstraints`; the second component is the value
of `norm` handed to `DebuggerPrintf` after the loops. -/
def SatisfyConstraints [LinearOrderedField α] (sqrt : α → α) (cl : Cloth α)
    (deltaSeconds : α) : Option (Cloth α × α) :=
  (forLoop (cl.m_numConstraintSolverIterations : Int)
      (fun _ st => satisfyPass sqrt deltaSeconds cl.m_clothConstraints st)
      (cl.m_clothParticles, 0)).map
    (fun r => ({ cl with m_clothParticles := r.1 }, r.2))

/-- The state of the cloth after the first loop of `Cloth::Update`. -/
def afterIntegration [LinearOrderedField α] (cl : Cloth α) (fixedTimeStep : α) :
    Option (Cloth α) :=
  (cl.integrateParticles fixedTimeStep).map (fun r => { cl with m_clothParticles := r.1 })

/-- The state of the cloth after the second loop of `Cloth::Update`, that
is, the state on which `SatisfyConstraints` is called. -/
def afterErase [LinearOrderedField α] (cl : Cloth α) (fixedTimeStep : α) :
    Option (Cloth α) :=
  (cl.afterIntegration fixedTimeStep).bind (fun cl1 =>
    (eraseExpiredConstraints cl1.m_clothParticles cl1.m_clothConstraints).map
      (fun cs => { cl1 with m_clothConstraints := cs }))

/-- The member `Cloth::Update`. -/
def Update [LinearOrderedField α] (sqrt : α → α) (cl : Cloth α) (_deltaSeconds : α) :
    Option (Cloth α) :=
  let fixedTimeStep : α := 1 / 1000
  (cl.afterErase fixedTimeStep).bind (fun cl2 =>
    (cl2.SatisfyConstraints sqrt fixedTimeStep).map Prod.fst)

end Cloth

/-! ## Predicates used in the statements -/

/-- The pointer designates a particle of the vector that owns a dynamics
state. -/
def validEndpoint {α : Type} (ps : List (Particle α)) (ptr : Option Int) : Bool :=
  match derefParticle ps ptr with
  | none => false
  | some p => p.m_state.isSome

/-- The pointer designates an expired particle of the vector. -/
def ptrExpired {α : Type} [LinearOrderedField α] (ps : List (Particle α))
    (ptr : Option Int) : Bool :=
  match derefParticle ps ptr with
  | none => false
  | some p => p.IsExpired

/-- A cloth state on which `Update` has defined behaviour: the particle
vector covers the grid, and both endpoints of every constraint designate
particles of the vector that own a dynamics state. -/
def Cloth.WellFormed {α : Type} (cl : Cloth α) : Prop :=
  (cl.m_numRows * cl.m_numCols).toNat ≤ cl.m_clothParticles.length ∧
  ∀ cc ∈ cl.m_clothConstraints,
    validEndpoint cl.m_clothParticles cc.p1 = true ∧
    validEndpoint cl.m_clothParticles cc.p2 = true

/-- The test of the first loop of `Cloth::Update`, as a function of the
particle. -/
def Particle.isIntegrated {α : Type} [LinearOrderedField α] (p : Particle α) : Bool :=
  decide (p.GetIsPinned = false ∨ p.IsExpired = true)

/-- A cloth built with the identity allocator, unit mass and radius, two
solver iterations, base distance 1, shear factor 3/2, bend factor 2, origin
and velocity zero, over the rationals. -/
def sampleCloth (numRows numCols : Int) : Option (Cloth ℚ) :=
  Cloth.new id ⟨0, 0, 0⟩ .PARTICLE_SPHERE 1 1 numRows numCols 2 1 (3 / 2) 2 ⟨0, 0, 0⟩

/-- The cloth `cl` after `SetIsExpired( true )` on the particle at position
`i` of the public vector `m_clothParticles`. -/
def Cloth.expireParticle {α : Type} [One α] [Neg α] (cl : Cloth α) (i : Nat) : Cloth α :=
  { cl with m_clothParticles := cl.m_clothParticles.modify (fun p => p.SetIsExpired true) i }

/-- The invariant of the first loop of `Cloth::Update` after `k` iterations
started on the particle vector `ps0`. -/
def IntegrationInv {α : Type} [LinearOrderedField α] (dt : α) (ps0 : List (Particle α)) (k : Nat)
    (st : List (Particle α) × List Int) : Prop :=
  st.1.length = ps0.length ∧
  (∀ (i : Nat) (p : Particle α), ps0[i]? = some p →
    st.1[i]? = some (if i < k ∧ p.isIntegrated = true then p.StepAndAge dt else p)) ∧
  (∀ j : Int, j ∈ st.2 ↔
    ∃ (i : Nat) (p : Particle α),
      i < k ∧ j = (i : Int) ∧ ps0[i]? = some p ∧ p.isIntegrated = true)

/-- The test of the second loop of `Cloth::Update`, negated: the constraint
stays unless both its endpoints are expired. -/
def keepConstraint {α : Type} [LinearOrderedField α] (ps : List (Particle α))
    (cc : ClothConstraint α) : Bool :=
  !(ptrExpired ps cc.p1 && ptrExpired ps cc.p2)

/-- The particle `q` is the particle `p` up to a change of dynamics state
that keeps a state present, and is `p` itself when `p` is pinned. -/
@[reducible] def Particle.SameButState {α : Type} (p q : Particle α) : Prop :=
  q.m_isPinned = p.m_isPinned ∧ q.m_secondsToLive = p.m_secondsToLive ∧
  q.m_state.isSome = p.m_state.isSome ∧ (p.m_isPinned = true → q = p)

/-- The relation between the particle vector before and after constraint
relaxation: position by position, `Particle.SameButState`. -/
@[reducible] def RelaxRel {α : Type} (ps ps2 : List (Particle α)) : Prop :=
  ps2.length = ps.length ∧
  ∀ (i : Nat) (p : Particle α), ps[i]? = some p → ∃ q, ps2[i]? = some q ∧ p.SameButState q

/-- The 1 x 1 sample cloth whose only particle, the pinned corner, has been
marked expired. -/
def shotCornerCloth : Option (Cloth ℚ) :=
  (sampleCloth 1 1).map (fun cl => cl.expireParticle 0)

/-- The 2 x 2 sample cloth whose particle at position 3, the unpinned
bottom-right one, has been marked expired. -/
def shotCellCloth : Option (Cloth ℚ) :=
  (sampleCloth 2 2).map (fun cl => cl.expireParticle 3)

instance Cloth.decidableWellFormed {α : Type} (cl : Cloth α) : Decidable cl.WellFormed := by
  unfold Cloth.WellFormed
  infer_instance

/-- The 2 x 2 sample cloth. -/
def sampleSquare : Cloth ℚ := (sampleCloth 2 2).get (by decide)

/-- The 3 x 3 sample cloth. -/
def sampleSquare3 : Cloth ℚ := (sampleCloth 3 3).get (by decide)

/-- The 2 x 3 sample cloth. -/
def sampleWide : Cloth ℚ := (sampleCloth 2 3).get (by decide)

/-- The rest distance that `Cloth::AddConstraints` gives to a constraint of
type `t`, for base distance `b`, shear factor `s` and bend factor `k`. -/
def restDistanceOf {α : Type} [Mul α] (b s k : α) : ConstraintType → α
  | .STRETCH => b
  | .SHEAR => b * s
  | .BEND => b * k

/-- The relation between two grid cells that a constraint of type `t` is
meant to join: one step along a row or a column for `STRETCH`, one step along
both for `SHEAR`, two steps along a row or a column for `BEND`. -/
def cellsRelated (t : ConstraintType) (r1 c1 r2 c2 : Int) : Prop :=
  match t with
  | .STRETCH =>
    ((r2 = r1 + 1 ∨ r2 = r1 - 1) ∧ c2 = c1) ∨ (r2 = r1 ∧ (c2 = c1 + 1 ∨ c2 = c1 - 1))
  | .SHEAR => (r2 = r1 + 1 ∨ r2 = r1 - 1) ∧ (c2 = c1 + 1 ∨ c2 = c1 - 1)
  | .BEND =>
    ((r2 = r1 + 2 ∨ r2 = r1 - 2) ∧ c2 = c1) ∨ (r2 = r1 ∧ (c2 = c1 + 2 ∨ c2 = c1 - 2))

/-- The particle with its dynamics state removed: everything
`AssignParticleStates` leaves alone. -/
def Particle.withoutState {α : Type} (p : Particle α) : Particle α :=
  { p with m_state := none }

/-- What `Cloth::AssignParticleStates` leaves unchanged: every member but the
template particle, and every particle up to its dynamics state. -/
def AssignFrame {α : Type} (cl0 cl : Cloth α) : Prop :=
  cl.m_numRows = cl0.m_numRows ∧ cl.m_numCols = cl0.m_numCols ∧
  cl.m_clothConstraints = cl0.m_clothConstraints ∧
  cl.m_originalTopLeftPosition = cl0.m_originalTopLeftPosition ∧
  cl.m_currentTopLeftPosition = cl0.m_currentTopLeftPosition ∧
  cl.m_numConstraintSolverIterations = cl0.m_numConstraintSolverIterations ∧
  cl.m_clothParticles.map Particle.withoutState =
    cl0.m_clothParticles.map Particle.withoutState

/-! ## Further members of `Cloth`: moving and rendering -/

/-- Engine `Vector2`: two scalar components. -/
structure Vector2 (α : Type) where
  x : α
  y : α
deriving DecidableEq, Repr

namespace Vector2

variable {α : Type}

/-- The constant `Vector2::UNIT_X`. -/
def UNIT_X [Zero α] [One α] : Vector2 α := ⟨1, 0⟩

/-- The constant `Vector2::UNIT_Y`. -/
def UNIT_Y [Zero α] [One α] : Vector2 α := ⟨0, 1⟩

/-- Componentwise sum, `operator+`. -/
def add [Add α] (a b : Vector2 α) : Vector2 α := ⟨a.x + b.x, a.y + b.y⟩

/-- Componentwise difference, `operator-`. -/
def sub [Sub α] (a b : Vector2 α) : Vector2 α := ⟨a.x - b.x, a.y - b.y⟩

/-- Multiplication by a scalar on the right, `operator*( Vector2, float )`. -/
def scale [Mul α] (a : Vector2 α) (s : α) : Vector2 α := ⟨a.x * s, a.y * s⟩

end Vector2

/-- The colours of `RGBA` that `Cloth::Render` uses. -/
inductive RGBA where
  | WHITE
  | RED
  | GREEN
  | BLUE
deriving DecidableEq, Repr

/-- The vertex type `Vertex_PCT( position, colour, texture coordinates )`. -/
structure Vertex_PCT (α : Type) where
  pos : Vector3 α
  color : RGBA
  texCoords : Vector2 α
deriving DecidableEq, Repr

/-- One call `DrawVertexArray( quad, 4, QUADS, ... )` of `Cloth::Render`: the
four vertices in array order, together with the block `(r, c)` of the loop
that emitted it (a record of the call, not program data). -/
structure QuadCall (α : Type) where
  r : Int
  c : Int
  bottomLeft : Vertex_PCT α
  bottomRight : Vertex_PCT α
  topRight : Vertex_PCT α
  topLeft : Vertex_PCT α
deriving DecidableEq, Repr

/-- What one call of `Cloth::Render` hands to the renderer: the quads, the
lines `DrawLine( p1, p2, colour )`, and the indices of the particles on which
`Particle::Render` is called. -/
structure RenderOutput (α : Type) where
  quads : List (QuadCall α)
  lines : List (Vector3 α × Vector3 α × RGBA)
  particles : List Int

/-- The four `Vector3` locals that `Cloth::Render` declares before its loops;
`none` is a local that no `GetPosition` has written yet. -/
structure RenderLocals (α : Type) where
  particleStateTopLeft : Option (Vector3 α)
  particleStateTopRight : Option (Vector3 α)
  particleStateBottomLeft : Option (Vector3 α)
  particleStateBottomRight : Option (Vector3 α)

/-- The call `ptr->GetPosition( local )`: the local is overwritten when the
particle owns a state and kept otherwise; `none` when the pointer cannot be
dereferenced. -/
def readPosition {α : Type} (ps : List (Particle α)) (ptr : Option Int)
    (loc : Option (Vector3 α)) : Option (Option (Vector3 α)) :=
  match derefParticle ps ptr with
  | none => none
  | some q =>
    match q.GetPosition with
    | none => some loc
    | some v => some (some v)

namespace Cloth

variable {α : Type}

/-- The body of the loop of `Cloth::MoveClothByOffset` at column `c`.  When
the particle owns no state, `GetPosition` and `SetPosition` both fail and
nothing changes. -/
def moveTopRowParticle [Add α] (offset : Vector3 α) (c : Int) (cl : Cloth α) :
    Option (Cloth α) :=
  let currentParticle := cl.GetParticle 0 c
  match derefParticle cl.m_clothParticles currentParticle with
  | none => none
  | some p =>
    match p.GetPosition with
    | none => some cl
    | some currentPosition =>
      (modifyParticle cl.m_clothParticles currentParticle
          (fun q => q.SetPosition (currentPosition.add offset))).map
        (fun ps => { cl with m_clothParticles := ps })

/-- The member `Cloth::MoveClothByOffset`. -/
def MoveClothByOffset [Add α] (cl : Cloth α) (offset : Vector3 α) : Option (Cloth α) :=
  (forLoop cl.m_numCols (moveTopRowParticle offset) cl).bind (fun cl1 =>
    match derefParticle cl1.m_clothParticles (cl1.GetParticle 0 0) with
    | none => none
    | some p =>
      match p.GetPosition with
      | none => some cl1
      | some pos => some { cl1 with m_currentTopLeftPosition := pos })

/-- The member `Cloth::GetCurrentTopLeftPosition`. -/
def GetCurrentTopLeftPosition (cl : Cloth α) : Vector3 α := cl.m_currentTopLeftPosition

/-- The member `Cloth::GetOriginalTopLeftPosition`. -/
def GetOriginalTopLeftPosition (cl : Cloth α) : Vector3 α := cl.m_originalTopLeftPosition

/-- The member `Cloth::SetTopLeftPosition`. -/
def SetTopLeftPosition (cl : Cloth α) (offset : Vector3 α) : Cloth α :=
  { cl with m_currentTopLeftPosition := offset }

/-- The body of the two loops of the `showCloth` part of `Cloth::Render` at
block `(r, c)`; the state is the four position locals and the quads emitted
so far.  Emitting a vertex from a local that was never written is treated as
undefined. -/
def renderBlock [LinearOrderedField α] (cl : Cloth α) (r c : Int)
    (st : RenderLocals α × List (QuadCall α)) : Option (RenderLocals α × List (QuadCall α)) :=
  match derefParticle cl.m_clothParticles (cl.GetParticle r c) with
  | none => none
  | some p =>
    if (p.IsExpired && p.IsExpired && p.IsExpired && p.IsExpired) = true then some st
    else
      match readPosition cl.m_clothParticles (cl.GetParticle r c) st.1.particleStateTopLeft,
        readPosition cl.m_clothParticles (cl.GetParticle r (c + 1))
          st.1.particleStateTopRight,
        readPosition cl.m_clothParticles (cl.GetParticle (r + 1) c)
          st.1.particleStateBottomLeft,
        readPosition cl.m_clothParticles (cl.GetParticle (r + 1) (c + 1))
          st.1.particleStateBottomRight with
      | some tl, some tr, some bl, some br =>
        let currentU : Vector2 α :=
          Vector2.UNIT_X.sub
            (Vector2.UNIT_X.scale (((c + 1 : Int) : α) / ((cl.m_numCols - 1 : Int) : α)))
        let currentV : Vector2 α :=
          Vector2.UNIT_Y.scale (((r : Int) : α) / ((cl.m_numRows - 1 : Int) : α))
        let nextU : Vector2 α :=
          Vector2.UNIT_X.sub
            (Vector2.UNIT_X.scale (((c : Int) : α) / ((cl.m_numCols - 1 : Int) : α)))
        let nextV : Vector2 α :=
          Vector2.UNIT_Y.scale (((r + 1 : Int) : α) / ((cl.m_numRows - 1 : Int) : α))
        match tl, tr, bl, br with
        | some vtl, some vtr, some vbl, some vbr =>
          some (⟨tl, tr, bl, br⟩, st.2 ++ [
            { r := r, c := c
              bottomLeft := ⟨vbl, .WHITE, nextU.add nextV⟩
              bottomRight := ⟨vbr, .WHITE, currentU.add nextV⟩
              topRight := ⟨vtr, .WHITE, currentU.add currentV⟩
              topLeft := ⟨vtl, .WHITE, nextU.add currentV⟩ }])
        | _, _, _, _ => none
      | _, _, _, _ => none

/-- The `showCloth` part of `Cloth::Render`: the loops
`for ( r = 0; ( r + 1 ) < m_numRows; r++ )` and
`for ( c = 0; ( c + 1 ) < m_numCols; c++ )`. -/
def renderQuads [LinearOrderedField α] (cl : Cloth α) : Option (List (QuadCall α)) :=
  (forLoop (cl.m_numRows - 1) (fun r st =>
      forLoop (cl.m_numCols - 1) (fun c st2 => cl.renderBlock r c st2) st)
    (⟨none, none, none, none⟩, [])).map Prod.snd

/-- The body of the loop of the `showConstraints` part of `Cloth::Render`:
one line per constraint, coloured by its type.  Drawing from a position local
that `GetPosition` did not write is treated as undefined. -/
def renderConstraint (ps : List (Particle α)) (cc : ClothConstraint α) :
    Option (Vector3 α × Vector3 α × RGBA) :=
  match readPosition ps cc.p1 none, readPosition ps cc.p2 none with
  | some (some particlePosition1), some (some particlePosition2) =>
    some (particlePosition1, particlePosition2,
      match cc.type with
      | .STRETCH => .RED
      | .SHEAR => .GREEN
      | .BEND => .BLUE)
  | _, _ => none

/-- The body of the last loop of `Cloth::Render`: `Particle::Render` is
called on the particle at `particleIndex` when it is not expired. -/
def renderParticle [LinearOrderedField α] (cl : Cloth α) (particleIndex : Int)
    (drawn : List Int) : Option (List Int) :=
  match derefParticle cl.m_clothParticles (some particleIndex) with
  | none => none
  | some p => if p.IsExpired = false then some (drawn ++ [particleIndex]) else some drawn

/-- The member `Cloth::Render`. -/
def Render [LinearOrderedField α] (cl : Cloth α) (showCloth showConstraints
    showParticles : Bool) : Option (RenderOutput α) :=
  (if showCloth then cl.renderQuads else some []).bind (fun quads =>
    (if showConstraints then cl.m_clothConstraints.mapM (renderConstraint cl.m_clothParticles)
      else some []).bind (fun lines =>
      if showParticles = false then some ⟨quads, lines, []⟩
      else
        (forLoop (cl.m_numRows * cl.m_numCols) (cl.renderParticle) []).map
          (fun drawn => ⟨quads, lines, drawn⟩)))

/-- The values that one call of `Cloth::SatisfyConstraints` hands to
`DebuggerPrintf`, in order: the single call after the loops. -/
def SatisfyConstraintsOutput [LinearOrderedField α] (sqrt : α → α) (cl : Cloth α)
    (deltaSeconds : α) : Option (List α) :=
  (cl.SatisfyConstraints sqrt deltaSeconds).map (fun r => [r.2])

end Cloth

/-! ## ParticleSystem -/

/-- The data members of the class `ParticleSystem`; the static sound handle
belongs to the audio collaborator and is left out. -/
structure ParticleSystem (α : Type) where
  m_maxDegreesDownFromWorldUp : α
  m_minDegreesDownFromWorldUp : α
  m_maxDegreesLeftFromWorldNorth : α
  m_minDegreesLeftFromWorldNorth : α
  m_muzzleSpeed : α
  m_secondsPassedSinceLastEmit : α
  m_secondsBetweenEmits : α
  m_secondsBeforeParticlesExpire : α
  m_maxParticlesEmitted : Nat
  m_particlesEmittedAtOnce : Nat
  m_emitterPosition : Vector3 α
  m_particleToEmit : Particle α
  m_unexpiredParticles : List (Particle α)

namespace ParticleSystem

variable {α : Type}

/-- The constructor `ParticleSystem::ParticleSystem`; `none` is the fatal
exit.  Modelled from the spec: the macro `GUARANTEE_OR_DIE( condition, text )`
is not among the sources; it ends the program when the condition is false
(the misconfiguration "is fatal at construction"). -/
def new [Zero α] (emitterPosition : Vector3 α) (particleType : ParticleType)
    (particleRadius particleMass muzzleSpeed maxDegreesDownFromWorldUp
      minDegreesDownFromWorldUp maxDegreesLeftFromWorldNorth minDegreesLeftFromWorldNorth
      secondsBetweenEmits secondsBeforeParticlesExpire : α)
    (maxParticlesEmitted particlesEmittedAtOnce : Nat) : Option (ParticleSystem α) :=
  let ps0 : ParticleSystem α :=
    { m_emitterPosition := emitterPosition
      m_muzzleSpeed := muzzleSpeed
      m_maxDegreesDownFromWorldUp := maxDegreesDownFromWorldUp
      m_minDegreesDownFromWorldUp := minDegreesDownFromWorldUp
      m_maxDegreesLeftFromWorldNorth := maxDegreesLeftFromWorldNorth
      m_minDegreesLeftFromWorldNorth := minDegreesLeftFromWorldNorth
      m_particleToEmit :=
        Particle.new particleType particleMass secondsBeforeParticlesExpire particleRadius
      m_secondsBetweenEmits := secondsBetweenEmits
      m_secondsBeforeParticlesExpire := secondsBeforeParticlesExpire
      m_maxParticlesEmitted := maxParticlesEmitted
      m_particlesEmittedAtOnce := particlesEmittedAtOnce
      m_secondsPassedSinceLastEmit := 0
      m_unexpiredParticles := [] }
  if ps0.m_particlesEmittedAtOnce ≤ ps0.m_maxParticlesEmitted then
    some { ps0 with
      m_particleToEmit :=
        ps0.m_particleToEmit.SetParticleState ⟨emitterPosition, Vector3.ZERO, []⟩ }
  else none

/-- The member `ParticleSystem::GetSecondsUntilNextEmit`. -/
def GetSecondsUntilNextEmit [Sub α] (s : ParticleSystem α) : α :=
  s.m_secondsBetweenEmits - s.m_secondsPassedSinceLastEmit

/-- The member `ParticleSystem::AddForce`. -/
def AddForce (s : ParticleSystem α) (newForce : Force α) : ParticleSystem α :=
  { s with m_particleToEmit := s.m_particleToEmit.AddForce newForce }

end ParticleSystem

/-! ## Further predicates used in the statements -/

/-- The half-correction vector that `Cloth::SatisfyConstraints` computes for
a constraint of rest distance `rest` whose current displacement is `d`. -/
def halfCorrection {α : Type} [Field α] (sqrt : α → α) (rest : α) (d : Vector3 α) :
    Vector3 α :=
  (d.scale 100).scale (1 / 2 * (1 - rest / d.CalculateMagnitude sqrt))

/-- The squared distance error of the constraint `cc` measured in the
particle vector `ps`: `(restDistance - currentDistance)^2`, and nothing when
the displacement is zero or an endpoint has no position. -/
def squaredError {α : Type} [LinearOrderedField α] (sqrt : α → α) (ps : List (Particle α))
    (cc : ClothConstraint α) : α :=
  match (derefParticle ps cc.p1).bind Particle.GetPosition,
    (derefParticle ps cc.p2).bind Particle.GetPosition with
  | some a, some b =>
    if b.sub a = Vector3.ZERO then 0
    else
      (cc.restDistance - (b.sub a).CalculateMagnitude sqrt) *
        (cc.restDistance - (b.sub a).CalculateMagnitude sqrt)
  | _, _ => 0

/-- The squared errors met during one pass over the constraints, each
measured when its constraint is processed, with the particles after the
pass. -/
def passErrors {α : Type} [LinearOrderedField α] (sqrt : α → α) (dt : α) :
    List (ClothConstraint α) → List (Particle α) → Option (List α × List (Particle α))
  | [], ps => some ([], ps)
  | cc :: rest, ps =>
    (Cloth.satisfyConstraint sqrt dt cc (ps, 0)).bind (fun st =>
      (passErrors sqrt dt rest st.1).map (fun r => (squaredError sqrt ps cc :: r.1, r.2)))

/-- The squared errors met during `n` passes, one list per pass, with the
particles after the last pass. -/
def iterationErrors {α : Type} [LinearOrderedField α] (sqrt : α → α) (dt : α)
    (cs : List (ClothConstraint α)) :
    Nat → List (Particle α) → Option (List (List α) × List (Particle α))
  | 0, ps => some ([], ps)
  | n + 1, ps =>
    (iterationErrors sqrt dt cs n ps).bind (fun r =>
      (passErrors sqrt dt cs r.2).map (fun q => (r.1 ++ [q.1], q.2)))

/-- The 2 x 2 sample cloth whose top-left particle, at position 0, has been
marked expired. -/
def shotTopLeftCloth : Cloth ℚ := sampleSquare.expireParticle 0

/-- The 1 x 2 sample cloth. -/
def sampleRow : Cloth ℚ := (sampleCloth 1 2).get (by decide)

/-- A particle of unit mass and radius and `secondsToLive = 1`, at rest at
`pos`, without forces. -/
def restingParticle {α : Type} [Zero α] [One α] (pos : Vector3 α) (pinned : Bool) :
    Particle α :=
  { m_mass := 1, m_secondsToLive := 1, m_renderType := .PARTICLE_SPHERE, m_renderRadius := 1,
    m_state := some ⟨pos, Vector3.ZERO, []⟩, m_isPinned := pinned }

/-- Two resting particles, at the origin and at `(3, 0, 0)`, with the given
pin flags. -/
def samplePair (α : Type) [Field α] (pinned1 pinned2 : Bool) : List (Particle α) :=
  [restingParticle ⟨0, 0, 0⟩ pinned1, restingParticle ⟨3, 0, 0⟩ pinned2]

/-- A `STRETCH` constraint of rest distance 1 between the particles at
positions 0 and 1 of the vector. -/
def sampleStretch (α : Type) [Field α] : ClothConstraint α := ⟨.STRETCH, some 0, some 1, 1⟩

/-- A `STRETCH` constraint of rest distance 1 with the particle at position 0
of the vector at both ends. -/
def sampleLoop (α : Type) [Field α] : ClothConstraint α := ⟨.STRETCH, some 0, some 0, 1⟩

/-- The particle `p` moved by `o`: `SetPosition( GetPosition() + o )`, and
`p` itself when it owns no state. -/
def Particle.movedBy {α : Type} [Add α] (p : Particle α) (o : Vector3 α) : Particle α :=
  match p.GetPosition with
  | none => p
  | some pos => p.SetPosition (pos.add o)

/-- The invariant of the loop of `Cloth::MoveClothByOffset` after `k`
columns, started on the cloth `cl0` with the offset `o`: the first `k`
particles are moved, nothing else has changed. -/
def MoveInv {α : Type} [Add α] (cl0 : Cloth α) (o : Vector3 α) (k : Nat) (st : Cloth α) :
    Prop :=
  st.m_numRows = cl0.m_numRows ∧ st.m_numCols = cl0.m_numCols ∧
  st.m_clothConstraints = cl0.m_clothConstraints ∧
  st.m_currentTopLeftPosition = cl0.m_currentTopLeftPosition ∧
  st.m_originalTopLeftPosition = cl0.m_originalTopLeftPosition ∧
  st.m_clothParticles.length = cl0.m_clothParticles.length ∧
  ∀ (i : Nat) (p : Particle α), cl0.m_clothParticles[i]? = some p →
    st.m_clothParticles[i]? = some (if i < k then p.movedBy o else p)

/-- The particle that the body of `Cloth::AssignParticleStates` stores at
cell `(r, c)` in place of `p`: a new state at the start position with the
given velocity, then the forces of the template `T`. -/
def assignedParticle {α : Type} [Field α] (b : α) (v O : Vector3 α) (T : Particle α)
    (r c : Int) (p : Particle α) : Particle α :=
  (p.SetParticleState
    ⟨(Vector3.mk ((c : α) * b) 0 (-(r : α) * b)).add O, v, []⟩).CloneForcesFromParticle T

/-- The invariant of the loops of `Cloth::AssignParticleStates` on a square
grid of side `n` after `m` cells in row-major order, started on the cloth
`cl0`: the first `m` particles are the assigned ones. -/
def AssignSquareInv {α : Type} [Field α] (cl0 : Cloth α) (b : α) (v : Vector3 α)
    (T : Particle α) (n m : Nat) (st : Cloth α) : Prop :=
  AssignFrame cl0 st ∧ st.m_particleTemplate = T ∧
  ∀ (i : Nat) (p0 : Particle α), cl0.m_clothParticles[i]? = some p0 →
    st.m_clothParticles[i]? = some
      (if i < m then
        assignedParticle b v cl0.m_currentTopLeftPosition T ((i / n : Nat) : Int)
          ((i % n : Nat) : Int) p0
      else p0)

/-! ## Samples and predicates for the grid index, the relaxation and the counts -/

/-- The 3 x 2 grid as the constructor allocates it, before
`AssignParticleStates` runs: six particles without state. -/
def allocatedTall : Cloth ℚ :=
  Cloth.allocate ⟨0, 0, 0⟩ .PARTICLE_SPHERE 1 1 3 2 2 1 (3 / 2) 2

/-- The texture coordinate `(1 - col/(C-1), row/(R-1))` of the cell
`(row, col)` of a grid of `R` rows and `C` columns. -/
def cellUV {α : Type} [Field α] (cl : Cloth α) (row col : Int) : Vector2 α :=
  ⟨1 - (col : α) / ((cl.m_numCols - 1 : Int) : α), (row : α) / ((cl.m_numRows - 1 : Int) : α)⟩

/-- The number of constraints of type `t` in a constraint list. -/
def countType {α : Type} (t : ConstraintType) (cs : List (ClothConstraint α)) : Nat :=
  cs.countP (fun cc => decide (cc.type = t))

/-- The constraint list `cs` has, by type, the numbers of entries of a grid
of `R` rows and `C` columns in which every pair of related cells is joined once
in each direction. -/
@[reducible] def gridConstraintCounts {α : Type} (cs : List (ClothConstraint α)) (R C : Int) :
    Prop :=
  ((countType .STRETCH cs : Nat) : Int) = 2 * ((R - 1) * C + R * (C - 1)) ∧
  ((countType .SHEAR cs : Nat) : Int) = 4 * (R - 1) * (C - 1) ∧
  ((countType .BEND cs : Nat) : Int) = 2 * (max (R - 2) 0 * C + R * max (C - 2) 0) ∧
  (cs.length : Int) =
    2 * ((R - 1) * C + R * (C - 1)) + 4 * (R - 1) * (C - 1) +
      2 * (max (R - 2) 0 * C + R * max (C - 2) 0)

/-- Two resting particles at the origin and at `(3, 0, 0)` with the given pin
flags, joined by one `STRETCH` constraint of rest distance 3, with `n` solver
iterations. -/
def restingPairCloth (α : Type) [Field α] (pinned1 pinned2 : Bool) (n : Nat) : Cloth α :=
  { m_particleTemplate := restingParticle ⟨0, 0, 0⟩ false
    m_originalTopLeftPosition := ⟨0, 0, 0⟩
    m_currentTopLeftPosition := ⟨0, 0, 0⟩
    m_numRows := 1
    m_numCols := 2
    m_numConstraintSolverIterations := n
    m_baseDistanceBetweenParticles := 3
    m_ratioDistanceStructuralToShear := 1
    m_ratioDistanceStructuralToBend := 2
    m_clothConstraints := [⟨.STRETCH, some 0, some 1, 3⟩]
    m_clothParticles := samplePair α pinned1 pinned2 }

/-- The endpoints of the constraint own a position each, and their distance
is not zero and is the rest distance of the constraint. -/
def atRest {α : Type} [LinearOrderedField α] (sqrt : α → α) (ps : List (Particle α))
    (cc : ClothConstraint α) : Prop :=
  ∃ q1 q2 a b, derefParticle ps cc.p1 = some q1 ∧ derefParticle ps cc.p2 = some q2 ∧
    q1.GetPosition = some a ∧ q2.GetPosition = some b ∧
    (b.sub a).CalculateMagnitude sqrt ≠ 0 ∧
    (b.sub a).CalculateMagnitude sqrt = cc.restDistance

/-! ## Reachable cloth states -/

/-- The invariant of the loops of `Cloth::AssignParticleStates` on a grid of
`n` rows, started on the cloth `cl0`, when the cells before `(r, c)` in
row-major order have been visited: the particle of every visited cell owns a
state, and the particle at position 0 is at the top-left position as soon as
the cell `(0, 0)` has been visited. -/
def AssignGridInv {α : Type} (cl0 : Cloth α) (n r c : Nat) (st : Cloth α) : Prop :=
  AssignFrame cl0 st ∧
  (∀ r2 c2 : Nat, (r2 < r ∨ (r2 = r ∧ c2 < c)) → (c2 : Int) < cl0.m_numCols →
    ∃ q, st.m_clothParticles[r2 * n + c2]? = some q ∧ q.m_state.isSome = true) ∧
  ((0 < r ∨ 0 < c) → ∃ q s, st.m_clothParticles[0]? = some q ∧ q.m_state = some s ∧
    s.m_position = cl0.m_currentTopLeftPosition)

/-- A call of one of the two members of `Cloth` that advance or move the
cloth. -/
inductive ClothCall (α : Type) where
  | Update (deltaSeconds : α)
  | MoveClothByOffset (offset : Vector3 α)

/-- The effect of one call on a cloth. -/
def Cloth.call {α : Type} [LinearOrderedField α] (sqrt : α → α) (cl : Cloth α) :
    ClothCall α → Option (Cloth α)
  | .Update deltaSeconds => cl.Update sqrt deltaSeconds
  | .MoveClothByOffset offset => cl.MoveClothByOffset offset

/-- The effect of a sequence of calls, made one after the other. -/
def Cloth.run {α : Type} [LinearOrderedField α] (sqrt : α → α) (cl : Cloth α)
    (calls : List (ClothCall α)) : Option (Cloth α) :=
  calls.foldlM (fun st c => st.call sqrt c) cl

/-- The sum of the offsets passed to `MoveClothByOffset` in a sequence of
calls. -/
def sumOffsets {α : Type} [Zero α] [Add α] : List (ClothCall α) → Vector3 α
  | [] => Vector3.ZERO
  | .Update _ :: rest => sumOffsets rest
  | .MoveClothByOffset offset :: rest => offset.add (sumOffsets rest)

/-- The invariant of the reachable cloth states: the state is one on which
`Update` is defined, the grid has a row and a column, the particle at position
0 is pinned, not expired and at `pos`, which is also the recorded current
top-left position, and the recorded original top-left position is `origin`. -/
def TopLeftInv {α : Type} [LinearOrderedField α] (origin pos : Vector3 α) (cl : Cloth α) :
    Prop :=
  cl.WellFormed ∧ 1 ≤ cl.m_numRows ∧ 1 ≤ cl.m_numCols ∧
  cl.m_currentTopLeftPosition = pos ∧ cl.m_originalTopLeftPosition = origin ∧
  ∃ p0 s0, cl.m_clothParticles[0]? = some p0 ∧ p0.m_state = some s0 ∧
    s0.m_position = pos ∧ p0.m_isPinned = true ∧ p0.IsExpired = false

/-! ## Mesh (`Engine/Renderer/Mesh.cpp`) -/

/-- The vertex type `Vertex_PCUTB`, with the members that `Mesh::CreateCube`
and `Mesh::CreateIcoSphere` write: position, colour and texture coordinates
(they leave the tangent and the bitangent at their default). -/
structure Vertex_PCUTB (α : Type) where
  pos : Vector3 α
  color : RGBA
  texCoords : Vector2 α
deriving DecidableEq, Repr

/-- The data members `m_verts` and `m_indices` of the class `Mesh`; the
buffer handles that `Mesh::Init` obtains from the renderer are left out. -/
structure Mesh (α : Type) where
  m_verts : List (Vertex_PCUTB α)
  m_indices : List Nat
deriving DecidableEq, Repr

namespace Mesh

variable {α : Type}

/-- The vertex that the loop of `Mesh::CreateCube` builds at index `i`. -/
def cubeVertex [Field α] (halfSideLength : α) (color : RGBA) (i : Int) : Vertex_PCUTB α :=
  { pos := ⟨if Int.land i 0x01 = 0 then halfSideLength else -halfSideLength,
      if Int.land i 0x02 = 0 then halfSideLength else -halfSideLength,
      if Int.land i 0x04 = 0 then halfSideLength else -halfSideLength⟩
    color := color
    texCoords := ⟨if Int.land i 0x01 = 0 then 0 else 1, if Int.land i 0x02 = 0 then 0 else 1⟩ }

/-- The static member `Mesh::CreateCube`, up to the final `Init()` call, which
hands the two vectors to the renderer. -/
def CreateCube [Field α] (sideLength : α) (color : RGBA) : Mesh α :=
  let halfSideLength : α := sideLength / 2
  let meshToCreate : Mesh α :=
    (List.range 8).foldl (fun m (i : Nat) =>
      { m with m_verts := m.m_verts ++ [cubeVertex halfSideLength color (i : Int)] }) ⟨[], []⟩
  { meshToCreate with
    m_indices := meshToCreate.m_indices ++
      [0, 2, 1,
       1, 2, 3,
       0, 6, 2,
       0, 4, 6,
       4, 5, 0,
       5, 1, 0,
       4, 5, 6,
       5, 7, 6,
       5, 3, 7,
       1, 3, 5,
       6, 2, 7,
       7, 2, 3] }

end Mesh

/-- The index list read three by three: the triangles of a `GL_TRIANGLES`
draw call. -/
def trianglesOf : List Nat → List (Nat × Nat × Nat)
  | a :: b :: c :: rest => (a, b, c) :: trianglesOf rest
  | _ => []

/-- The coordinate of a vector along the axis 0 (x), 1 (y) or 2 (z). -/
def Vector3.coordinate {α : Type} (v : Vector3 α) (axis : Nat) : α :=
  match axis with
  | 0 => v.x
  | 1 => v.y
  | _ => v.z

/-- The cube corner `i` lies on the face of the given axis on its negative
(`side = true`) or positive (`side = false`) side: bit `axis` of `i` is
`side`. -/
def cornerOnFace (axis : Nat) (side : Bool) (i : Nat) : Bool := i.testBit axis == side

/-- The three corners of the triangle lie on the face. -/
def triangleOnFace (axis : Nat) (side : Bool) (t : Nat × Nat × Nat) : Bool :=
  cornerOnFace axis side t.1 && cornerOnFace axis side t.2.1 && cornerOnFace axis side t.2.2

/-! ## `Mesh::CreateIcoSphere` -/

/-- The members of `Vector3` and `Vector2` that `Mesh::CreateIcoSphere` calls
and whose definitions are not among the sources, taken as parameters:
`Vector3::GetNormalized`, `Vector3::Normalize` (as the function from the old
to the new value), `Vector3::GetMidpoint`, `Vector2::GetMidpoint` and the
comparison `Vector3::operator==`. -/
structure VectorOps (α : Type) where
  GetNormalized : Vector3 α → Vector3 α
  Normalize : Vector3 α → Vector3 α
  GetMidpoint : Vector3 α → Vector3 α → Vector3 α
  GetMidpoint2 : Vector2 α → Vector2 α → Vector2 α
  equals : Vector3 α → Vector3 α → Bool

/-- The access `v.at( i )` to a `std::vector` with an `int` index: `none` is
the `std::out_of_range` exception. -/
def atIndex {β : Type} (v : List β) (i : Int) : Option β :=
  if 0 ≤ i then v[i.toNat]? else none

namespace Mesh

variable {α : Type}

/-- The first loop of `Mesh::CreateIcoSphere`: the six initial vertices. -/
def initialVertices [Field α] (ops : VectorOps α) (radius : α) (color : RGBA) :
    Option (Mesh α) :=
  let initialPoints : List (Vector3 α) :=
    [⟨0, 0, radius⟩, ⟨0, 0, -radius⟩, ⟨-radius, -radius, 0⟩, ⟨radius, -radius, 0⟩,
      ⟨radius, radius, 0⟩, ⟨-radius, radius, 0⟩]
  let initialUVs : List (Vector2 α) :=
    [⟨1 / 2, 1 / 2⟩, ⟨1 / 2, 1 / 2⟩, ⟨1, 1⟩, ⟨0, 1⟩, ⟨0, 0⟩, ⟨1, 0⟩]
  forLoop 6 (fun i (meshToCreate : Mesh α) =>
    match atIndex initialPoints i, atIndex initialUVs i with
    | some p, some uv =>
      some { meshToCreate with
        m_verts := meshToCreate.m_verts ++ [⟨(ops.GetNormalized p).scale radius, color, uv⟩] }
    | _, _ => none) ⟨[], []⟩

/-- The loop over `q` in `Mesh::CreateIcoSphere`: the last position of the
vertex vector whose `pos` equals each of the three points, or `-1`. -/
def findLocations (ops : VectorOps α) (verts : List (Vertex_PCUTB α))
    (point1 point2 point3 : Vector3 α) : Option (Int × Int × Int) :=
  forLoop (verts.length : Int) (fun q loc =>
    match atIndex verts q with
    | none => none
    | some vert =>
      let compare := vert.pos
      some (if ops.equals compare point1 = true then q else loc.1,
        if ops.equals compare point2 = true then q else loc.2.1,
        if ops.equals compare point3 = true then q else loc.2.2)) (-1, -1, -1)

/-- One of the three statements `if ( pointLocation == -1 ) { ... }` of
`Mesh::CreateIcoSphere`: a point that was not found is pushed back and its
location is the old size of the vertex vector. -/
def addIfMissing (verts : List (Vertex_PCUTB α)) (pointLocation : Int)
    (vertex : Vertex_PCUTB α) : Int × List (Vertex_PCUTB α) :=
  if pointLocation = -1 then ((verts.length : Int), verts ++ [vertex])
  else (pointLocation, verts)

/-- The body of the loop over `j` in `Mesh::CreateIcoSphere`: one face is
replaced by four.  The state is the mesh and `indicesIndex`.  The locations
pushed onto `m_indices` are converted from `int` to `unsigned int`; they are
not negative at that point. -/
def subdivideFace [Field α] (ops : VectorOps α) (radius : α) (color : RGBA)
    (st : Mesh α × Int) : Option (Mesh α × Int) :=
  let meshToCreate := st.1
  let x := st.2
  let y := st.2 + 1
  let z := st.2 + 2
  match atIndex meshToCreate.m_indices x, atIndex meshToCreate.m_indices y,
    atIndex meshToCreate.m_indices z with
  | some ix, some iy, some iz =>
    match meshToCreate.m_verts[ix]?, meshToCreate.m_verts[iy]?, meshToCreate.m_verts[iz]? with
    | some vx, some vy, some vz =>
      let point1 := ops.Normalize (ops.GetMidpoint vx.pos vy.pos)
      let point2 := ops.Normalize (ops.GetMidpoint vy.pos vz.pos)
      let point3 := ops.Normalize (ops.GetMidpoint vz.pos vx.pos)
      let uvPoint1 := ops.GetMidpoint2 vx.texCoords vy.texCoords
      let uvPoint2 := ops.GetMidpoint2 vy.texCoords vz.texCoords
      let uvPoint3 := ops.GetMidpoint2 vz.texCoords vx.texCoords
      match findLocations ops meshToCreate.m_verts point1 point2 point3 with
      | none => none
      | some loc =>
        let r1 := addIfMissing meshToCreate.m_verts loc.1 ⟨point1.scale radius, color, uvPoint1⟩
        let r2 := addIfMissing r1.2 loc.2.1 ⟨point2.scale radius, color, uvPoint2⟩
        let r3 := addIfMissing r2.2 loc.2.2 ⟨point3.scale radius, color, uvPoint3⟩
        let point1Location := r1.1.toNat
        let point2Location := r2.1.toNat
        let point3Location := r3.1.toNat
        let pushed := meshToCreate.m_indices ++
          [ix, point1Location, point3Location,
           point1Location, iy, point2Location,
           point3Location, point2Location, iz]
        some ({ m_verts := r3.2
                m_indices :=
                  ((pushed.set x.toNat point1Location).set y.toNat point2Location).set z.toNat
                    point3Location }, st.2 + 3)
    | _, _, _ => none
  | _, _, _ => none

/-- One pass of the outer loop of `Mesh::CreateIcoSphere`. -/
def subdividePass [Field α] (ops : VectorOps α) (radius : α) (color : RGBA)
    (meshToCreate : Mesh α) : Option (Mesh α) :=
  let numberOfFaces : Int := ((meshToCreate.m_indices.length / 3 : Nat) : Int)
  (forLoop numberOfFaces (fun _ st => subdivideFace ops radius color st)
    (meshToCreate, 0)).map Prod.fst

/-- The static member `Mesh::CreateIcoSphere`, up to the final `Init()` call.
`none` is an exception thrown by an `at()`. -/
def CreateIcoSphere [Field α] (ops : VectorOps α) (radius : α) (color : RGBA)
    (numPasses : Int) : Option (Mesh α) :=
  (initialVertices ops radius color).bind (fun m0 =>
    let meshToCreate : Mesh α :=
      { m0 with
        m_indices := m0.m_indices ++
          [0, 3, 4,
           0, 4, 5,
           0, 5, 2,
           0, 2, 3,
           1, 4, 3,
           1, 5, 4,
           1, 2, 5,
           1, 3, 2] }
    forLoop numPasses (fun _ m => subdividePass ops radius color m) meshToCreate)

end Mesh

/-- Sample vector operations over the rationals: the midpoint is the mean of
the two points, normalisation is the identity, and two vectors are equal when
their components are. -/
def sampleOps : VectorOps ℚ :=
  { GetNormalized := fun v => v
    Normalize := fun v => v
    GetMidpoint := fun a b => (a.add b).scale (1 / 2)
    GetMidpoint2 := fun a b => (a.add b).scale (1 / 2)
    equals := fun a b => decide (a = b) }

/-- Every index of the mesh designates a vertex of the mesh. -/
def Mesh.indicesInRange {α : Type} (m : Mesh α) : Prop :=
  ∀ i ∈ m.m_indices, i < m.m_verts.length

/-! ## Loops -/

section Loops

variable {σ : Type}

theorem forLoop_succ (k : Nat) (body : Int → σ → Option σ) (s : σ) :
    forLoop ((k + 1 : Nat) : Int) body s =
      (forLoop (k : Int) body s).bind (fun st => body (k : Int) st) := by
  unfold forLoop
  rw [Int.toNat_natCast, Int.toNat_natCast, List.range_succ, List.foldlM_append]
  cases h : List.foldlM (fun st (i : Nat) => body (i : Int) st) s (List.range k) <;>
    simp [List.foldlM_cons]

theorem forLoop_zero (body : Int → σ → Option σ) (s : σ) :
    forLoop ((0 : Nat) : Int) body s = some s := by
  simp [forLoop]

theorem forLoop_toNat (n : Int) (body : Int → σ → Option σ) (s : σ) :
    forLoop n body s = forLoop ((n.toNat : Nat) : Int) body s := by
  unfold forLoop
  rw [Int.toNat_natCast]

/-- Total correctness of a counted loop from an invariant indexed by the
number of completed iterations. -/
theorem forLoop_total (n : Nat) (body : Int → σ → Option σ) (Inv : Nat → σ → Prop)
    (s : σ) (h0 : Inv 0 s)
    (hstep : ∀ k st, k < n → Inv k st → ∃ st2, body (k : Int) st = some st2 ∧ Inv (k + 1) st2) :
    ∃ st, forLoop (n : Int) body s = some st ∧ Inv n st := by
  induction n with
  | zero => exact ⟨s, forLoop_zero body s, h0⟩
  | succ k ih =>
    obtain ⟨st, hst, hinv⟩ := ih (fun j st hj hI => hstep j st (Nat.lt_succ_of_lt hj) hI)
    obtain ⟨st2, hb, hinv2⟩ := hstep k st (Nat.lt_succ_self k) hinv
    exact ⟨st2, by rw [forLoop_succ, hst]; simpa using hb, hinv2⟩

/-- Partial correctness of a counted loop: a property kept by every
successful run of the body is kept by the loop. -/
theorem forLoop_preserves (n : Int) (body : Int → σ → Option σ) (P : σ → Prop)
    (hstep : ∀ i st st2, 0 ≤ i → i < n → body i st = some st2 → P st → P st2)
    (s st : σ) (h : forLoop n body s = some st) (h0 : P s) : P st := by
  rw [forLoop_toNat] at h
  have key : ∀ k : Nat, k ≤ n.toNat → ∀ st, forLoop (k : Int) body s = some st → P st := by
    intro k
    induction k with
    | zero =>
      intro _ st hst
      rw [forLoop_zero] at hst
      cases hst
      exact h0
    | succ k ih =>
      intro hk st hst
      rw [forLoop_succ] at hst
      cases hm : forLoop (k : Int) body s with
      | none => rw [hm] at hst; simp at hst
      | some mid =>
        rw [hm] at hst
        simp only [Option.some_bind] at hst
        have hlt : (k : Int) < n := by
          have : k < n.toNat := hk
          exact Int.lt_toNat.mp this
        exact hstep k mid st (Int.natCast_nonneg k) hlt hst (ih (Nat.le_of_succ_le hk) mid hm)
  exact key n.toNat le_rfl st h

end Loops

/-! ## Pointers into the particle vector -/

section Pointers

variable {α : Type}

theorem derefParticle_natCast (ps : List (Particle α)) (k : Nat) :
    derefParticle ps (some (k : Int)) = ps[k]? := by
  simp [derefParticle]

theorem derefParticle_eq_some {ps : List (Particle α)} {ptr : Option Int} {p : Particle α}
    (h : derefParticle ps ptr = some p) :
    ∃ i : Nat, ptr = some (i : Int) ∧ ps[i]? = some p := by
  cases ptr with
  | none => simp [derefParticle] at h
  | some j =>
    by_cases hj : 0 ≤ j
    · refine ⟨j.toNat, ?_, ?_⟩
      · rw [Int.toNat_of_nonneg hj]
      · simpa [derefParticle, hj] using h
    · simp [derefParticle, hj] at h

theorem modifyParticle_natCast (ps : List (Particle α)) (k : Nat) (f : Particle α → Particle α)
    (p : Particle α) (h : ps[k]? = some p) :
    modifyParticle ps (some (k : Int)) f = some (ps.set k (f p)) := by
  simp [modifyParticle, derefParticle, h]

theorem validEndpoint_deref {ps : List (Particle α)} {ptr : Option Int}
    (h : validEndpoint ps ptr = true) :
    ∃ p s, derefParticle ps ptr = some p ∧ p.m_state = some s := by
  unfold validEndpoint at h
  cases hd : derefParticle ps ptr with
  | none => rw [hd] at h; simp at h
  | some p =>
    rw [hd] at h
    cases hs : p.m_state with
    | none => simp [hs] at h
    | some st => exact ⟨p, st, rfl, hs⟩

end Pointers

/-! ## The integration loop of `Update` -/

section Integration

variable {α : Type} [LinearOrderedField α]

theorem integrateParticle_step (dt : α) (ps0 : List (Particle α)) (k : Nat)
    (st : List (Particle α) × List Int) (hk : k < ps0.length)
    (hinv : IntegrationInv dt ps0 k st) :
    ∃ st2, Cloth.integrateParticle dt (k : Int) st = some st2 ∧
      IntegrationInv dt ps0 (k + 1) st2 := by
  obtain ⟨hlen, hps, hcalls⟩ := hinv
  obtain ⟨p, hp⟩ : ∃ p, ps0[k]? = some p := ⟨ps0[k], by simp [hk]⟩
  have hcur : st.1[k]? = some p := by
    have := hps k p hp
    simpa using this
  by_cases hg : p.isIntegrated = true
  · have hg2 : p.GetIsPinned = false ∨ p.IsExpired = true := by
      simpa [Particle.isIntegrated] using hg
    refine ⟨(st.1.set k (p.StepAndAge dt), st.2 ++ [(k : Int)]), ?_, ?_, ?_, ?_⟩
    · simp only [Cloth.integrateParticle, derefParticle_natCast, hcur, Int.toNat_natCast]
      rw [if_pos hg2]
    · simp [hlen]
    · intro i q hq
      by_cases hik : i = k
      · subst hik
        have hqp : q = p := by
          rw [hp] at hq
          exact (Option.some.inj hq).symm
        subst hqp
        rw [List.getElem?_set_self (by rw [hlen]; exact hk)]
        simp [hg]
      · rw [List.getElem?_set_ne (Ne.symm hik), hps i q hq]
        have : i < k + 1 ↔ i < k := by omega
        simp only [this]
    · intro j
      simp only [List.mem_append, List.mem_singleton, hcalls]
      constructor
      · rintro (⟨i, q, hi, hj, hq, hqg⟩ | hj)
        · exact ⟨i, q, by omega, hj, hq, hqg⟩
        · exact ⟨k, p, by omega, hj, hp, hg⟩
      · rintro ⟨i, q, hi, hj, hq, hqg⟩
        by_cases hik : i = k
        · right
          rw [hj, hik]
        · left
          exact ⟨i, q, by omega, hj, hq, hqg⟩
  · have hg2 : ¬ (p.GetIsPinned = false ∨ p.IsExpired = true) := by
      simpa [Particle.isIntegrated] using hg
    refine ⟨st, ?_, hlen, ?_, ?_⟩
    · simp only [Cloth.integrateParticle, derefParticle_natCast, hcur]
      rw [if_neg hg2]
    · intro i q hq
      rw [hps i q hq]
      by_cases hik : i = k
      · subst hik
        have hqp : q = p := by
          rw [hp] at hq
          exact (Option.some.inj hq).symm
        subst hqp
        simp [hg]
      · have : i < k + 1 ↔ i < k := by omega
        simp only [this]
    · intro j
      rw [hcalls]
      constructor
      · rintro ⟨i, q, hi, hj, hq, hqg⟩
        exact ⟨i, q, by omega, hj, hq, hqg⟩
      · rintro ⟨i, q, hi, hj, hq, hqg⟩
        have hik : i ≠ k := by
          rintro rfl
          rw [hp] at hq
          cases hq
          exact hg hqg
        exact ⟨i, q, by omega, hj, hq, hqg⟩

/-- The first loop of `Cloth::Update` terminates normally when the particle
vector covers the grid, and its result satisfies the loop invariant. -/
theorem integrateParticles_total (cl : Cloth α) (dt : α)
    (hlen : (cl.m_numRows * cl.m_numCols).toNat ≤ cl.m_clothParticles.length) :
    ∃ st, cl.integrateParticles dt = some st ∧
      IntegrationInv dt cl.m_clothParticles (cl.m_numRows * cl.m_numCols).toNat st := by
  unfold Cloth.integrateParticles
  rw [forLoop_toNat]
  apply forLoop_total _ _ (IntegrationInv dt cl.m_clothParticles)
  · refine ⟨rfl, ?_, ?_⟩
    · intro i p hp
      simpa using hp
    · intro j
      simp
  · intro k st hk hinv
    exact integrateParticle_step dt cl.m_clothParticles k st (by omega) hinv

end Integration

/-! ## The erase loop of `Update` -/

section Erase

variable {α : Type} [LinearOrderedField α]

/-- The iterator loop of `Cloth::Update` is a filter: it removes exactly the
constraints whose two endpoints are expired and keeps the others in order. -/
theorem eraseExpiredConstraints_eq_filter (ps : List (Particle α))
    (cs : List (ClothConstraint α))
    (h : ∀ cc ∈ cs, validEndpoint ps cc.p1 = true ∧ validEndpoint ps cc.p2 = true) :
    Cloth.eraseExpiredConstraints ps cs = some (cs.filter (keepConstraint ps)) := by
  induction cs with
  | nil => rfl
  | cons cc rest ih =>
    have ih2 := ih (fun c hc => h c (List.mem_cons_of_mem _ hc))
    obtain ⟨h1, h2⟩ := h cc (List.mem_cons_self _ _)
    obtain ⟨q1, s1, hq1, -⟩ := validEndpoint_deref h1
    obtain ⟨q2, s2, hq2, -⟩ := validEndpoint_deref h2
    simp only [Cloth.eraseExpiredConstraints, hq1, hq2, ih2, List.filter_cons, keepConstraint,
      ptrExpired]
    by_cases e1 : q1.IsExpired = true <;> by_cases e2 : q2.IsExpired = true <;>
      simp [e1, e2]

end Erase

/-! ## Constraint relaxation -/

section Relax

variable {α : Type}

theorem sameButState_refl (p : Particle α) : p.SameButState p :=
  ⟨rfl, rfl, rfl, fun _ => rfl⟩

theorem sameButState_trans {p q r : Particle α} (h1 : p.SameButState q)
    (h2 : q.SameButState r) : p.SameButState r := by
  obtain ⟨a1, b1, c1, d1⟩ := h1
  obtain ⟨a2, b2, c2, d2⟩ := h2
  refine ⟨a2.trans a1, b2.trans b1, c2.trans c1, fun hp => ?_⟩
  have hq : q = p := d1 hp
  subst hq
  exact d2 hp

theorem relaxRel_refl (ps : List (Particle α)) : RelaxRel ps ps :=
  ⟨rfl, fun _ p hp => ⟨p, hp, sameButState_refl p⟩⟩

theorem relaxRel_trans {ps ps2 ps3 : List (Particle α)} (h1 : RelaxRel ps ps2)
    (h2 : RelaxRel ps2 ps3) : RelaxRel ps ps3 := by
  refine ⟨h2.1.trans h1.1, fun i p hp => ?_⟩
  obtain ⟨q, hq, hpq⟩ := h1.2 i p hp
  obtain ⟨r, hr, hqr⟩ := h2.2 i q hq
  exact ⟨r, hr, sameButState_trans hpq hqr⟩

theorem relaxRel_deref {ps ps2 : List (Particle α)} (h : RelaxRel ps ps2) {ptr : Option Int}
    {p : Particle α} (hp : derefParticle ps ptr = some p) :
    ∃ q, derefParticle ps2 ptr = some q ∧ p.SameButState q := by
  obtain ⟨i, rfl, hi⟩ := derefParticle_eq_some hp
  obtain ⟨q, hq, hpq⟩ := h.2 i p hi
  exact ⟨q, by rw [derefParticle_natCast]; exact hq, hpq⟩

theorem relaxRel_validEndpoint {ps ps2 : List (Particle α)} (h : RelaxRel ps ps2)
    {ptr : Option Int} (hv : validEndpoint ps ptr = true) : validEndpoint ps2 ptr = true := by
  obtain ⟨p, s, hp, hs⟩ := validEndpoint_deref hv
  obtain ⟨q, hq, hpq⟩ := relaxRel_deref h hp
  unfold LaundrySquadron.validEndpoint
  rw [hq]
  have := hpq.2.2.1
  simpa [hs] using this

theorem modifyParticle_rel (ps : List (Particle α)) (ptr : Option Int) (p : Particle α)
    (f : Particle α → Particle α) (hd : derefParticle ps ptr = some p)
    (hf : p.SameButState (f p)) :
    ∃ ps2, modifyParticle ps ptr f = some ps2 ∧ RelaxRel ps ps2 := by
  obtain ⟨i, rfl, hi⟩ := derefParticle_eq_some hd
  refine ⟨ps.set i (f p), modifyParticle_natCast ps i f p hi, by simp, fun j q hq => ?_⟩
  by_cases hij : i = j
  · subst hij
    have hlt : i < ps.length := by
      obtain ⟨hlt, -⟩ := List.getElem?_eq_some_iff.mp hi
      exact hlt
    have hqp : q = p := by
      rw [hi] at hq
      exact (Option.some.inj hq).symm
    subst hqp
    exact ⟨f q, List.getElem?_set_self hlt, hf⟩
  · exact ⟨q, by rw [List.getElem?_set_ne hij]; exact hq, sameButState_refl q⟩

theorem Particle.translate_same [Add α] (p : Particle α) (v : Vector3 α)
    (hp : p.m_isPinned = false) : p.SameButState (p.Translate v) := by
  refine ⟨rfl, rfl, ?_, fun h => ?_⟩
  · cases hs : p.m_state <;> simp [Particle.Translate, hs]
  · rw [hp] at h
    cases h

variable [LinearOrderedField α]

/-- One constraint correction has defined behaviour when both endpoints are
valid, and leaves every pinned particle as it is. -/
theorem satisfyConstraint_total (sqrt : α → α) (dt : α) (cc : ClothConstraint α)
    (st : List (Particle α) × α)
    (h1 : validEndpoint st.1 cc.p1 = true) (h2 : validEndpoint st.1 cc.p2 = true) :
    ∃ st2, Cloth.satisfyConstraint sqrt dt cc st = some st2 ∧ RelaxRel st.1 st2.1 := by
  obtain ⟨q1, s1, hq1, hs1⟩ := validEndpoint_deref h1
  obtain ⟨q2, s2, hq2, hs2⟩ := validEndpoint_deref h2
  have hg1 : q1.GetPosition = some s1.m_position := by simp [Particle.GetPosition, hs1]
  have hg2 : q2.GetPosition = some s2.m_position := by simp [Particle.GetPosition, hs2]
  simp only [Cloth.satisfyConstraint, hq1, hq2, hg1, hg2]
  by_cases hz : s2.m_position.sub s1.m_position = Vector3.ZERO
  · rw [if_pos hz]
    exact ⟨st, rfl, relaxRel_refl _⟩
  · rw [if_neg hz]
    by_cases hp1 : q1.GetIsPinned = false
    · rw [if_pos hp1]
      obtain ⟨ps1, hm1, hr1⟩ := modifyParticle_rel st.1 cc.p1 q1
        (fun p => p.Translate (((((s2.m_position.sub s1.m_position).scale 100).scale
          (1 / 2 * (1 - cc.restDistance /
            (s2.m_position.sub s1.m_position).CalculateMagnitude sqrt))).scale
          (if q2.GetIsPinned = true then 2 else 1)).scale dt)) hq1
        (Particle.translate_same q1 _ hp1)
      rw [hm1]
      dsimp only
      by_cases hp2 : q2.GetIsPinned = false
      · rw [if_pos hp2]
        obtain ⟨r2, hr2d, hr2s⟩ := relaxRel_deref hr1 hq2
        have hr2p : r2.m_isPinned = false := by rw [hr2s.1]; exact hp2
        obtain ⟨ps2, hm2, hr2⟩ := modifyParticle_rel ps1 cc.p2 r2
          (fun p => p.Translate (((((s2.m_position.sub s1.m_position).scale 100).scale
            (1 / 2 * (1 - cc.restDistance /
              (s2.m_position.sub s1.m_position).CalculateMagnitude sqrt))).neg.scale
            (if q1.GetIsPinned = true then 2 else 1)).scale dt)) hr2d
          (Particle.translate_same r2 _ hr2p)
        simp only [hm2, Option.map_some']
        exact ⟨_, rfl, relaxRel_trans hr1 hr2⟩
      · rw [if_neg hp2]
        simp only [Option.map_some']
        exact ⟨_, rfl, hr1⟩
    · rw [if_neg hp1]
      dsimp only
      by_cases hp2 : q2.GetIsPinned = false
      · rw [if_pos hp2]
        obtain ⟨ps2, hm2, hr2⟩ := modifyParticle_rel st.1 cc.p2 q2
          (fun p => p.Translate (((((s2.m_position.sub s1.m_position).scale 100).scale
            (1 / 2 * (1 - cc.restDistance /
              (s2.m_position.sub s1.m_position).CalculateMagnitude sqrt))).neg.scale
            (if q1.GetIsPinned = true then 2 else 1)).scale dt)) hq2
          (Particle.translate_same q2 _ hp2)
        simp only [hm2, Option.map_some']
        exact ⟨_, rfl, hr2⟩
      · rw [if_neg hp2]
        simp only [Option.map_some']
        exact ⟨_, rfl, relaxRel_refl _⟩

/-- One pass over the constraints has defined behaviour when all endpoints
are valid. -/
theorem satisfyPass_total (sqrt : α → α) (dt : α) (cs : List (ClothConstraint α))
    (st : List (Particle α) × α)
    (h : ∀ cc ∈ cs, validEndpoint st.1 cc.p1 = true ∧ validEndpoint st.1 cc.p2 = true) :
    ∃ st2, Cloth.satisfyPass sqrt dt cs st = some st2 ∧ RelaxRel st.1 st2.1 := by
  induction cs generalizing st with
  | nil => exact ⟨st, rfl, relaxRel_refl _⟩
  | cons cc rest ih =>
    obtain ⟨h1, h2⟩ := h cc (List.mem_cons_self _ _)
    obtain ⟨mid, hmid, hrel⟩ := satisfyConstraint_total sqrt dt cc st h1 h2
    obtain ⟨st2, hst2, hrel2⟩ := ih mid (fun c hc =>
      ⟨relaxRel_validEndpoint hrel (h c (List.mem_cons_of_mem _ hc)).1,
        relaxRel_validEndpoint hrel (h c (List.mem_cons_of_mem _ hc)).2⟩)
    refine ⟨st2, ?_, relaxRel_trans hrel hrel2⟩
    unfold Cloth.satisfyPass at hst2 ⊢
    rw [List.foldlM_cons, hmid]
    exact hst2

/-- `SatisfyConstraints` has defined behaviour on a cloth whose constraints
have valid endpoints; it changes neither the constraints nor any pinned
particle. -/
theorem SatisfyConstraints_total (sqrt : α → α) (cl : Cloth α) (dt : α)
    (h : ∀ cc ∈ cl.m_clothConstraints,
      validEndpoint cl.m_clothParticles cc.p1 = true ∧
      validEndpoint cl.m_clothParticles cc.p2 = true) :
    ∃ cl2 norm, cl.SatisfyConstraints sqrt dt = some (cl2, norm) ∧
      cl2.m_clothConstraints = cl.m_clothConstraints ∧
      RelaxRel cl.m_clothParticles cl2.m_clothParticles := by
  obtain ⟨st, hst, hinv⟩ := forLoop_total cl.m_numConstraintSolverIterations
    (fun _ st => Cloth.satisfyPass sqrt dt cl.m_clothConstraints st)
    (fun _ st => RelaxRel cl.m_clothParticles st.1) (cl.m_clothParticles, 0)
    (relaxRel_refl _)
    (fun k st _ hrel => by
      obtain ⟨st2, hst2, hrel2⟩ := satisfyPass_total sqrt dt cl.m_clothConstraints st
        (fun c hc => ⟨relaxRel_validEndpoint hrel (h c hc).1, relaxRel_validEndpoint hrel (h c hc).2⟩)
      exact ⟨st2, hst2, relaxRel_trans hrel hrel2⟩)
  refine ⟨{ cl with m_clothParticles := st.1 }, st.2, ?_, rfl, hinv⟩
  unfold Cloth.SatisfyConstraints
  rw [hst]
  rfl

end Relax

/-! ## `Cloth::Update` as a whole -/

section UpdateWhole

variable {α : Type} [LinearOrderedField α]

theorem Particle.stepAndAge_state_isSome (p : Particle α) (dt : α) :
    (p.StepAndAge dt).m_state.isSome = p.m_state.isSome := by
  cases hs : p.m_state <;> simp [Particle.StepAndAge, hs]

theorem integrationInv_validEndpoint {dt : α} {ps0 : List (Particle α)} {k : Nat}
    {st : List (Particle α) × List Int} (hinv : IntegrationInv dt ps0 k st)
    {ptr : Option Int} (hv : validEndpoint ps0 ptr = true) : validEndpoint st.1 ptr = true := by
  obtain ⟨p, s, hp, hs⟩ := validEndpoint_deref hv
  obtain ⟨i, rfl, hi⟩ := derefParticle_eq_some hp
  have h2 := hinv.2.1 i p hi
  unfold LaundrySquadron.validEndpoint
  rw [derefParticle_natCast, h2]
  by_cases hc : i < k ∧ p.isIntegrated = true
  · rw [if_pos hc]
    simp [Particle.stepAndAge_state_isSome, hs]
  · rw [if_neg hc]
    simp [hs]

/-- On a well-formed cloth every phase of `Update` has defined behaviour:
the integration loop satisfies its invariant, the erase loop filters the
constraints, and relaxation keeps the constraints and every pinned particle. -/
theorem Update_phases (sqrt : α → α) (cl : Cloth α) (dt : α) (hwf : cl.WellFormed) :
    ∃ st cl3,
      cl.integrateParticles (1 / 1000) = some st ∧
      IntegrationInv (1 / 1000) cl.m_clothParticles (cl.m_numRows * cl.m_numCols).toNat st ∧
      cl.afterIntegration (1 / 1000) = some { cl with m_clothParticles := st.1 } ∧
      cl.afterErase (1 / 1000) = some
        { cl with
          m_clothParticles := st.1
          m_clothConstraints := cl.m_clothConstraints.filter (keepConstraint st.1) } ∧
      cl.Update sqrt dt = some cl3 ∧
      cl3.m_clothConstraints = cl.m_clothConstraints.filter (keepConstraint st.1) ∧
      RelaxRel st.1 cl3.m_clothParticles := by
  obtain ⟨hlen, hvalid⟩ := hwf
  obtain ⟨st, hst, hinv⟩ := integrateParticles_total cl (1 / 1000) hlen
  have hvalid1 : ∀ cc ∈ cl.m_clothConstraints,
      validEndpoint st.1 cc.p1 = true ∧ validEndpoint st.1 cc.p2 = true :=
    fun cc hcc => ⟨integrationInv_validEndpoint hinv (hvalid cc hcc).1, integrationInv_validEndpoint hinv (hvalid cc hcc).2⟩
  have hint : cl.afterIntegration (1 / 1000) = some { cl with m_clothParticles := st.1 } := by
    unfold Cloth.afterIntegration
    rw [hst]
    rfl
  have herase : cl.afterErase (1 / 1000) = some
      { cl with
        m_clothParticles := st.1
        m_clothConstraints := cl.m_clothConstraints.filter (keepConstraint st.1) } := by
    unfold Cloth.afterErase
    rw [hint]
    simp only [Option.some_bind]
    rw [eraseExpiredConstraints_eq_filter st.1 cl.m_clothConstraints hvalid1]
    rfl
  obtain ⟨cl3, norm, hsat, hcs, hrel⟩ := SatisfyConstraints_total sqrt
    { cl with
      m_clothParticles := st.1
      m_clothConstraints := cl.m_clothConstraints.filter (keepConstraint st.1) } (1 / 1000)
    (fun cc hcc => hvalid1 cc (List.mem_of_mem_filter hcc))
  refine ⟨st, cl3, hst, hinv, hint, herase, ?_, hcs, hrel⟩
  unfold Cloth.Update
  simp only [herase, Option.some_bind, hsat, Option.map_some']

end UpdateWhole

/-! ## The pointer-keyed set of `AddConstraints` -/

section ConstraintSet

variable {α : Type}

theorem setInsert_subset (k : Nat) (v : ClothConstraint α) (s : List (Nat × ClothConstraint α)) :
    ∀ x ∈ setInsert k v s, x = (k, v) ∨ x ∈ s := by
  induction s with
  | nil =>
    intro x hx
    simp [setInsert] at hx
    exact Or.inl hx
  | cons e rest ih =>
    intro x hx
    unfold setInsert at hx
    split_ifs at hx with h1 h2
    · rcases List.mem_cons.mp hx with h | h
      · exact Or.inl h
      · exact Or.inr h
    · exact Or.inr hx
    · rcases List.mem_cons.mp hx with h | h
      · exact Or.inr (by rw [h]; exact List.mem_cons_self _ _)
      · rcases ih x h with h3 | h3
        · exact Or.inl h3
        · exact Or.inr (List.mem_cons_of_mem _ h3)

/-- Inserting an address that is not yet in the set adds the new element and
keeps all others. -/
theorem setInsert_perm (k : Nat) (v : ClothConstraint α) (s : List (Nat × ClothConstraint α))
    (hk : ∀ e ∈ s, e.1 ≠ k) : (setInsert k v s).Perm ((k, v) :: s) := by
  induction s with
  | nil => exact List.Perm.refl _
  | cons e rest ih =>
    unfold setInsert
    split_ifs with h1 h2
    · exact List.Perm.refl _
    · exact absurd h2.symm (hk e (List.mem_cons_self _ _))
    · exact ((ih (fun x hx => hk x (List.mem_cons_of_mem _ hx))).cons e).trans
        (List.Perm.swap _ _ _)

theorem insertAll_subset (addr : Nat → Nat) (vs : List (ClothConstraint α)) :
    ∀ (n : Nat) (s : List (Nat × ClothConstraint α)),
      ∀ x ∈ (insertAll addr n vs s).map Prod.snd, x ∈ s.map Prod.snd ∨ x ∈ vs := by
  induction vs with
  | nil =>
    intro n s x hx
    exact Or.inl hx
  | cons v vs ih =>
    intro n s x hx
    rcases ih (n + 1) (setInsert (addr n) v s) x hx with h | h
    · obtain ⟨e, he, rfl⟩ := List.mem_map.mp h
      rcases setInsert_subset (addr n) v s e he with h2 | h2
      · right
        rw [h2]
        exact List.mem_cons_self _ _
      · left
        exact List.mem_map.mpr ⟨e, h2, rfl⟩
    · exact Or.inr (List.mem_cons_of_mem _ h)

/-- With distinct addresses for distinct allocations, the set keeps every
inserted constraint exactly once. -/
theorem insertAll_perm (addr : Nat → Nat) (hinj : Function.Injective addr)
    (vs : List (ClothConstraint α)) :
    ∀ (n : Nat) (s : List (Nat × ClothConstraint α)),
      (∀ e ∈ s, ∃ i, i < n ∧ e.1 = addr i) →
      ((insertAll addr n vs s).map Prod.snd).Perm (s.map Prod.snd ++ vs) := by
  induction vs with
  | nil =>
    intro n s _
    simp [insertAll]
  | cons v vs ih =>
    intro n s hs
    have hfresh : ∀ e ∈ s, e.1 ≠ addr n := by
      intro e he heq
      obtain ⟨i, hi, hei⟩ := hs e he
      have : i = n := hinj (hei.symm.trans heq)
      omega
    have hs2 : ∀ e ∈ setInsert (addr n) v s, ∃ i, i < n + 1 ∧ e.1 = addr i := by
      intro e he
      rcases setInsert_subset (addr n) v s e he with h | h
      · exact ⟨n, Nat.lt_succ_self n, by rw [h]⟩
      · obtain ⟨i, hi, hei⟩ := hs e h
        exact ⟨i, Nat.lt_succ_of_lt hi, hei⟩
    have h1 := ih (n + 1) (setInsert (addr n) v s) hs2
    have h2 : ((setInsert (addr n) v s).map Prod.snd).Perm (v :: s.map Prod.snd) :=
      (setInsert_perm (addr n) v s hfresh).map Prod.snd
    exact (h1.trans (h2.append_right vs)).trans List.perm_middle.symm

theorem AddConstraints_subset [Mul α] (cl : Cloth α) (addr : Nat → Nat) (b s k : α) :
    ∀ x ∈ (cl.AddConstraints addr b s k).m_clothConstraints,
      x ∈ cl.m_clothConstraints ∨ x ∈ cl.newConstraints b s k := by
  intro x hx
  rcases List.mem_append.mp hx with h | h
  · exact Or.inl h
  · rcases insertAll_subset addr _ 0 [] x h with h2 | h2
    · simp at h2
    · exact Or.inr h2

theorem AddConstraints_perm [Mul α] (cl : Cloth α) (addr : Nat → Nat)
    (hinj : Function.Injective addr) (b s k : α) :
    (cl.AddConstraints addr b s k).m_clothConstraints.Perm
      (cl.m_clothConstraints ++ cl.newConstraints b s k) := by
  have h := insertAll_perm addr hinj (cl.newConstraints b s k) 0 [] (by simp)
  simp only [List.map_nil, List.nil_append] at h
  exact List.Perm.append_left _ h

theorem mem_newConstraints [Mul α] (cl : Cloth α) (b s k : α) (cc : ClothConstraint α) :
    cc ∈ cl.newConstraints b s k ↔
      ∃ r c : Nat, (r : Int) < cl.m_numRows ∧ (c : Int) < cl.m_numCols ∧
        cc ∈ cl.cellConstraints b (b * s) (b * k) (r : Int) (c : Int) := by
  simp only [Cloth.newConstraints, List.mem_flatMap, List.mem_range, Int.lt_toNat]
  constructor
  · rintro ⟨r, hr, c, hc, h⟩
    exact ⟨r, c, hr, hc, h⟩
  · rintro ⟨r, c, hr, hc, h⟩
    exact ⟨r, hr, c, hc, h⟩

end ConstraintSet

/-! ## Claims on `GetParticle` -/

/-- C1, at the failing input: in the 2 x 3 cloth `GetParticle( 1, 0 )`
returns the particle at position 2 of the grid, which is the particle of cell
`(0, 2)`, and not the particle at the row-major position `1 * numCols + 0`. -/
theorem GetParticle_two_by_three :
    ∃ cl, sampleCloth 2 3 = some cl ∧ cl.m_numRows = 2 ∧ cl.m_numCols = 3 ∧
      cl.m_clothParticles.length = 6 ∧
      cl.GetParticle 1 0 = some 2 ∧ cl.GetParticle 0 2 = some 2 ∧
      cl.GetParticle 1 0 ≠ some (1 * cl.m_numCols + 0) := by
  refine ⟨_, rfl, ?_⟩
  decide

/-- C4, at the failing input: in the 2 x 2 cloth (4 particles) the
out-of-range calls `GetParticle( 2, 0 )`, `GetParticle( 0, 2 )` and
`GetParticle( -1, 0 )` do not return null; they compute the indices 4, 2
and -2, of which 4 and -2 are outside the particle grid. -/
theorem GetParticle_out_of_range_not_null :
    ∃ cl, sampleCloth 2 2 = some cl ∧ cl.m_numRows = 2 ∧ cl.m_numCols = 2 ∧
      cl.m_clothParticles.length = 4 ∧
      cl.GetParticle 2 0 = some 4 ∧ cl.GetParticle 0 2 = some 2 ∧
      cl.GetParticle (-1) 0 = some (-2) ∧
      (derefParticle cl.m_clothParticles (cl.GetParticle 2 0)).isNone = true ∧
      (derefParticle cl.m_clothParticles (cl.GetParticle (-1) 0)).isNone = true := by
  refine ⟨_, rfl, ?_⟩
  decide

/-! ## Claims on `Update` -/

section UpdateClaims

variable {α : Type} [LinearOrderedField α]

/-- C3, as amended: on a well-formed cloth `Update` returns, and every
particle that is pinned and not expired has the same position afterwards. -/
theorem Update_keeps_pinned_unexpired (sqrt : α → α) (cl : Cloth α) (dt : α)
    (hwf : cl.WellFormed) :
    ∃ cl2, cl.Update sqrt dt = some cl2 ∧
      ∀ (i : Nat) (p : Particle α), cl.m_clothParticles[i]? = some p →
        p.GetIsPinned = true → p.IsExpired = false →
        ∃ q, cl2.m_clothParticles[i]? = some q ∧ q.GetPosition = p.GetPosition := by
  obtain ⟨st, cl3, -, hinv, -, -, hup, -, hrel⟩ := Update_phases sqrt cl dt hwf
  refine ⟨cl3, hup, fun i p hp hpin hexp => ?_⟩
  have h1 : st.1[i]? = some p := by
    rw [hinv.2.1 i p hp]
    have : p.isIntegrated = false := by
      simp [Particle.isIntegrated, hpin, hexp]
    simp [this]
  obtain ⟨q, hq, hsame⟩ := hrel.2 i p h1
  have hqp : q = p := hsame.2.2.2 hpin
  exact ⟨q, hq, by rw [hqp]⟩

/-- C5, as amended: on a cloth whose particle vector covers the grid, the
first loop of `Update` returns, it calls `StepAndAge` only on grid indices,
and it calls it on a grid particle exactly when the particle is not pinned or
is expired; that particle is then replaced by its `StepAndAge` image and
every other particle is left as it is. -/
theorem Update_integrates_iff (cl : Cloth α) (dt : α)
    (hlen : (cl.m_numRows * cl.m_numCols).toNat ≤ cl.m_clothParticles.length) :
    ∃ ps calls, cl.integrateParticles dt = some (ps, calls) ∧
      (∀ j ∈ calls, 0 ≤ j ∧ j < cl.m_numRows * cl.m_numCols) ∧
      ∀ (i : Nat) (p : Particle α), (i : Int) < cl.m_numRows * cl.m_numCols →
        cl.m_clothParticles[i]? = some p →
        (((i : Int) ∈ calls ↔ (p.GetIsPinned = false ∨ p.IsExpired = true)) ∧
          ps[i]? = some
            (if p.GetIsPinned = false ∨ p.IsExpired = true then p.StepAndAge dt else p)) := by
  obtain ⟨st, hst, -, hps, hcalls⟩ := integrateParticles_total cl dt hlen
  refine ⟨st.1, st.2, hst, ?_, ?_⟩
  · intro j hj
    obtain ⟨i, p, hi, rfl, -, -⟩ := (hcalls j).mp hj
    exact ⟨Int.natCast_nonneg i, Int.lt_toNat.mp hi⟩
  · intro i p hi hp
    have hi2 : i < (cl.m_numRows * cl.m_numCols).toNat := Int.lt_toNat.mpr hi
    constructor
    · rw [hcalls]
      constructor
      · rintro ⟨k, q, -, hk, hq, hg⟩
        have hki : k = i := by exact_mod_cast hk.symm
        subst hki
        rw [hp] at hq
        cases hq
        simpa [Particle.isIntegrated] using hg
      · intro hg
        exact ⟨i, p, hi2, rfl, hp, by simpa [Particle.isIntegrated] using hg⟩
    · rw [hps i p hp]
      by_cases hg : p.GetIsPinned = false ∨ p.IsExpired = true
      · have : p.isIntegrated = true := by simpa [Particle.isIntegrated] using hg
        rw [if_pos ⟨hi2, this⟩, if_pos hg]
      · have : ¬ p.isIntegrated = true := by simpa [Particle.isIntegrated] using hg
        rw [if_neg (fun h => this h.2), if_neg hg]

/-- C6: `Update` does not read its argument; two calls on the same state with
different deltas give the same result, which is the one obtained with the
fixed step 1/1000 in both the integration and the relaxation. -/
theorem Update_ignores_deltaSeconds (sqrt : α → α) (cl : Cloth α) (dt1 dt2 : α) :
    cl.Update sqrt dt1 = cl.Update sqrt dt2 ∧
    cl.Update sqrt dt1 =
      (cl.afterErase (1 / 1000)).bind (fun cl2 =>
        (cl2.SatisfyConstraints sqrt (1 / 1000)).map Prod.fst) :=
  ⟨rfl, rfl⟩

/-- C7: on a well-formed cloth, the cloth handed to `SatisfyConstraints` has
the previous constraint list filtered by "not both endpoints expired", expiry
being read in the particles after integration; a constraint with an unexpired
endpoint is kept; `SatisfyConstraints` does not change the list, so the count
never increases across `Update`. -/
theorem Update_constraints_filtered (sqrt : α → α) (cl : Cloth α) (dt : α)
    (hwf : cl.WellFormed) :
    ∃ cl1 cl2 cl3,
      cl.afterIntegration (1 / 1000) = some cl1 ∧
      cl.afterErase (1 / 1000) = some cl2 ∧
      cl.Update sqrt dt = (cl2.SatisfyConstraints sqrt (1 / 1000)).map Prod.fst ∧
      cl.Update sqrt dt = some cl3 ∧
      cl1.m_clothConstraints = cl.m_clothConstraints ∧
      cl2.m_clothParticles = cl1.m_clothParticles ∧
      cl2.m_clothConstraints =
        cl.m_clothConstraints.filter (fun cc =>
          !(ptrExpired cl1.m_clothParticles cc.p1 && ptrExpired cl1.m_clothParticles cc.p2)) ∧
      (∀ cc ∈ cl.m_clothConstraints,
        (ptrExpired cl1.m_clothParticles cc.p1 = false ∨
          ptrExpired cl1.m_clothParticles cc.p2 = false) → cc ∈ cl2.m_clothConstraints) ∧
      cl2.m_clothConstraints.Sublist cl.m_clothConstraints ∧
      cl3.m_clothConstraints = cl2.m_clothConstraints ∧
      cl3.m_clothConstraints.length ≤ cl.m_clothConstraints.length := by
  obtain ⟨st, cl3, -, -, hint, herase, hup, hcs, -⟩ := Update_phases sqrt cl dt hwf
  refine ⟨_, _, cl3, hint, herase, ?_, hup, rfl, rfl, rfl, ?_, ?_, hcs, ?_⟩
  · unfold Cloth.Update
    simp only [herase, Option.some_bind]
  · intro cc hcc hex
    refine List.mem_filter.mpr ⟨hcc, ?_⟩
    change (!(ptrExpired st.1 cc.p1 && ptrExpired st.1 cc.p2)) = true
    rcases hex with h | h <;> simp [h]
  · exact List.filter_sublist _
  · rw [hcs]
    exact (List.filter_sublist _).length_le

end UpdateClaims

/-- Witness of `Update_keeps_pinned_unexpired` on the 2 x 2 sample cloth. -/
theorem Update_keeps_pinned_unexpired_witness :
    sampleSquare.WellFormed ∧
    ∃ cl2, sampleSquare.Update (fun x => x) 1 = some cl2 ∧
      ∀ (i : Nat) (p : Particle ℚ), sampleSquare.m_clothParticles[i]? = some p →
        p.GetIsPinned = true → p.IsExpired = false →
        ∃ q, cl2.m_clothParticles[i]? = some q ∧ q.GetPosition = p.GetPosition :=
  ⟨by decide, Update_keeps_pinned_unexpired (fun x => x) sampleSquare 1 (by decide)⟩

/-- C3, counterexample: in the 1 x 1 sample cloth whose pinned corner has
been marked expired, `Update` moves that pinned particle from the origin to
`(0, 0, -981/100000000)`. -/
theorem pinned_expired_particle_moves :
    ∃ cl cl2 p q, shotCornerCloth = some cl ∧ cl.WellFormed ∧
      cl.Update (fun x => x) 1 = some cl2 ∧
      cl.m_clothParticles[0]? = some p ∧ p.GetIsPinned = true ∧ p.IsExpired = true ∧
      cl2.m_clothParticles[0]? = some q ∧
      p.GetPosition = some ⟨0, 0, 0⟩ ∧ q.GetPosition = some ⟨0, 0, -(981 / 100000000)⟩ ∧
      q.GetPosition ≠ p.GetPosition := by
  refine ⟨_, _, _, _, rfl, by decide, rfl, rfl, rfl, by decide, rfl, by decide!, by decide!,
    by decide!⟩

/-- Witness of `Update_integrates_iff` on the 2 x 3 sample cloth. -/
theorem Update_integrates_iff_witness :
    (sampleWide.m_numRows * sampleWide.m_numCols).toNat ≤ sampleWide.m_clothParticles.length ∧
    ∃ ps calls, sampleWide.integrateParticles (1 / 1000) = some (ps, calls) ∧
      (∀ j ∈ calls, 0 ≤ j ∧ j < sampleWide.m_numRows * sampleWide.m_numCols) ∧
      ∀ (i : Nat) (p : Particle ℚ), (i : Int) < sampleWide.m_numRows * sampleWide.m_numCols →
        sampleWide.m_clothParticles[i]? = some p →
        (((i : Int) ∈ calls ↔ (p.GetIsPinned = false ∨ p.IsExpired = true)) ∧
          ps[i]? = some
            (if p.GetIsPinned = false ∨ p.IsExpired = true then p.StepAndAge (1 / 1000)
              else p)) :=
  ⟨by decide, Update_integrates_iff sampleWide (1 / 1000) (by decide)⟩

/-- C5, counterexample: in the 2 x 2 sample cloth whose unpinned particle at
position 3 has been marked expired, the first loop of `Update` calls
`StepAndAge` on that particle although it is expired. -/
theorem unpinned_expired_particle_integrated :
    ∃ cl st p, shotCellCloth = some cl ∧
      (cl.m_numRows * cl.m_numCols).toNat ≤ cl.m_clothParticles.length ∧
      cl.integrateParticles (1 / 1000) = some st ∧
      cl.m_clothParticles[3]? = some p ∧ (3 : Int) ∈ st.2 ∧
      p.GetIsPinned = false ∧ p.IsExpired = true ∧
      ¬ ((3 : Int) ∈ st.2 ↔ (p.GetIsPinned = false ∧ p.IsExpired = false)) := by
  refine ⟨_, _, _, rfl, by decide, rfl, rfl, by decide, by decide, by decide, by decide⟩

/-- Witness of `Update_constraints_filtered` on the 3 x 3 sample cloth. -/
theorem Update_constraints_filtered_witness :
    sampleSquare3.WellFormed ∧
    ∃ cl1 cl2 cl3,
      sampleSquare3.afterIntegration (1 / 1000) = some cl1 ∧
      sampleSquare3.afterErase (1 / 1000) = some cl2 ∧
      sampleSquare3.Update (fun x => x) 1 =
        (cl2.SatisfyConstraints (fun x => x) (1 / 1000)).map Prod.fst ∧
      sampleSquare3.Update (fun x => x) 1 = some cl3 ∧
      cl1.m_clothConstraints = sampleSquare3.m_clothConstraints ∧
      cl2.m_clothParticles = cl1.m_clothParticles ∧
      cl2.m_clothConstraints =
        sampleSquare3.m_clothConstraints.filter (fun cc =>
          !(ptrExpired cl1.m_clothParticles cc.p1 && ptrExpired cl1.m_clothParticles cc.p2)) ∧
      (∀ cc ∈ sampleSquare3.m_clothConstraints,
        (ptrExpired cl1.m_clothParticles cc.p1 = false ∨
          ptrExpired cl1.m_clothParticles cc.p2 = false) → cc ∈ cl2.m_clothConstraints) ∧
      cl2.m_clothConstraints.Sublist sampleSquare3.m_clothConstraints ∧
      cl3.m_clothConstraints = cl2.m_clothConstraints ∧
      cl3.m_clothConstraints.length ≤ sampleSquare3.m_clothConstraints.length :=
  ⟨by decide, Update_constraints_filtered (fun x => x) sampleSquare3 1 (by decide)⟩


theorem mem_cellConstraints {α : Type} (cl : Cloth α) (b sd bd : α) (r c : Int)
    (cc : ClothConstraint α) :
    cc ∈ cl.cellConstraints b sd bd r c ↔
      (r + 1 < cl.m_numRows ∧
        cc = ⟨.STRETCH, cl.GetParticle r c, cl.GetParticle (r + 1) c, b⟩) ∨
      (r - 1 ≥ 0 ∧ cc = ⟨.STRETCH, cl.GetParticle r c, cl.GetParticle (r - 1) c, b⟩) ∨
      (c + 1 < cl.m_numCols ∧
        cc = ⟨.STRETCH, cl.GetParticle r c, cl.GetParticle r (c + 1), b⟩) ∨
      (c - 1 ≥ 0 ∧ cc = ⟨.STRETCH, cl.GetParticle r c, cl.GetParticle r (c - 1), b⟩) ∨
      ((r + 1 < cl.m_numRows ∧ c + 1 < cl.m_numCols) ∧
        cc = ⟨.SHEAR, cl.GetParticle r c, cl.GetParticle (r + 1) (c + 1), sd⟩) ∨
      ((r - 1 ≥ 0 ∧ c + 1 < cl.m_numCols) ∧
        cc = ⟨.SHEAR, cl.GetParticle r c, cl.GetParticle (r - 1) (c + 1), sd⟩) ∨
      ((r + 1 < cl.m_numRows ∧ c - 1 ≥ 0) ∧
        cc = ⟨.SHEAR, cl.GetParticle r c, cl.GetParticle (r + 1) (c - 1), sd⟩) ∨
      ((r - 1 ≥ 0 ∧ c - 1 ≥ 0) ∧
        cc = ⟨.SHEAR, cl.GetParticle r c, cl.GetParticle (r - 1) (c - 1), sd⟩) ∨
      (r + 2 < cl.m_numRows ∧ cc = ⟨.BEND, cl.GetParticle r c, cl.GetParticle (r + 2) c, bd⟩) ∨
      (r - 2 ≥ 0 ∧ cc = ⟨.BEND, cl.GetParticle r c, cl.GetParticle (r - 2) c, bd⟩) ∨
      (c + 2 < cl.m_numCols ∧ cc = ⟨.BEND, cl.GetParticle r c, cl.GetParticle r (c + 2), bd⟩) ∨
      (c - 2 ≥ 0 ∧ cc = ⟨.BEND, cl.GetParticle r c, cl.GetParticle r (c - 2), bd⟩) := by
  simp only [Cloth.cellConstraints, List.mem_append, List.mem_ite_nil_right,
    List.mem_singleton, or_assoc]


theorem GetParticle_eq {α : Type} (cl : Cloth α) (r c : Int) (hr : r ≤ cl.m_numRows)
    (hc : c ≤ cl.m_numCols) : cl.GetParticle r c = some (r * cl.m_numRows + c) := by
  unfold Cloth.GetParticle
  rw [if_neg (by omega), if_neg (by omega)]

/-- The constraints allocated by `AddConstraints` are exactly those joining
two related in-range cells, in both directions, with the rest distance of
their type. -/
theorem mem_newConstraints_iff {α : Type} [Mul α] (cl : Cloth α) (b s k : α)
    (cc : ClothConstraint α) :
    cc ∈ cl.newConstraints b s k ↔
      ∃ (r1 c1 r2 c2 : Int) (t : ConstraintType),
        (0 ≤ r1 ∧ r1 < cl.m_numRows) ∧ (0 ≤ c1 ∧ c1 < cl.m_numCols) ∧
        (0 ≤ r2 ∧ r2 < cl.m_numRows) ∧ (0 ≤ c2 ∧ c2 < cl.m_numCols) ∧
        cellsRelated t r1 c1 r2 c2 ∧
        cc = ⟨t, cl.GetParticle r1 c1, cl.GetParticle r2 c2, restDistanceOf b s k t⟩ := by
  rw [mem_newConstraints]
  constructor
  · rintro ⟨r, c, hr, hc, h⟩
    have hr0 : (0 : Int) ≤ (r : Int) := Int.natCast_nonneg r
    have hc0 : (0 : Int) ≤ (c : Int) := Int.natCast_nonneg c
    rw [mem_cellConstraints] at h
    rcases h with ⟨h, rfl⟩ | ⟨h, rfl⟩ | ⟨h, rfl⟩ | ⟨h, rfl⟩ | ⟨h, rfl⟩ | ⟨h, rfl⟩ | ⟨h, rfl⟩ |
      ⟨h, rfl⟩ | ⟨h, rfl⟩ | ⟨h, rfl⟩ | ⟨h, rfl⟩ | ⟨h, rfl⟩
    · exact ⟨r, c, r + 1, c, .STRETCH, ⟨hr0, hr⟩, ⟨hc0, hc⟩, ⟨by omega, by omega⟩, ⟨hc0, hc⟩,
        by simp [cellsRelated], rfl⟩
    · exact ⟨r, c, r - 1, c, .STRETCH, ⟨hr0, hr⟩, ⟨hc0, hc⟩, ⟨by omega, by omega⟩, ⟨hc0, hc⟩,
        by simp [cellsRelated], rfl⟩
    · exact ⟨r, c, r, c + 1, .STRETCH, ⟨hr0, hr⟩, ⟨hc0, hc⟩, ⟨hr0, hr⟩, ⟨by omega, by omega⟩,
        by simp [cellsRelated], rfl⟩
    · exact ⟨r, c, r, c - 1, .STRETCH, ⟨hr0, hr⟩, ⟨hc0, hc⟩, ⟨hr0, hr⟩, ⟨by omega, by omega⟩,
        by simp [cellsRelated], rfl⟩
    · exact ⟨r, c, r + 1, c + 1, .SHEAR, ⟨hr0, hr⟩, ⟨hc0, hc⟩, ⟨by omega, by omega⟩,
        ⟨by omega, by omega⟩, by simp [cellsRelated], rfl⟩
    · exact ⟨r, c, r - 1, c + 1, .SHEAR, ⟨hr0, hr⟩, ⟨hc0, hc⟩, ⟨by omega, by omega⟩,
        ⟨by omega, by omega⟩, by simp [cellsRelated], rfl⟩
    · exact ⟨r, c, r + 1, c - 1, .SHEAR, ⟨hr0, hr⟩, ⟨hc0, hc⟩, ⟨by omega, by omega⟩,
        ⟨by omega, by omega⟩, by simp [cellsRelated], rfl⟩
    · exact ⟨r, c, r - 1, c - 1, .SHEAR, ⟨hr0, hr⟩, ⟨hc0, hc⟩, ⟨by omega, by omega⟩,
        ⟨by omega, by omega⟩, by simp [cellsRelated], rfl⟩
    · exact ⟨r, c, r + 2, c, .BEND, ⟨hr0, hr⟩, ⟨hc0, hc⟩, ⟨by omega, by omega⟩, ⟨hc0, hc⟩,
        by simp [cellsRelated], rfl⟩
    · exact ⟨r, c, r - 2, c, .BEND, ⟨hr0, hr⟩, ⟨hc0, hc⟩, ⟨by omega, by omega⟩, ⟨hc0, hc⟩,
        by simp [cellsRelated], rfl⟩
    · exact ⟨r, c, r, c + 2, .BEND, ⟨hr0, hr⟩, ⟨hc0, hc⟩, ⟨hr0, hr⟩, ⟨by omega, by omega⟩,
        by simp [cellsRelated], rfl⟩
    · exact ⟨r, c, r, c - 2, .BEND, ⟨hr0, hr⟩, ⟨hc0, hc⟩, ⟨hr0, hr⟩, ⟨by omega, by omega⟩,
        by simp [cellsRelated], rfl⟩
  · rintro ⟨r1, c1, r2, c2, t, ⟨hr1, hr1b⟩, ⟨hc1, hc1b⟩, ⟨hr2, hr2b⟩, ⟨hc2, hc2b⟩, hrel, rfl⟩
    refine ⟨r1.toNat, c1.toNat, ?_, ?_, ?_⟩
    · rw [Int.toNat_of_nonneg hr1]; exact hr1b
    · rw [Int.toNat_of_nonneg hc1]; exact hc1b
    rw [Int.toNat_of_nonneg hr1, Int.toNat_of_nonneg hc1, mem_cellConstraints]
    cases t with
    | STRETCH =>
      rcases hrel with ⟨rfl | rfl, rfl⟩ | ⟨rfl, rfl | rfl⟩
      · exact Or.inl ⟨hr2b, rfl⟩
      · exact Or.inr (Or.inl ⟨by omega, rfl⟩)
      · exact Or.inr (Or.inr (Or.inl ⟨hc2b, rfl⟩))
      · exact Or.inr (Or.inr (Or.inr (Or.inl ⟨by omega, rfl⟩)))
    | SHEAR =>
      rcases hrel with ⟨rfl | rfl, rfl | rfl⟩
      · exact Or.inr (Or.inr (Or.inr (Or.inr (Or.inl ⟨⟨hr2b, hc2b⟩, rfl⟩))))
      · exact Or.inr (Or.inr (Or.inr (Or.inr (Or.inr (Or.inr (Or.inl
          ⟨⟨hr2b, by omega⟩, rfl⟩))))))
      · exact Or.inr (Or.inr (Or.inr (Or.inr (Or.inr (Or.inl ⟨⟨by omega, hc2b⟩, rfl⟩)))))
      · exact Or.inr (Or.inr (Or.inr (Or.inr (Or.inr (Or.inr (Or.inr (Or.inl
          ⟨⟨by omega, by omega⟩, rfl⟩)))))))
    | BEND =>
      rcases hrel with ⟨rfl | rfl, rfl⟩ | ⟨rfl, rfl | rfl⟩
      · exact Or.inr (Or.inr (Or.inr (Or.inr (Or.inr (Or.inr (Or.inr (Or.inr (Or.inl
          ⟨hr2b, rfl⟩))))))))
      · exact Or.inr (Or.inr (Or.inr (Or.inr (Or.inr (Or.inr (Or.inr (Or.inr (Or.inr (Or.inl
          ⟨by omega, rfl⟩)))))))))
      · exact Or.inr (Or.inr (Or.inr (Or.inr (Or.inr (Or.inr (Or.inr (Or.inr (Or.inr (Or.inr
          (Or.inl ⟨hc2b, rfl⟩))))))))))
      · exact Or.inr (Or.inr (Or.inr (Or.inr (Or.inr (Or.inr (Or.inr (Or.inr (Or.inr (Or.inr
          (Or.inr ⟨by omega, rfl⟩))))))))))


section Construction

variable {α : Type}

theorem Particle.withoutState_addForce (p : Particle α) (f : Force α) :
    (p.AddForce f).withoutState = p.withoutState := rfl

theorem Particle.withoutState_cloneForces (p src : Particle α) :
    (p.CloneForcesFromParticle src).withoutState = p.withoutState := by
  unfold Particle.CloneForcesFromParticle
  generalize src.GetForces = fs
  induction fs generalizing p with
  | nil => rfl
  | cons f fs ih =>
    rw [List.foldl_cons, ih, Particle.withoutState_addForce]

theorem set_withoutState (ps : List (Particle α)) (i : Nat) (p q : Particle α)
    (hp : ps[i]? = some p) (hq : q.withoutState = p.withoutState) :
    (ps.set i q).map Particle.withoutState = ps.map Particle.withoutState := by
  apply List.ext_getElem?
  intro j
  rw [List.getElem?_map, List.getElem?_map, List.getElem?_set]
  by_cases hij : i = j
  · subst hij
    have hlt : i < ps.length := (List.getElem?_eq_some_iff.mp hp).1
    rw [if_pos rfl, if_pos hlt, hp]
    simp [hq]
  · rw [if_neg hij]

/-- The grid index computed for an in-range cell lies inside the particle
grid as soon as there are no more rows than columns. -/
theorem index_in_grid (R C r c : Int) (hRC : R ≤ C) (hr0 : 0 ≤ r) (hr : r < R) (hc0 : 0 ≤ c)
    (hc : c < C) : 0 ≤ r * R + c ∧ r * R + c < R * C := by
  constructor
  · nlinarith [mul_nonneg hr0 (show (0 : Int) ≤ R by omega)]
  · nlinarith [mul_le_mul_of_nonneg_right (show r ≤ R - 1 by omega) (show (0 : Int) ≤ R by omega),
      mul_le_mul_of_nonneg_left hRC (show (0 : Int) ≤ R - 1 by omega)]

variable [Field α]

theorem assignCell_total (cl0 st : Cloth α) (b : α) (v : Vector3 α) (r c : Int)
    (hf : AssignFrame cl0 st)
    (hlen : cl0.m_clothParticles.length = (cl0.m_numRows * cl0.m_numCols).toNat)
    (hRC : cl0.m_numRows ≤ cl0.m_numCols) (hr0 : 0 ≤ r) (hr : r < cl0.m_numRows)
    (hc0 : 0 ≤ c) (hc : c < cl0.m_numCols) :
    ∃ st2, Cloth.assignCell b v r c st = some st2 ∧ AssignFrame cl0 st2 := by
  obtain ⟨hR, hC, hcs, ho, hcur, hit, hps⟩ := hf
  obtain ⟨hi0, hi⟩ := index_in_grid _ _ r c hRC hr0 hr hc0 hc
  have hlen2 : st.m_clothParticles.length = (cl0.m_numRows * cl0.m_numCols).toNat := by
    have := congrArg List.length hps
    simpa [hlen] using this
  have hget : st.GetParticle r c = some (((r * cl0.m_numRows + c).toNat : Nat) : Int) := by
    rw [GetParticle_eq st r c (by omega) (by omega), hR, Int.toNat_of_nonneg hi0]
  have hlt : (r * cl0.m_numRows + c).toNat < st.m_clothParticles.length := by
    rw [hlen2]
    omega
  obtain ⟨p, hp⟩ : ∃ p, st.m_clothParticles[(r * cl0.m_numRows + c).toNat]? = some p :=
    ⟨_, List.getElem?_eq_getElem hlt⟩
  unfold Cloth.assignCell
  simp only [hget, modifyParticle_natCast _ _ _ p hp, Option.map_some']
  refine ⟨_, rfl, hR, hC, hcs, ho, hcur, hit, ?_⟩
  rw [← hps]
  exact set_withoutState _ _ p _ hp (by
    rw [Particle.withoutState_cloneForces]
    rfl)

/-- `AssignParticleStates` has defined behaviour when the particle vector has
`numRows * numCols` elements and there are no more rows than columns; it then
changes only dynamics states and the template. -/
theorem AssignParticleStates_total (cl : Cloth α) (b d : α) (v : Vector3 α)
    (hlen : cl.m_clothParticles.length = (cl.m_numRows * cl.m_numCols).toNat)
    (hRC : cl.m_numRows ≤ cl.m_numCols) :
    ∃ cl1, cl.AssignParticleStates b d v = some cl1 ∧ AssignFrame cl cl1 := by
  unfold Cloth.AssignParticleStates
  simp only []
  rw [forLoop_toNat]
  apply forLoop_total _ _ (fun _ st => AssignFrame cl st)
  · exact ⟨rfl, rfl, rfl, rfl, rfl, rfl, rfl⟩
  · intro r st hr hst
    rw [forLoop_toNat]
    apply forLoop_total _ _ (fun _ st2 => AssignFrame cl st2) st hst
    intro c st2 hc hst2
    exact assignCell_total cl st2 b v r c hst2 hlen hRC (Int.natCast_nonneg r)
      (Int.lt_toNat.mp hr) (Int.natCast_nonneg c) (Int.lt_toNat.mp hc)

end Construction


section ConstructorWhole

variable {α : Type}

theorem pinCorners_constraints (cl cl2 : Cloth α) (numCols : Int)
    (h : cl.pinCorners numCols = some cl2) :
    cl2.m_clothConstraints = cl.m_clothConstraints := by
  unfold Cloth.pinCorners at h
  cases h3 : modifyParticle cl.m_clothParticles (cl.GetParticle 0 0)
      (fun p => p.SetIsPinned true) with
  | none => rw [h3] at h; simp at h
  | some ps3 =>
    rw [h3] at h
    simp only [Option.some_bind] at h
    cases h4 : modifyParticle ps3 (cl.GetParticle 0 (numCols - 1))
        (fun p => p.SetIsPinned true) with
    | none => rw [h4] at h; simp at h
    | some ps4 =>
      rw [h4] at h
      simp only [Option.map_some', Option.some.injEq] at h
      rw [← h]

variable [Field α]

theorem assignCell_constraints (b : α) (v : Vector3 α) (r c : Int) (st st2 : Cloth α)
    (h : Cloth.assignCell b v r c st = some st2) :
    st2.m_clothConstraints = st.m_clothConstraints := by
  unfold Cloth.assignCell at h
  simp only [Option.map_eq_some'] at h
  obtain ⟨ps, -, rfl⟩ := h
  rfl

theorem AssignParticleStates_constraints (cl cl1 : Cloth α) (b d : α) (v : Vector3 α)
    (h : cl.AssignParticleStates b d v = some cl1) :
    cl1.m_clothConstraints = cl.m_clothConstraints := by
  unfold Cloth.AssignParticleStates at h
  simp only [] at h
  refine forLoop_preserves _ _ (fun st => st.m_clothConstraints = cl.m_clothConstraints)
    ?_ _ cl1 h rfl
  intro r st st2 _ _ hb hst
  refine forLoop_preserves _ _ (fun st3 => st3.m_clothConstraints = cl.m_clothConstraints)
    ?_ _ st2 hb hst
  intro c st3 st4 _ _ hb2 hst3
  rw [assignCell_constraints b v r c st3 st4 hb2]
  exact hst3

/-- Every successfully constructed cloth has as constraint list the list
built by `AddConstraints` from an empty list. -/
theorem new_constraints (addr : Nat → Nat) (o : Vector3 α) (ty : ParticleType) (m rad : α)
    (R C : Int) (it : Nat) (b s k : α) (v : Vector3 α) (cl : Cloth α)
    (h : Cloth.new addr o ty m rad R C it b s k v = some cl) :
    ∃ cl1 : Cloth α, cl1.m_clothConstraints = [] ∧
      cl.m_clothConstraints = (cl1.AddConstraints addr b s k).m_clothConstraints := by
  unfold Cloth.new at h
  cases h1 : (Cloth.allocate o ty m rad R C it b s k).AssignParticleStates b o.y v with
  | none => rw [h1] at h; simp at h
  | some cl1 =>
    rw [h1] at h
    simp only [Option.some_bind] at h
    refine ⟨cl1, ?_, pinCorners_constraints _ _ _ h⟩
    rw [AssignParticleStates_constraints _ _ _ _ _ h1]
    rfl

/-- The constructor has defined behaviour when `1 ≤ numRows ≤ numCols`; the
cloth it builds has the constraints of `AddConstraints` and the particles of
`AssignParticleStates` with positions `0` and `numCols - 1` pinned. -/
theorem new_total (addr : Nat → Nat) (o : Vector3 α) (ty : ParticleType) (m rad : α)
    (R C : Int) (it : Nat) (b s k : α) (v : Vector3 α) (hR : 1 ≤ R) (hRC : R ≤ C) :
    ∃ cl1 cl,
      (Cloth.allocate o ty m rad R C it b s k).AssignParticleStates b o.y v = some cl1 ∧
      AssignFrame (Cloth.allocate o ty m rad R C it b s k) cl1 ∧
      Cloth.new addr o ty m rad R C it b s k v = some cl ∧
      cl.m_numRows = R ∧ cl.m_numCols = C ∧
      cl.m_clothConstraints = (cl1.AddConstraints addr b s k).m_clothConstraints ∧
      cl.m_clothParticles.length = (R * C).toNat ∧
      ∀ (i : Nat) (p : Particle α), cl1.m_clothParticles[i]? = some p →
        cl.m_clothParticles[i]? =
          some (if i = 0 ∨ (i : Int) = C - 1 then p.SetIsPinned true else p) := by
  have hlenA : (Cloth.allocate o ty m rad R C it b s k).m_clothParticles.length =
      ((Cloth.allocate o ty m rad R C it b s k).m_numRows *
        (Cloth.allocate o ty m rad R C it b s k).m_numCols).toNat := by
    simp [Cloth.allocate]
  obtain ⟨cl1, h1, hframe⟩ := AssignParticleStates_total _ b o.y v hlenA hRC
  have hframe2 := hframe
  obtain ⟨hR1, hC1, -, -, -, -, hps⟩ := hframe
  have hR1b : cl1.m_numRows = R := hR1
  have hC1b : cl1.m_numCols = C := hC1
  have hlen1 : cl1.m_clothParticles.length = (R * C).toNat := by
    have := congrArg List.length hps
    simpa [Cloth.allocate] using this
  have hRCpos : 1 ≤ R * C := by nlinarith
  have hC1le : C ≤ R * C := by nlinarith
  have h0lt : 0 < cl1.m_clothParticles.length := by rw [hlen1]; omega
  have hclt : (C - 1).toNat < cl1.m_clothParticles.length := by rw [hlen1]; omega
  obtain ⟨p0, hp0⟩ : ∃ p, cl1.m_clothParticles[0]? = some p := ⟨_, List.getElem?_eq_getElem h0lt⟩
  have hg0 : (cl1.AddConstraints addr b s k).GetParticle 0 0 = some ((0 : Nat) : Int) := by
    rw [GetParticle_eq _ 0 0 (by show (0 : Int) ≤ cl1.m_numRows; omega)
      (by show (0 : Int) ≤ cl1.m_numCols; omega)]
    simp
  have hg1 : (cl1.AddConstraints addr b s k).GetParticle 0 (C - 1) =
      some (((C - 1).toNat : Nat) : Int) := by
    rw [GetParticle_eq _ 0 (C - 1) (by show (0 : Int) ≤ cl1.m_numRows; omega)
      (by show C - 1 ≤ cl1.m_numCols; omega), Int.toNat_of_nonneg (by omega)]
    simp
  obtain ⟨p1, hp1⟩ : ∃ p, (cl1.m_clothParticles.set 0 (p0.SetIsPinned true))[(C - 1).toNat]? =
      some p := ⟨_, List.getElem?_eq_getElem (by rw [List.length_set]; exact hclt)⟩
  have hpin : (cl1.AddConstraints addr b s k).pinCorners C = some
      { cl1.AddConstraints addr b s k with
        m_clothParticles := (cl1.m_clothParticles.set 0 (p0.SetIsPinned true)).set
          (C - 1).toNat (p1.SetIsPinned true) } := by
    unfold Cloth.pinCorners
    rw [hg0, hg1]
    have e1 : modifyParticle (cl1.AddConstraints addr b s k).m_clothParticles
        (some ((0 : Nat) : Int)) (fun p => p.SetIsPinned true) =
        some (cl1.m_clothParticles.set 0 (p0.SetIsPinned true)) :=
      modifyParticle_natCast _ 0 _ p0 hp0
    rw [e1]
    simp only [Option.some_bind]
    rw [modifyParticle_natCast _ _ _ p1 hp1]
    rfl
  refine ⟨cl1,
    { cl1.AddConstraints addr b s k with
      m_clothParticles := (cl1.m_clothParticles.set 0 (p0.SetIsPinned true)).set
        (C - 1).toNat (p1.SetIsPinned true) },
    h1, hframe2, ?_, hR1b, hC1b, rfl, ?_, ?_⟩
  · unfold Cloth.new
    rw [h1]
    simp only [Option.some_bind]
    exact hpin
  · simp [hlen1]
  · intro i p hp
    show ((cl1.m_clothParticles.set 0 (p0.SetIsPinned true)).set (C - 1).toNat
      (p1.SetIsPinned true))[i]? = _
    have hi : i < cl1.m_clothParticles.length := (List.getElem?_eq_some_iff.mp hp).1
    by_cases hic : (i : Int) = C - 1
    · have hic2 : (C - 1).toNat = i := by omega
      rw [hic2] at hp1 ⊢
      rw [List.getElem?_set_self (by rw [List.length_set]; exact hi)]
      rw [if_pos (Or.inr hic)]
      by_cases hi0 : i = 0
      · subst hi0
        rw [List.getElem?_set_self hi] at hp1
        rw [hp0] at hp
        cases hp
        cases hp1
        rfl
      · rw [List.getElem?_set_ne (Ne.symm hi0), hp] at hp1
        cases hp1
        rfl
    · have hic2 : (C - 1).toNat ≠ i := by omega
      rw [List.getElem?_set_ne hic2]
      by_cases hi0 : i = 0
      · subst hi0
        rw [List.getElem?_set_self hi, if_pos (Or.inl rfl)]
        rw [hp0] at hp
        cases hp
        rfl
      · rw [List.getElem?_set_ne (Ne.symm hi0), hp, if_neg]
        rintro (h | h)
        · exact hi0 h
        · exact hic h

end ConstructorWhole


/-! ## Claims on the constructor -/

theorem cellsRelated_symm (t : ConstraintType) (r1 c1 r2 c2 : Int)
    (h : cellsRelated t r1 c1 r2 c2) : cellsRelated t r2 c2 r1 c1 := by
  cases t <;> simp only [cellsRelated] at h ⊢ <;> omega

section ConstructorClaims

variable {α : Type} [Field α]

/-- Membership in the constraint list of a cloth constructed with
`1 ≤ numRows ≤ numCols` and an injective allocator: the list holds exactly the
constraints allocated by `AddConstraints`. -/
theorem mem_constructed_constraints (addr : Nat → Nat) (hinj : Function.Injective addr)
    (o : Vector3 α) (ty : ParticleType) (m rad : α) (R C : Int) (it : Nat) (b s k : α)
    (v : Vector3 α) (hR : 1 ≤ R) (hRC : R ≤ C) :
    ∃ cl, Cloth.new addr o ty m rad R C it b s k v = some cl ∧
      ∀ cc : ClothConstraint α, cc ∈ cl.m_clothConstraints ↔
        ∃ (r1 c1 r2 c2 : Int) (t : ConstraintType),
          (0 ≤ r1 ∧ r1 < R) ∧ (0 ≤ c1 ∧ c1 < C) ∧ (0 ≤ r2 ∧ r2 < R) ∧ (0 ≤ c2 ∧ c2 < C) ∧
          cellsRelated t r1 c1 r2 c2 ∧
          cc = ⟨t, some (r1 * R + c1), some (r2 * R + c2), restDistanceOf b s k t⟩ := by
  obtain ⟨cl1, cl, -, hframe, hnew, -, -, hcs, -, -⟩ :=
    new_total addr o ty m rad R C it b s k v hR hRC
  obtain ⟨hR1, hC1, hcs1, -, -, -, -⟩ := hframe
  have hR1b : cl1.m_numRows = R := hR1
  have hC1b : cl1.m_numCols = C := hC1
  have hcs1b : cl1.m_clothConstraints = [] := hcs1
  refine ⟨cl, hnew, fun cc => ?_⟩
  have hperm := AddConstraints_perm cl1 addr hinj b s k
  rw [hcs1b, List.nil_append] at hperm
  rw [hcs, hperm.mem_iff, mem_newConstraints_iff, hR1b, hC1b]
  constructor
  · rintro ⟨r1, c1, r2, c2, t, hr1, hc1, hr2, hc2, hrel, rfl⟩
    refine ⟨r1, c1, r2, c2, t, hr1, hc1, hr2, hc2, hrel, ?_⟩
    rw [GetParticle_eq cl1 r1 c1 (by omega) (by omega),
      GetParticle_eq cl1 r2 c2 (by omega) (by omega), hR1b]
  · rintro ⟨r1, c1, r2, c2, t, hr1, hc1, hr2, hc2, hrel, rfl⟩
    refine ⟨r1, c1, r2, c2, t, hr1, hc1, hr2, hc2, hrel, ?_⟩
    rw [GetParticle_eq cl1 r1 c1 (by omega) (by omega),
      GetParticle_eq cl1 r2 c2 (by omega) (by omega), hR1b]

/-- C8: for a square cloth of side `N ≥ 1` built with an injective
allocator, construction succeeds and a constraint of type `t` joins the
particles `p` and `q` (in either order) exactly when `p` and `q` are the
particles of two in-range cells related as the type `t` prescribes. -/
theorem constructed_constraints_square (addr : Nat → Nat) (hinj : Function.Injective addr)
    (o : Vector3 α) (ty : ParticleType) (m rad : α) (N : Int) (it : Nat) (b s k : α)
    (v : Vector3 α) (hN : 1 ≤ N) :
    ∃ cl, Cloth.new addr o ty m rad N N it b s k v = some cl ∧
      ∀ (t : ConstraintType) (p q : Option Int),
        (∃ cc ∈ cl.m_clothConstraints, cc.type = t ∧
            ((cc.p1 = p ∧ cc.p2 = q) ∨ (cc.p1 = q ∧ cc.p2 = p))) ↔
        ∃ r1 c1 r2 c2 : Int,
          (0 ≤ r1 ∧ r1 < N) ∧ (0 ≤ c1 ∧ c1 < N) ∧ (0 ≤ r2 ∧ r2 < N) ∧ (0 ≤ c2 ∧ c2 < N) ∧
          cellsRelated t r1 c1 r2 c2 ∧ p = some (r1 * N + c1) ∧ q = some (r2 * N + c2) := by
  obtain ⟨cl, hnew, hmem⟩ :=
    mem_constructed_constraints addr hinj o ty m rad N N it b s k v hN le_rfl
  refine ⟨cl, hnew, fun t p q => ?_⟩
  constructor
  · rintro ⟨cc, hcc, rfl, hpq⟩
    obtain ⟨r1, c1, r2, c2, t, hr1, hc1, hr2, hc2, hrel, rfl⟩ := (hmem cc).mp hcc
    rcases hpq with ⟨rfl, rfl⟩ | ⟨rfl, rfl⟩
    · exact ⟨r1, c1, r2, c2, hr1, hc1, hr2, hc2, hrel, rfl, rfl⟩
    · exact ⟨r2, c2, r1, c1, hr2, hc2, hr1, hc1, cellsRelated_symm _ _ _ _ _ hrel, rfl, rfl⟩
  · rintro ⟨r1, c1, r2, c2, hr1, hc1, hr2, hc2, hrel, rfl, rfl⟩
    exact ⟨⟨t, some (r1 * N + c1), some (r2 * N + c2), restDistanceOf b s k t⟩,
      (hmem _).mpr ⟨r1, c1, r2, c2, t, hr1, hc1, hr2, hc2, hrel, rfl⟩, rfl,
      Or.inl ⟨rfl, rfl⟩⟩

/-- C9: in every constructed cloth, each constraint has the rest distance of
its type: `b` for `STRETCH`, `b * s` for `SHEAR`, `b * k` for `BEND`. -/
theorem constructed_rest_distances (addr : Nat → Nat) (o : Vector3 α) (ty : ParticleType)
    (m rad : α) (R C : Int) (it : Nat) (b s k : α) (v : Vector3 α) (cl : Cloth α)
    (h : Cloth.new addr o ty m rad R C it b s k v = some cl) :
    ∀ cc ∈ cl.m_clothConstraints,
      (cc.type = .STRETCH → cc.restDistance = b) ∧
      (cc.type = .SHEAR → cc.restDistance = b * s) ∧
      (cc.type = .BEND → cc.restDistance = b * k) := by
  obtain ⟨cl1, hnil, hcs⟩ := new_constraints addr o ty m rad R C it b s k v cl h
  intro cc hcc
  rw [hcs] at hcc
  rcases AddConstraints_subset cl1 addr b s k cc hcc with h1 | h1
  · rw [hnil] at h1
    cases h1
  · obtain ⟨r1, c1, r2, c2, t, -, -, -, -, -, rfl⟩ := (mem_newConstraints_iff cl1 b s k cc).mp h1
    cases t <;> simp [restDistanceOf]

/-- The pin flags after construction with `1 ≤ numRows ≤ numCols`: the
particle at position `i` of the grid is pinned exactly when `i = 0` or
`i = numCols - 1`. -/
theorem pinned_after_construction (addr : Nat → Nat) (o : Vector3 α) (ty : ParticleType)
    (m rad : α) (R C : Int) (it : Nat) (b s k : α) (v : Vector3 α) (hR : 1 ≤ R)
    (hRC : R ≤ C) :
    ∃ cl, Cloth.new addr o ty m rad R C it b s k v = some cl ∧
      cl.m_clothParticles.length = (R * C).toNat ∧
      ∀ (i : Nat) (q : Particle α), cl.m_clothParticles[i]? = some q →
        (q.GetIsPinned = true ↔ (i = 0 ∨ (i : Int) = C - 1)) := by
  obtain ⟨cl1, cl, -, hframe, hnew, -, -, -, hlen, hps⟩ :=
    new_total addr o ty m rad R C it b s k v hR hRC
  obtain ⟨-, -, -, -, -, -, hmap⟩ := hframe
  refine ⟨cl, hnew, hlen, fun i q hq => ?_⟩
  have hlen1 : cl1.m_clothParticles.length = (R * C).toNat := by
    have := congrArg List.length hmap
    simpa [Cloth.allocate] using this
  have hi : i < cl1.m_clothParticles.length := by
    rw [hlen1, ← hlen]
    exact (List.getElem?_eq_some_iff.mp hq).1
  obtain ⟨p, hp⟩ : ∃ p, cl1.m_clothParticles[i]? = some p := ⟨_, List.getElem?_eq_getElem hi⟩
  have hpin : p.m_isPinned = false := by
    have h1 := congrArg (fun l => l[i]?) hmap
    simp only [List.getElem?_map, hp, Cloth.allocate, List.getElem?_replicate] at h1
    rw [if_pos (by rw [← hlen1]; exact hi)] at h1
    simp only [Option.map_some', Option.some.injEq] at h1
    have h2 := congrArg Particle.m_isPinned h1
    exact h2
  rw [hps i p hp] at hq
  cases hq
  by_cases hc : i = 0 ∨ (i : Int) = C - 1
  · simp [hc, Particle.GetIsPinned, Particle.SetIsPinned]
  · simp [hc, Particle.GetIsPinned, hpin]

end ConstructorClaims

/-- C2, at the failing input: the constraint list of the 2 x 2 sample cloth
holds at positions 1 and 4 two `STRETCH` constraints on the same pair of
particles (positions 0 and 1 of the grid), once in each direction. -/
theorem constructed_constraints_duplicate :
    ∃ cl a b, sampleCloth 2 2 = some cl ∧ cl.m_clothConstraints.length = 12 ∧
      cl.m_clothConstraints[1]? = some a ∧ cl.m_clothConstraints[4]? = some b ∧
      a.type = .STRETCH ∧ b.type = .STRETCH ∧
      a.p1 = some 0 ∧ a.p2 = some 1 ∧ b.p1 = some 1 ∧ b.p2 = some 0 := by
  refine ⟨_, _, _, rfl, by decide, rfl, rfl, by decide⟩

/-- Witness of `constructed_constraints_square`: the 3 x 3 cloth built with
the identity allocator. -/
theorem constructed_constraints_square_witness :
    Function.Injective (id : Nat → Nat) ∧ (1 : Int) ≤ 3 ∧
    ∃ cl, sampleCloth 3 3 = some cl ∧
      ∀ (t : ConstraintType) (p q : Option Int),
        (∃ cc ∈ cl.m_clothConstraints, cc.type = t ∧
            ((cc.p1 = p ∧ cc.p2 = q) ∨ (cc.p1 = q ∧ cc.p2 = p))) ↔
        ∃ r1 c1 r2 c2 : Int,
          (0 ≤ r1 ∧ r1 < 3) ∧ (0 ≤ c1 ∧ c1 < 3) ∧ (0 ≤ r2 ∧ r2 < 3) ∧ (0 ≤ c2 ∧ c2 < 3) ∧
          cellsRelated t r1 c1 r2 c2 ∧ p = some (r1 * 3 + c1) ∧ q = some (r2 * 3 + c2) :=
  ⟨Function.injective_id, by decide,
    constructed_constraints_square id Function.injective_id ⟨0, 0, 0⟩ .PARTICLE_SPHERE 1 1 3 2 1
      (3 / 2) 2 ⟨0, 0, 0⟩ (by decide)⟩

/-- Witness of `constructed_rest_distances`: the 2 x 2 sample cloth. -/
theorem constructed_rest_distances_witness :
    sampleCloth 2 2 = some sampleSquare ∧
    ∀ cc ∈ sampleSquare.m_clothConstraints,
      (cc.type = .STRETCH → cc.restDistance = 1) ∧
      (cc.type = .SHEAR → cc.restDistance = 1 * (3 / 2)) ∧
      (cc.type = .BEND → cc.restDistance = 1 * 2) :=
  ⟨(Option.some_get _).symm,
    constructed_rest_distances id ⟨0, 0, 0⟩ .PARTICLE_SPHERE 1 1 2 2 2 1 (3 / 2) 2 ⟨0, 0, 0⟩
      sampleSquare (Option.some_get _).symm⟩

/-- C10, at the failing input: for 2 rows and 1 column the constructor
allocates 2 particles, `GetParticle( 1, 0 )` is `&m_clothParticles[ 2 ]`, and
the write through it in `AssignParticleStates` is outside the vector, so that
construction has no defined result. -/
theorem constructor_two_by_one_undefined :
    (Cloth.allocate (⟨0, 0, 0⟩ : Vector3 ℚ) .PARTICLE_SPHERE 1 1 2 1 2 1 (3 / 2)
        2).m_clothParticles.length = 2 ∧
    (Cloth.allocate (⟨0, 0, 0⟩ : Vector3 ℚ) .PARTICLE_SPHERE 1 1 2 1 2 1 (3 / 2)
        2).GetParticle 1 0 = some 2 ∧
    ((Cloth.allocate (⟨0, 0, 0⟩ : Vector3 ℚ) .PARTICLE_SPHERE 1 1 2 1 2 1 (3 / 2)
        2).AssignParticleStates 1 0 ⟨0, 0, 0⟩).isNone = true ∧
    sampleCloth 2 1 = none := by
  refine ⟨by decide, by decide, by decide, by rfl⟩

/-! ## Claims on expiry, on the `ParticleSystem` constructor and on the grid index -/

theorem Particle.cloneForces_secondsToLive {α : Type} (p src : Particle α) :
    (p.CloneForcesFromParticle src).m_secondsToLive = p.m_secondsToLive := by
  have h := congrArg Particle.m_secondsToLive (Particle.withoutState_cloneForces p src)
  exact h

section ExpiryClaims

variable {α : Type} [LinearOrderedField α]

theorem Particle.isExpired_iff (p : Particle α) : p.IsExpired = true ↔ p.m_secondsToLive ≤ 0 := by
  simp [Particle.IsExpired]

theorem assignCell_lifetimes (b : α) (v : Vector3 α) (r c : Int) (st st2 : Cloth α)
    (h : Cloth.assignCell b v r c st = some st2)
    (hst : st.m_particleTemplate.m_secondsToLive = -1 ∧
      ∀ q ∈ st.m_clothParticles, q.m_secondsToLive = 1) :
    st2.m_particleTemplate.m_secondsToLive = -1 ∧
      ∀ q ∈ st2.m_clothParticles, q.m_secondsToLive = 1 := by
  unfold Cloth.assignCell at h
  simp only [Option.map_eq_some'] at h
  obtain ⟨ps, hps, rfl⟩ := h
  refine ⟨hst.1, fun q hq => ?_⟩
  unfold modifyParticle at hps
  cases hd : derefParticle st.m_clothParticles (st.GetParticle r c) with
  | none => rw [hd] at hps; simp at hps
  | some p =>
    rw [hd] at hps
    simp only [Option.some.injEq] at hps
    obtain ⟨i, -, hi⟩ := derefParticle_eq_some hd
    have hp : p.m_secondsToLive = 1 := hst.2 p (List.getElem?_mem hi)
    change q ∈ ps at hq
    rw [← hps] at hq
    rcases List.mem_or_eq_of_mem_set hq with h1 | h1
    · exact hst.2 q h1
    · rw [h1, Particle.cloneForces_secondsToLive]
      exact hp

/-- In every successfully constructed cloth the template particle has
`secondsToLive = -1` and every grid particle has `secondsToLive = 1`. -/
theorem new_lifetimes (addr : Nat → Nat) (o : Vector3 α) (ty : ParticleType) (m rad : α)
    (R C : Int) (it : Nat) (b s k : α) (v : Vector3 α) (cl : Cloth α)
    (h : Cloth.new addr o ty m rad R C it b s k v = some cl) :
    cl.m_particleTemplate.m_secondsToLive = -1 ∧
      ∀ q ∈ cl.m_clothParticles, q.m_secondsToLive = 1 := by
  unfold Cloth.new at h
  cases h1 : (Cloth.allocate o ty m rad R C it b s k).AssignParticleStates b o.y v with
  | none => rw [h1] at h; simp at h
  | some cl1 =>
    rw [h1] at h
    simp only [Option.some_bind] at h
    have hcl1 : cl1.m_particleTemplate.m_secondsToLive = -1 ∧
        ∀ q ∈ cl1.m_clothParticles, q.m_secondsToLive = 1 := by
      unfold Cloth.AssignParticleStates at h1
      simp only [] at h1
      refine forLoop_preserves _ _ (fun st => st.m_particleTemplate.m_secondsToLive = -1 ∧
        ∀ q ∈ st.m_clothParticles, q.m_secondsToLive = 1) ?_ _ cl1 h1 ?_
      · intro r st st2 _ _ hb hst
        refine forLoop_preserves _ _ (fun st3 => st3.m_particleTemplate.m_secondsToLive = -1 ∧
          ∀ q ∈ st3.m_clothParticles, q.m_secondsToLive = 1) ?_ _ st2 hb hst
        intro c st3 st4 _ _ hb2 hst3
        exact assignCell_lifetimes b v r c st3 st4 hb2 hst3
      · refine ⟨rfl, fun q hq => ?_⟩
        have hq2 : q ∈ List.replicate (R * C).toNat (Particle.new ty m 1 rad) := hq
        rw [List.eq_of_mem_replicate hq2]
        rfl
    unfold Cloth.pinCorners at h
    cases h3 : modifyParticle (cl1.AddConstraints addr b s k).m_clothParticles
        ((cl1.AddConstraints addr b s k).GetParticle 0 0) (fun p => p.SetIsPinned true) with
    | none => rw [h3] at h; simp at h
    | some ps3 =>
      rw [h3] at h
      simp only [Option.some_bind] at h
      cases h4 : modifyParticle ps3 ((cl1.AddConstraints addr b s k).GetParticle 0 (C - 1))
          (fun p => p.SetIsPinned true) with
      | none => rw [h4] at h; simp at h
      | some ps4 =>
        rw [h4] at h
        simp only [Option.map_some', Option.some.injEq] at h
        rw [← h]
        refine ⟨hcl1.1, ?_⟩
        have step : ∀ (ps ps2 : List (Particle α)) (ptr : Option Int),
            modifyParticle ps ptr (fun p => p.SetIsPinned true) = some ps2 →
            (∀ q ∈ ps, q.m_secondsToLive = 1) → ∀ q ∈ ps2, q.m_secondsToLive = 1 := by
          intro ps ps2 ptr hm hall q hq
          unfold modifyParticle at hm
          cases hd : derefParticle ps ptr with
          | none => rw [hd] at hm; simp at hm
          | some p =>
            rw [hd] at hm
            simp only [Option.some.injEq] at hm
            obtain ⟨i, -, hi⟩ := derefParticle_eq_some hd
            rw [← hm] at hq
            rcases List.mem_or_eq_of_mem_set hq with h5 | h5
            · exact hall q h5
            · rw [h5]
              exact hall p (List.getElem?_mem hi)
        exact step _ _ _ h4 (step _ _ _ h3 hcl1.2)

/-- C16: `IsExpired()` holds exactly when `secondsToLive <= 0`;
`IsExpired()` after `SetIsExpired( b )` is `b`; the grid particles that
the `Cloth` constructor creates (`secondsToLive = 1`) are not expired and its
template particle (`secondsToLive = -1`) is, both right after their creation
and in every completed cloth. -/
theorem IsExpired_iff_secondsToLive (p : Particle α) (b : Bool) (addr : Nat → Nat)
    (o : Vector3 α) (ty : ParticleType) (m rad : α) (R C : Int) (it : Nat) (bd s k : α)
    (v : Vector3 α) :
    (p.IsExpired = true ↔ p.m_secondsToLive ≤ 0) ∧
    (p.SetIsExpired b).IsExpired = b ∧
    (∀ q ∈ (Cloth.allocate o ty m rad R C it bd s k).m_clothParticles,
      q.m_secondsToLive = 1 ∧ q.IsExpired = false) ∧
    ((Cloth.allocate o ty m rad R C it bd s k).m_particleTemplate.m_secondsToLive = -1 ∧
      (Cloth.allocate o ty m rad R C it bd s k).m_particleTemplate.IsExpired = true) ∧
    (∀ cl, Cloth.new addr o ty m rad R C it bd s k v = some cl →
      (∀ q ∈ cl.m_clothParticles, q.m_secondsToLive = 1 ∧ q.IsExpired = false) ∧
      cl.m_particleTemplate.m_secondsToLive = -1 ∧ cl.m_particleTemplate.IsExpired = true) := by
  have hone : ∀ q : Particle α, q.m_secondsToLive = 1 → q.IsExpired = false := by
    intro q hq
    simp [Particle.IsExpired, hq]
  have hneg : ∀ q : Particle α, q.m_secondsToLive = -1 → q.IsExpired = true := by
    intro q hq
    simp [Particle.IsExpired, hq]
  refine ⟨Particle.isExpired_iff p, ?_, ?_, ⟨rfl, hneg _ rfl⟩, ?_⟩
  · cases b <;> simp [Particle.SetIsExpired, Particle.IsExpired]
  · intro q hq
    have hq2 : q ∈ List.replicate (R * C).toNat (Particle.new ty m 1 rad) := hq
    have hq3 : q.m_secondsToLive = 1 := by
      rw [List.eq_of_mem_replicate hq2]
      rfl
    exact ⟨hq3, hone q hq3⟩
  · intro cl hcl
    obtain ⟨h1, h2⟩ := new_lifetimes addr o ty m rad R C it bd s k v cl hcl
    exact ⟨fun q hq => ⟨h2 q hq, hone q (h2 q hq)⟩, h1, hneg _ h1⟩

end ExpiryClaims

/-- C15: the `ParticleSystem` constructor ends fatally exactly when
`particlesEmittedAtOnce > maxParticlesEmitted`; a system it returns satisfies
`particlesEmittedAtOnce <= maxParticlesEmitted`, holds no live particle and
reports `GetSecondsUntilNextEmit() = secondsBetweenEmits`. -/
theorem ParticleSystem_new_fatal_iff {α : Type} [Field α] (emitterPosition : Vector3 α)
    (particleType : ParticleType)
    (particleRadius particleMass muzzleSpeed maxDown minDown maxLeft minLeft secondsBetweenEmits
      secondsBeforeParticlesExpire : α) (maxParticlesEmitted particlesEmittedAtOnce : Nat) :
    (ParticleSystem.new emitterPosition particleType particleRadius particleMass muzzleSpeed
        maxDown minDown maxLeft minLeft secondsBetweenEmits secondsBeforeParticlesExpire
        maxParticlesEmitted particlesEmittedAtOnce = none ↔
      particlesEmittedAtOnce > maxParticlesEmitted) ∧
    (∀ sys, ParticleSystem.new emitterPosition particleType particleRadius particleMass
        muzzleSpeed maxDown minDown maxLeft minLeft secondsBetweenEmits
        secondsBeforeParticlesExpire maxParticlesEmitted particlesEmittedAtOnce = some sys →
      sys.m_particlesEmittedAtOnce ≤ sys.m_maxParticlesEmitted ∧
      sys.m_particlesEmittedAtOnce = particlesEmittedAtOnce ∧
      sys.m_maxParticlesEmitted = maxParticlesEmitted ∧
      sys.m_unexpiredParticles = [] ∧
      sys.GetSecondsUntilNextEmit = secondsBetweenEmits) := by
  unfold ParticleSystem.new
  dsimp only
  by_cases h : particlesEmittedAtOnce ≤ maxParticlesEmitted
  · rw [if_pos h]
    refine ⟨⟨fun h2 => Option.noConfusion h2, fun h2 => by omega⟩, ?_⟩
    intro sys hsys
    simp only [Option.some.injEq] at hsys
    subst hsys
    exact ⟨h, rfl, rfl, rfl, by simp [ParticleSystem.GetSecondsUntilNextEmit]⟩
  · rw [if_neg h]
    refine ⟨⟨fun _ => by omega, fun _ => rfl⟩, ?_⟩
    intro sys hsys
    cases hsys

/-- Witness of `ParticleSystem_new_fatal_iff`: a system emitting 5 of at most
5 particles is built, one emitting 6 of at most 5 is refused. -/
theorem ParticleSystem_new_fatal_iff_witness :
    (ParticleSystem.new (⟨0, 0, 0⟩ : Vector3 ℚ) .PARTICLE_SPHERE 1 1 1 0 0 0 0 5 3 5 5).isSome
      = true ∧
    ParticleSystem.new (⟨0, 0, 0⟩ : Vector3 ℚ) .PARTICLE_SPHERE 1 1 1 0 0 0 0 5 3 5 6 = none :=
  ⟨by decide,
    (ParticleSystem_new_fatal_iff (⟨0, 0, 0⟩ : Vector3 ℚ) .PARTICLE_SPHERE 1 1 1 0 0 0 0 5 3 5
      6).1.mpr (by decide)⟩

/-- C20, as amended: for a grid of `R ≥ 1` rows and `C ≥ 1` columns, the
index `r * numRows + c` of `GetParticle` is the row-major index
`r * numCols + c` on every in-range cell exactly when `R = C` or `R = 1`. -/
theorem GetParticle_rowMajor_iff {α : Type} (cl : Cloth α) (hR : 1 ≤ cl.m_numRows)
    (hC : 1 ≤ cl.m_numCols) :
    (∀ r c : Int, 0 ≤ r → r < cl.m_numRows → 0 ≤ c → c < cl.m_numCols →
        cl.GetParticle r c = some (r * cl.m_numCols + c)) ↔
      (cl.m_numRows = cl.m_numCols ∨ cl.m_numRows = 1) := by
  constructor
  · intro h
    by_cases h1 : cl.m_numRows = 1
    · exact Or.inr h1
    · left
      have h2 := h 1 0 (by omega) (by omega) (by omega) (by omega)
      rw [GetParticle_eq cl 1 0 (by omega) (by omega)] at h2
      simp only [Option.some.injEq] at h2
      omega
  · rintro (h | h) r c hr0 hr hc0 hc
    · rw [GetParticle_eq cl r c (by omega) (by omega), h]
    · rw [GetParticle_eq cl r c (by omega) (by omega)]
      have hr1 : r = 0 := by omega
      subst hr1
      simp

/-- Witness of `GetParticle_rowMajor_iff` on the 2 x 3 sample cloth. -/
theorem GetParticle_rowMajor_iff_witness :
    (1 : Int) ≤ sampleWide.m_numRows ∧ (1 : Int) ≤ sampleWide.m_numCols ∧
    ((∀ r c : Int, 0 ≤ r → r < sampleWide.m_numRows → 0 ≤ c → c < sampleWide.m_numCols →
        sampleWide.GetParticle r c = some (r * sampleWide.m_numCols + c)) ↔
      (sampleWide.m_numRows = sampleWide.m_numCols ∨ sampleWide.m_numRows = 1)) :=
  ⟨by decide, by decide, GetParticle_rowMajor_iff sampleWide (by decide) (by decide)⟩

/-- C20, counterexample: in the 1 x 2 sample cloth the computed index is the
row-major index on every in-range cell, and the grid is not square. -/
theorem GetParticle_rowMajor_single_row :
    sampleRow.m_numRows = 1 ∧ sampleRow.m_numCols = 2 ∧
    ¬ ((∀ r c : Int, 0 ≤ r → r < sampleRow.m_numRows → 0 ≤ c → c < sampleRow.m_numCols →
          sampleRow.GetParticle r c = some (r * sampleRow.m_numCols + c)) ↔
        sampleRow.m_numRows = sampleRow.m_numCols) := by
  have hR : sampleRow.m_numRows = 1 := by decide
  have hC : sampleRow.m_numCols = 2 := by decide
  refine ⟨hR, hC, fun h => ?_⟩
  have h2 : sampleRow.m_numRows = sampleRow.m_numCols := by
    apply h.mp
    intro r c hr0 hr hc0 hc
    rw [GetParticle_eq sampleRow r c (by omega) (by omega)]
    have hr1 : r = 0 := by omega
    subst hr1
    simp
  rw [hR, hC] at h2
  exact absurd h2 (by decide)

/-! ## Claim on `Render` -/

/-- C14, at the failing input: in the 2 x 2 sample cloth whose top-left
particle alone is expired, `Render( true )` emits no quad for the block
`(0, 0)`, although three of the block's four corner particles are not
expired. -/
theorem Render_skips_block_on_top_left :
    shotTopLeftCloth.m_numRows = 2 ∧ shotTopLeftCloth.m_numCols = 2 ∧
    shotTopLeftCloth.m_clothParticles.map (fun p => p.IsExpired) = [true, false, false, false] ∧
    (shotTopLeftCloth.Render true false false).map (fun out => out.quads) = some [] ∧
    (sampleSquare.Render true false false).map (fun out => out.quads.map (fun q => (q.r, q.c)))
      = some [(0, 0)] := by
  refine ⟨by decide, by decide, by decide, by decide, by decide⟩


/-! ## One correction step of `SatisfyConstraints` -/

section CorrectionStep

variable {α : Type} [LinearOrderedField α]

/-- A constraint whose endpoints are at the same position is skipped: the
state is returned as it is, whatever the square root. -/
theorem satisfyConstraint_zero (sqrt : α → α) (dt : α) (cc : ClothConstraint α)
    (st : List (Particle α) × α) (q1 q2 : Particle α) (a : Vector3 α)
    (hq1 : derefParticle st.1 cc.p1 = some q1) (hq2 : derefParticle st.1 cc.p2 = some q2)
    (ha1 : q1.GetPosition = some a) (ha2 : q2.GetPosition = some a) :
    Cloth.satisfyConstraint sqrt dt cc st = some st := by
  have hz : a.sub a = Vector3.ZERO := by simp [Vector3.sub, Vector3.ZERO]
  simp only [Cloth.satisfyConstraint, hq1, hq2, ha1, ha2]
  rw [if_pos hz]

/-- One correction step on a constraint with non-zero displacement, in
closed form: the endpoints are distinct, each unpinned endpoint is
translated, and the squared error is added to `norm`. -/
theorem satisfyConstraint_nonzero (sqrt : α → α) (dt : α) (cc : ClothConstraint α)
    (ps : List (Particle α)) (n : α) (i j : Nat) (q1 q2 : Particle α)
    (s1 s2 : LinearDynamicsState α)
    (h1 : cc.p1 = some (i : Int)) (h2 : cc.p2 = some (j : Int))
    (hq1 : ps[i]? = some q1) (hq2 : ps[j]? = some q2)
    (hs1 : q1.m_state = some s1) (hs2 : q2.m_state = some s2)
    (hd : s2.m_position.sub s1.m_position ≠ Vector3.ZERO) :
    i ≠ j ∧
    Cloth.satisfyConstraint sqrt dt cc (ps, n) = some
      ((if q2.GetIsPinned = false then
          (if q1.GetIsPinned = false then
            ps.set i (q1.Translate
              (((halfCorrection sqrt cc.restDistance
                (s2.m_position.sub s1.m_position)).scale
                  (if q2.GetIsPinned = true then 2 else 1)).scale dt))
            else ps).set j (q2.Translate
              (((halfCorrection sqrt cc.restDistance
                (s2.m_position.sub s1.m_position)).neg.scale
                  (if q1.GetIsPinned = true then 2 else 1)).scale dt))
        else
          (if q1.GetIsPinned = false then
            ps.set i (q1.Translate
              (((halfCorrection sqrt cc.restDistance
                (s2.m_position.sub s1.m_position)).scale
                  (if q2.GetIsPinned = true then 2 else 1)).scale dt))
            else ps)),
        n + (cc.restDistance - (s2.m_position.sub s1.m_position).CalculateMagnitude sqrt) *
          (cc.restDistance - (s2.m_position.sub s1.m_position).CalculateMagnitude sqrt)) := by
  have hij : i ≠ j := by
    rintro rfl
    rw [hq1] at hq2
    cases hq2
    rw [hs1] at hs2
    cases hs2
    exact hd (by simp [Vector3.sub, Vector3.ZERO])
  refine ⟨hij, ?_⟩
  have hd1 : derefParticle ps cc.p1 = some q1 := by rw [h1, derefParticle_natCast]; exact hq1
  have hd2 : derefParticle ps cc.p2 = some q2 := by rw [h2, derefParticle_natCast]; exact hq2
  have hg1 : q1.GetPosition = some s1.m_position := by simp [Particle.GetPosition, hs1]
  have hg2 : q2.GetPosition = some s2.m_position := by simp [Particle.GetPosition, hs2]
  simp only [Cloth.satisfyConstraint, hd1, hd2, hg1, hg2]
  rw [if_neg hd]
  by_cases hp1 : q1.GetIsPinned = false
  · simp only [if_pos hp1]
    rw [h1, modifyParticle_natCast ps i _ q1 hq1]
    dsimp only
    by_cases hp2 : q2.GetIsPinned = false
    · simp only [if_pos hp2]
      rw [h2]
      have hq2b : ∀ x : Particle α, (ps.set i x)[j]? = some q2 := fun x => by
        rw [List.getElem?_set_ne hij]
        exact hq2
      rw [modifyParticle_natCast _ j _ q2 (hq2b _)]
      rfl
    · simp only [if_neg hp2]
      rfl
  · simp only [if_neg hp1]
    by_cases hp2 : q2.GetIsPinned = false
    · simp only [if_pos hp2]
      rw [h2, modifyParticle_natCast _ j _ q2 hq2]
      rfl
    · simp only [if_neg hp2]
      rfl

/-- C18: in one correction step on a constraint with non-zero displacement
and half-correction vector `h`, a pinned endpoint is left as it is; when
exactly one endpoint is pinned the other alone is translated, `p1` by
`h * 2 * step` or `p2` by `-h * 2 * step`, twice what it gets when neither is
pinned (`h * 1 * step`, `-h * 1 * step`); when both are pinned nothing
changes; no other particle is touched. -/
theorem correction_respects_pins (sqrt : α → α) (dt : α) (cc : ClothConstraint α)
    (ps : List (Particle α)) (n : α) (i j : Nat) (q1 q2 : Particle α)
    (s1 s2 : LinearDynamicsState α)
    (h1 : cc.p1 = some (i : Int)) (h2 : cc.p2 = some (j : Int))
    (hq1 : ps[i]? = some q1) (hq2 : ps[j]? = some q2)
    (hs1 : q1.m_state = some s1) (hs2 : q2.m_state = some s2)
    (hd : s2.m_position.sub s1.m_position ≠ Vector3.ZERO) :
    ∃ ps2 n2, Cloth.satisfyConstraint sqrt dt cc (ps, n) = some (ps2, n2) ∧
      (q1.GetIsPinned = true → ps2[i]? = some q1) ∧
      (q2.GetIsPinned = true → ps2[j]? = some q2) ∧
      (q1.GetIsPinned = false → q2.GetIsPinned = true →
        ps2[i]? = some (q1.Translate
          (((halfCorrection sqrt cc.restDistance (s2.m_position.sub s1.m_position)).scale
            2).scale dt))) ∧
      (q1.GetIsPinned = true → q2.GetIsPinned = false →
        ps2[j]? = some (q2.Translate
          (((halfCorrection sqrt cc.restDistance (s2.m_position.sub s1.m_position)).neg.scale
            2).scale dt))) ∧
      (q1.GetIsPinned = false → q2.GetIsPinned = false →
        ps2[i]? = some (q1.Translate
          (((halfCorrection sqrt cc.restDistance (s2.m_position.sub s1.m_position)).scale
            1).scale dt)) ∧
        ps2[j]? = some (q2.Translate
          (((halfCorrection sqrt cc.restDistance (s2.m_position.sub s1.m_position)).neg.scale
            1).scale dt))) ∧
      (q1.GetIsPinned = true → q2.GetIsPinned = true → ps2 = ps) ∧
      (∀ k : Nat, k ≠ i → k ≠ j → ps2[k]? = ps[k]?) ∧
      ((halfCorrection sqrt cc.restDistance (s2.m_position.sub s1.m_position)).scale 2).scale dt
        = (((halfCorrection sqrt cc.restDistance (s2.m_position.sub s1.m_position)).scale
          1).scale dt).scale 2 ∧
      ((halfCorrection sqrt cc.restDistance (s2.m_position.sub s1.m_position)).neg.scale
          2).scale dt
        = (((halfCorrection sqrt cc.restDistance (s2.m_position.sub s1.m_position)).neg.scale
          1).scale dt).scale 2 := by
  obtain ⟨hij, heq⟩ := satisfyConstraint_nonzero sqrt dt cc ps n i j q1 q2 s1 s2 h1 h2 hq1 hq2
    hs1 hs2 hd
  have hi : i < ps.length := (List.getElem?_eq_some_iff.mp hq1).1
  have hj : j < ps.length := (List.getElem?_eq_some_iff.mp hq2).1
  refine ⟨_, _, heq, ?_, ?_, ?_, ?_, ?_, ?_, ?_, ?_, ?_⟩
  · intro hp1
    cases hp2 : q2.GetIsPinned <;>
      simp [hp1, hp2, List.getElem?_set_ne (Ne.symm hij), hq1]
  · intro hp2
    cases hp1 : q1.GetIsPinned <;> simp [hp1, hp2, List.getElem?_set_ne hij, hq2]
  · intro hp1 hp2
    simp [hp1, hp2, List.getElem?_set_self hi]
  · intro hp1 hp2
    simp [hp1, hp2, List.getElem?_set_self hj]
  · intro hp1 hp2
    simp only [hp1, hp2, if_true, Bool.false_eq_true, if_false]
    refine ⟨?_, ?_⟩
    · rw [List.getElem?_set_ne (Ne.symm hij), List.getElem?_set_self hi]
    · rw [List.getElem?_set_self (by rw [List.length_set]; exact hj)]
  · intro hp1 hp2
    simp [hp1, hp2]
  · intro k hki hkj
    cases hp1 : q1.GetIsPinned <;> cases hp2 : q2.GetIsPinned <;>
      simp [List.getElem?_set_ne (Ne.symm hki), List.getElem?_set_ne (Ne.symm hkj)]
  · simp only [Vector3.scale, Vector3.mk.injEq]
    refine ⟨by ring, by ring, by ring⟩
  · simp only [Vector3.scale, Vector3.neg, Vector3.mk.injEq]
    refine ⟨by ring, by ring, by ring⟩

/-- C19: a constraint whose endpoints are at the same position is skipped,
for every square root: the particles and `norm` are returned as they are;
this covers a constraint with the same particle at both ends; and over the
reals the distance of a non-zero displacement, the only one ever divided by,
is not zero. -/
theorem zero_displacement_skipped (sqrt : α → α) (dt : α) (cc : ClothConstraint α)
    (ps : List (Particle α)) (n : α) (q1 q2 : Particle α) (a : Vector3 α)
    (hq1 : derefParticle ps cc.p1 = some q1) (hq2 : derefParticle ps cc.p2 = some q2)
    (ha1 : q1.GetPosition = some a) (ha2 : q2.GetPosition = some a) :
    Cloth.satisfyConstraint sqrt dt cc (ps, n) = some (ps, n) ∧
    squaredError sqrt ps cc = 0 ∧
    (∀ (cc2 : ClothConstraint α) (q : Particle α), cc2.p1 = cc2.p2 →
      derefParticle ps cc2.p1 = some q → q.m_state.isSome = true →
      Cloth.satisfyConstraint sqrt dt cc2 (ps, n) = some (ps, n)) ∧
    (∀ d : Vector3 ℝ, d ≠ Vector3.ZERO → d.CalculateMagnitude Real.sqrt ≠ 0) := by
  refine ⟨satisfyConstraint_zero sqrt dt cc (ps, n) q1 q2 a hq1 hq2 ha1 ha2, ?_, ?_, ?_⟩
  · simp [squaredError, hq1, hq2, ha1, ha2, Vector3.sub, Vector3.ZERO]
  · intro cc2 q hpp hq hs
    obtain ⟨s, hs2⟩ := Option.isSome_iff_exists.mp hs
    have hg : q.GetPosition = some s.m_position := by simp [Particle.GetPosition, hs2]
    exact satisfyConstraint_zero sqrt dt cc2 (ps, n) q q s.m_position hq (hpp ▸ hq) hg hg
  · intro d hd
    unfold Vector3.CalculateMagnitude
    have hpos : 0 < d.x * d.x + d.y * d.y + d.z * d.z := by
      rcases d with ⟨x, y, z⟩
      have hne : ¬ (x = 0 ∧ y = 0 ∧ z = 0) := by
        rintro ⟨rfl, rfl, rfl⟩
        exact hd rfl
      by_contra hle
      have h0 : x * x + y * y + z * z ≤ 0 := not_lt.mp hle
      have hx : x = 0 := by nlinarith [mul_self_nonneg x, mul_self_nonneg y, mul_self_nonneg z]
      have hy : y = 0 := by nlinarith [mul_self_nonneg x, mul_self_nonneg y, mul_self_nonneg z]
      have hz : z = 0 := by nlinarith [mul_self_nonneg x, mul_self_nonneg y, mul_self_nonneg z]
      exact hne ⟨hx, hy, hz⟩
    exact (Real.sqrt_pos.mpr hpos).ne'

end CorrectionStep

section CorrectionReal

theorem magnitude_pos (d : Vector3 ℝ) (hd : d ≠ Vector3.ZERO) :
    0 < d.CalculateMagnitude Real.sqrt := by
  unfold Vector3.CalculateMagnitude
  apply Real.sqrt_pos.mpr
  rcases d with ⟨x, y, z⟩
  have hne : ¬ (x = 0 ∧ y = 0 ∧ z = 0) := by
    rintro ⟨rfl, rfl, rfl⟩
    exact hd rfl
  by_contra hle
  have h0 : x * x + y * y + z * z ≤ 0 := not_lt.mp hle
  have hx : x = 0 := by nlinarith [mul_self_nonneg x, mul_self_nonneg y, mul_self_nonneg z]
  have hy : y = 0 := by nlinarith [mul_self_nonneg x, mul_self_nonneg y, mul_self_nonneg z]
  have hz : z = 0 := by nlinarith [mul_self_nonneg x, mul_self_nonneg y, mul_self_nonneg z]
  exact hne ⟨hx, hy, hz⟩

theorem magnitude_scale (d : Vector3 ℝ) (f : ℝ) (hf : 0 ≤ f) :
    (d.scale f).CalculateMagnitude Real.sqrt = f * d.CalculateMagnitude Real.sqrt := by
  unfold Vector3.CalculateMagnitude Vector3.scale
  have h : d.x * f * (d.x * f) + d.y * f * (d.y * f) + d.z * f * (d.z * f) =
      f * f * (d.x * d.x + d.y * d.y + d.z * d.z) := by ring
  simp only []
  rw [h, Real.sqrt_mul (mul_self_nonneg f), Real.sqrt_mul_self hf]

theorem Particle.translate_position {α : Type} [Add α] (q : Particle α)
    (s : LinearDynamicsState α) (t : Vector3 α) (hs : q.m_state = some s) :
    (q.Translate t).GetPosition = some (s.m_position.add t) := by
  simp [Particle.Translate, Particle.GetPosition, hs]

/-- C17: over the reals, one correction step (stiffness 100, step 1/1000) on
a constraint with non-negative rest distance, non-zero displacement `d` and at
least one unpinned endpoint leaves the endpoints with displacement
`d * (1 - 1/10 * (1 - rest/|d|))`, and the signed error `distance - rest`
after the step is 9/10 of the signed error before it. -/
theorem correction_scales_error (cc : ClothConstraint ℝ) (ps : List (Particle ℝ)) (n : ℝ)
    (i j : Nat) (q1 q2 : Particle ℝ) (s1 s2 : LinearDynamicsState ℝ)
    (h1 : cc.p1 = some (i : Int)) (h2 : cc.p2 = some (j : Int))
    (hq1 : ps[i]? = some q1) (hq2 : ps[j]? = some q2)
    (hs1 : q1.m_state = some s1) (hs2 : q2.m_state = some s2)
    (hrest : 0 ≤ cc.restDistance)
    (hd : s2.m_position.sub s1.m_position ≠ Vector3.ZERO)
    (hpin : q1.GetIsPinned = false ∨ q2.GetIsPinned = false) :
    ∃ ps2 n2 a b, Cloth.satisfyConstraint Real.sqrt (1 / 1000) cc (ps, n) = some (ps2, n2) ∧
      (ps2[i]?).bind Particle.GetPosition = some a ∧
      (ps2[j]?).bind Particle.GetPosition = some b ∧
      b.sub a = (s2.m_position.sub s1.m_position).scale
        (1 - 1 / 10 * (1 - cc.restDistance /
          (s2.m_position.sub s1.m_position).CalculateMagnitude Real.sqrt)) ∧
      (b.sub a).CalculateMagnitude Real.sqrt - cc.restDistance =
        9 / 10 * ((s2.m_position.sub s1.m_position).CalculateMagnitude Real.sqrt -
          cc.restDistance) := by
  obtain ⟨hij, heq⟩ := satisfyConstraint_nonzero Real.sqrt (1 / 1000) cc ps n i j q1 q2 s1 s2
    h1 h2 hq1 hq2 hs1 hs2 hd
  have hi : i < ps.length := (List.getElem?_eq_some_iff.mp hq1).1
  have hj : j < ps.length := (List.getElem?_eq_some_iff.mp hq2).1
  have hL := magnitude_pos _ hd
  have hfin : ∀ a b : Vector3 ℝ,
      b.sub a = (s2.m_position.sub s1.m_position).scale
        (1 - 1 / 10 * (1 - cc.restDistance /
          (s2.m_position.sub s1.m_position).CalculateMagnitude Real.sqrt)) →
      (b.sub a).CalculateMagnitude Real.sqrt - cc.restDistance =
        9 / 10 * ((s2.m_position.sub s1.m_position).CalculateMagnitude Real.sqrt -
          cc.restDistance) := by
    intro a b hab
    have hf : 0 ≤ 1 - 1 / 10 * (1 - cc.restDistance /
        (s2.m_position.sub s1.m_position).CalculateMagnitude Real.sqrt) := by
      have : 0 ≤ cc.restDistance /
          (s2.m_position.sub s1.m_position).CalculateMagnitude Real.sqrt :=
        div_nonneg hrest hL.le
      linarith
    rw [hab, magnitude_scale _ _ hf]
    field_simp
    ring
  have hdisp : ∀ (m1 m2 : ℝ), m1 + m2 = 2 →
      ((s2.m_position.add (((halfCorrection Real.sqrt cc.restDistance
          (s2.m_position.sub s1.m_position)).neg.scale m2).scale (1 / 1000))).sub
        (s1.m_position.add (((halfCorrection Real.sqrt cc.restDistance
          (s2.m_position.sub s1.m_position)).scale m1).scale (1 / 1000)))) =
      (s2.m_position.sub s1.m_position).scale
        (1 - 1 / 10 * (1 - cc.restDistance /
          (s2.m_position.sub s1.m_position).CalculateMagnitude Real.sqrt)) := by
    intro m1 m2 hm
    have hm2 : m2 = 2 - m1 := by linarith
    subst hm2
    simp only [halfCorrection, Vector3.scale, Vector3.add, Vector3.sub, Vector3.neg,
      Vector3.mk.injEq]
    refine ⟨by ring, by ring, by ring⟩
  have hzero : ∀ v : Vector3 ℝ, v = v.add (((halfCorrection Real.sqrt cc.restDistance
      (s2.m_position.sub s1.m_position)).scale 0).scale (1 / 1000)) := by
    intro v
    simp [Vector3.scale, Vector3.add]
  have hzero2 : ∀ v : Vector3 ℝ, v = v.add (((halfCorrection Real.sqrt cc.restDistance
      (s2.m_position.sub s1.m_position)).neg.scale 0).scale (1 / 1000)) := by
    intro v
    simp [Vector3.scale, Vector3.add]
  have hg1 : q1.GetPosition = some s1.m_position := by simp [Particle.GetPosition, hs1]
  have hg2 : q2.GetPosition = some s2.m_position := by simp [Particle.GetPosition, hs2]
  cases hp1 : q1.GetIsPinned <;> cases hp2 : q2.GetIsPinned
  · -- neither endpoint is pinned
    have hab := hdisp 1 1 (by norm_num)
    refine ⟨_, _, _, _, heq, ?_, ?_, hab, hfin _ _ hab⟩
    · simp only [hp1, hp2, if_true, Bool.false_eq_true, if_false]
      rw [List.getElem?_set_ne (Ne.symm hij), List.getElem?_set_self hi]
      exact Particle.translate_position q1 s1 _ hs1
    · simp only [hp1, hp2, if_true, Bool.false_eq_true, if_false]
      rw [List.getElem?_set_self (by rw [List.length_set]; exact hj)]
      exact Particle.translate_position q2 s2 _ hs2
  · -- only the second endpoint is pinned
    have hab := hdisp 2 0 (by norm_num)
    rw [← hzero2 s2.m_position] at hab
    refine ⟨_, _, _, _, heq, ?_, ?_, hab, hfin _ _ hab⟩
    · simp only [hp1, hp2, if_true, Bool.true_eq_false, if_false]
      rw [List.getElem?_set_self hi]
      exact Particle.translate_position q1 s1 _ hs1
    · simp only [hp1, hp2, if_true, Bool.true_eq_false, if_false]
      rw [List.getElem?_set_ne hij, hq2]
      exact hg2
  · -- only the first endpoint is pinned
    have hab := hdisp 0 2 (by norm_num)
    rw [← hzero s1.m_position] at hab
    refine ⟨_, _, _, _, heq, ?_, ?_, hab, hfin _ _ hab⟩
    · simp only [hp1, hp2, if_true, Bool.true_eq_false, Bool.false_eq_true, if_false]
      rw [List.getElem?_set_ne (Ne.symm hij), hq1]
      exact hg1
    · simp only [hp1, hp2, if_true, Bool.true_eq_false, Bool.false_eq_true, if_false]
      rw [List.getElem?_set_self hj]
      exact Particle.translate_position q2 s2 _ hs2
  · -- both pinned: excluded
    rcases hpin with h | h
    · rw [hp1] at h; cases h
    · rw [hp2] at h; cases h

end CorrectionReal

/-- Witness of `correction_respects_pins`: the first particle pinned at the
origin, the second free at `(3, 0, 0)`; the step leaves the first alone and
translates the second by `-h * 2 * step`. -/
theorem correction_respects_pins_witness :
    ∃ ps2 n2, Cloth.satisfyConstraint (fun x => x) (1 / 1000) (sampleStretch ℚ)
        (samplePair ℚ true false, 0) = some (ps2, n2) ∧
      ps2[0]? = some (restingParticle ⟨0, 0, 0⟩ true) ∧
      ps2[1]? = some ((restingParticle (⟨3, 0, 0⟩ : Vector3 ℚ) false).Translate
        (((halfCorrection (fun x => x) 1
          ((⟨3, 0, 0⟩ : Vector3 ℚ).sub ⟨0, 0, 0⟩)).neg.scale 2).scale (1 / 1000))) := by
  obtain ⟨ps2, n2, h, ha, -, -, hb, -⟩ :=
    correction_respects_pins (fun x => x) (1 / 1000) (sampleStretch ℚ)
      (samplePair ℚ true false) 0 0 1 (restingParticle ⟨0, 0, 0⟩ true)
      (restingParticle ⟨3, 0, 0⟩ false) ⟨⟨0, 0, 0⟩, Vector3.ZERO, []⟩
      ⟨⟨3, 0, 0⟩, Vector3.ZERO, []⟩ rfl rfl rfl rfl rfl rfl (by decide!)
  exact ⟨ps2, n2, h, ha rfl, hb rfl rfl⟩

/-- Witness of `zero_displacement_skipped`: a constraint with the particle at
position 0 at both ends. -/
theorem zero_displacement_skipped_witness :
    Cloth.satisfyConstraint (fun x => x) (1 / 1000) (sampleLoop ℚ) (samplePair ℚ false false, 0)
      = some (samplePair ℚ false false, 0) :=
  (zero_displacement_skipped (fun x => x) (1 / 1000) (sampleLoop ℚ) (samplePair ℚ false false)
    0 (restingParticle ⟨0, 0, 0⟩ false) (restingParticle ⟨0, 0, 0⟩ false) ⟨0, 0, 0⟩
    rfl rfl rfl rfl).1

/-- Witness of `correction_scales_error`: two free particles 3 apart with
rest distance 1; the signed error goes from 2 to 9/10 of it. -/
theorem correction_scales_error_witness :
    ∃ ps2 n2 a b, Cloth.satisfyConstraint Real.sqrt (1 / 1000) (sampleStretch ℝ)
        (samplePair ℝ false false, 0) = some (ps2, n2) ∧
      (ps2[0]?).bind Particle.GetPosition = some a ∧
      (ps2[1]?).bind Particle.GetPosition = some b ∧
      (b.sub a).CalculateMagnitude Real.sqrt - 1 =
        9 / 10 * (((⟨3, 0, 0⟩ : Vector3 ℝ).sub ⟨0, 0, 0⟩).CalculateMagnitude Real.sqrt - 1) := by
  obtain ⟨ps2, n2, a, b, h, ha, hb, -, herr⟩ :=
    correction_scales_error (sampleStretch ℝ) (samplePair ℝ false false) 0 0 1
      (restingParticle ⟨0, 0, 0⟩ false) (restingParticle ⟨3, 0, 0⟩ false)
      ⟨⟨0, 0, 0⟩, Vector3.ZERO, []⟩ ⟨⟨3, 0, 0⟩, Vector3.ZERO, []⟩ rfl rfl rfl rfl rfl rfl
      (by simp [sampleStretch]) (by simp [Vector3.sub, Vector3.ZERO]) (Or.inl rfl)
  exact ⟨ps2, n2, a, b, h, ha, hb, herr⟩


/-! ## The residual of `SatisfyConstraints` -/

section Residual

variable {α : Type} [LinearOrderedField α]

/-- The running `norm` does not influence the particles, and one step adds
to it the squared error measured before the step. -/
theorem satisfyConstraint_norm (sqrt : α → α) (dt : α) (cc : ClothConstraint α)
    (ps : List (Particle α)) (a : α) :
    Cloth.satisfyConstraint sqrt dt cc (ps, a) =
      (Cloth.satisfyConstraint sqrt dt cc (ps, 0)).map
        (fun r => (r.1, a + squaredError sqrt ps cc)) ∧
    ∀ r, Cloth.satisfyConstraint sqrt dt cc (ps, 0) = some r →
      r.2 = squaredError sqrt ps cc := by
  unfold Cloth.satisfyConstraint squaredError
  cases hd1 : derefParticle ps cc.p1 with
  | none => simp
  | some q1 =>
    cases hg1 : q1.GetPosition with
    | none => simp [hg1]
    | some a1 =>
      cases hd2 : derefParticle ps cc.p2 with
      | none => simp [hg1]
      | some q2 =>
        cases hg2 : q2.GetPosition with
        | none => simp [hg1, hg2]
        | some a2 =>
          simp only [hg1, hg2, Option.some_bind]
          by_cases hz : a2.sub a1 = Vector3.ZERO
          · simp [hz]
          · simp only [if_neg hz]
            cases hm1 : (if q1.GetIsPinned = false then
                modifyParticle ps cc.p1 (fun p => p.Translate
                  (((((a2.sub a1).scale 100).scale
                    (1 / 2 * (1 - cc.restDistance / (a2.sub a1).CalculateMagnitude sqrt))).scale
                    (if q2.GetIsPinned = true then 2 else 1)).scale dt))
                else some ps) with
            | none => simp
            | some ps1 =>
              dsimp only
              cases hm2 : (if q2.GetIsPinned = false then
                  modifyParticle ps1 cc.p2 (fun p => p.Translate
                    (((((a2.sub a1).scale 100).scale
                      (1 / 2 * (1 - cc.restDistance /
                        (a2.sub a1).CalculateMagnitude sqrt))).neg.scale
                      (if q1.GetIsPinned = true then 2 else 1)).scale dt))
                  else some ps1) with
              | none => simp
              | some ps2 => simp

/-- One pass adds to `norm` the sum of the squared errors met during the
pass. -/
theorem satisfyPass_eq_passErrors (sqrt : α → α) (dt : α) (cs : List (ClothConstraint α)) :
    ∀ (ps : List (Particle α)) (a : α),
      Cloth.satisfyPass sqrt dt cs (ps, a) =
        (passErrors sqrt dt cs ps).map (fun r => (r.2, a + r.1.sum)) := by
  induction cs with
  | nil =>
    intro ps a
    simp [Cloth.satisfyPass, passErrors]
  | cons cc rest ih =>
    intro ps a
    obtain ⟨h1, h2⟩ := satisfyConstraint_norm sqrt dt cc ps a
    unfold Cloth.satisfyPass at ih ⊢
    rw [List.foldlM_cons, h1]
    unfold passErrors
    cases h0 : Cloth.satisfyConstraint sqrt dt cc (ps, 0) with
    | none => simp
    | some r =>
      simp only [Option.map_some', Option.some_bind, Option.bind_eq_bind]
      rw [ih r.1 (a + squaredError sqrt ps cc)]
      cases hp : passErrors sqrt dt rest r.1 with
      | none => simp
      | some q => simp [add_assoc]

theorem iterationErrors_succ (sqrt : α → α) (dt : α) (cs : List (ClothConstraint α))
    (ps : List (Particle α)) (n : Nat) :
    iterationErrors sqrt dt cs (n + 1) ps =
      (iterationErrors sqrt dt cs n ps).bind (fun r =>
        (passErrors sqrt dt cs r.2).map (fun q => (r.1 ++ [q.1], q.2))) := rfl

/-- The outer loop in closed form: `n` passes add to `norm` the sum of the
per-pass sums of squared errors. -/
theorem satisfyLoop_eq_iterationErrors (sqrt : α → α) (dt : α) (cs : List (ClothConstraint α))
    (ps : List (Particle α)) (a : α) (n : Nat) :
    forLoop (n : Int) (fun _ st => Cloth.satisfyPass sqrt dt cs st) (ps, a) =
      (iterationErrors sqrt dt cs n ps).map (fun r => (r.2, a + (r.1.map List.sum).sum)) := by
  induction n with
  | zero =>
    rw [forLoop_zero]
    simp [iterationErrors]
  | succ k ih =>
    rw [forLoop_succ, ih, iterationErrors_succ]
    cases hk : iterationErrors sqrt dt cs k ps with
    | none => simp
    | some r =>
      simp only [Option.map_some', Option.some_bind]
      rw [satisfyPass_eq_passErrors]
      cases hp : passErrors sqrt dt cs r.2 with
      | none => simp
      | some q => simp [add_assoc]

theorem passErrors_length (sqrt : α → α) (dt : α) (cs : List (ClothConstraint α)) :
    ∀ (ps : List (Particle α)) (r : List α × List (Particle α)),
      passErrors sqrt dt cs ps = some r → r.1.length = cs.length := by
  induction cs with
  | nil =>
    intro ps r h
    simp only [passErrors, Option.some.injEq] at h
    rw [← h]
    rfl
  | cons cc rest ih =>
    intro ps r h
    unfold passErrors at h
    cases h0 : Cloth.satisfyConstraint sqrt dt cc (ps, 0) with
    | none => rw [h0] at h; simp at h
    | some st =>
      rw [h0] at h
      simp only [Option.some_bind, Option.map_eq_some'] at h
      obtain ⟨q, hq, rfl⟩ := h
      simp [ih st.1 q hq]

theorem iterationErrors_length (sqrt : α → α) (dt : α) (cs : List (ClothConstraint α))
    (ps : List (Particle α)) (n : Nat) :
    ∀ r, iterationErrors sqrt dt cs n ps = some r →
      r.1.length = n ∧ ∀ e ∈ r.1, e.length = cs.length := by
  induction n with
  | zero =>
    intro r h
    simp only [iterationErrors, Option.some.injEq] at h
    rw [← h]
    simp
  | succ k ih =>
    intro r h
    rw [iterationErrors_succ] at h
    cases hk : iterationErrors sqrt dt cs k ps with
    | none => rw [hk] at h; simp at h
    | some r0 =>
      rw [hk] at h
      simp only [Option.some_bind, Option.map_eq_some'] at h
      obtain ⟨q, hq, rfl⟩ := h
      obtain ⟨hl, hall⟩ := ih r0 hk
      refine ⟨by simp [hl], fun e he => ?_⟩
      rcases List.mem_append.mp he with h1 | h1
      · exact hall e h1
      · rw [List.mem_singleton] at h1
        rw [h1]
        exact passErrors_length sqrt dt cs r0.2 q hq

/-- C11, as amended: on a cloth whose constraints have valid endpoints,
`SatisfyConstraints` hands exactly one value to `DebuggerPrintf`, after the
last pass: the sum, over the `n` passes, of the per-pass sums of the squared
errors `(restDistance - currentDistance)^2`, each measured when its
constraint is processed (a constraint with zero displacement adds
nothing). -/
theorem SatisfyConstraints_reports_total (sqrt : α → α) (cl : Cloth α) (dt : α)
    (h : ∀ cc ∈ cl.m_clothConstraints,
      validEndpoint cl.m_clothParticles cc.p1 = true ∧
      validEndpoint cl.m_clothParticles cc.p2 = true) :
    ∃ errs ps2,
      iterationErrors sqrt dt cl.m_clothConstraints cl.m_numConstraintSolverIterations
        cl.m_clothParticles = some (errs, ps2) ∧
      errs.length = cl.m_numConstraintSolverIterations ∧
      (∀ e ∈ errs, e.length = cl.m_clothConstraints.length) ∧
      cl.SatisfyConstraints sqrt dt =
        some ({ cl with m_clothParticles := ps2 }, (errs.map List.sum).sum) ∧
      cl.SatisfyConstraintsOutput sqrt dt = some [(errs.map List.sum).sum] := by
  obtain ⟨cl2, norm, hsat, -, -⟩ := SatisfyConstraints_total sqrt cl dt h
  have hloop := satisfyLoop_eq_iterationErrors sqrt dt cl.m_clothConstraints cl.m_clothParticles
    0 cl.m_numConstraintSolverIterations
  unfold Cloth.SatisfyConstraints at hsat
  rw [hloop] at hsat
  cases hit : iterationErrors sqrt dt cl.m_clothConstraints cl.m_numConstraintSolverIterations
      cl.m_clothParticles with
  | none => rw [hit] at hsat; simp at hsat
  | some r =>
    obtain ⟨hl, hall⟩ := iterationErrors_length sqrt dt _ _ _ r hit
    have hsat2 : cl.SatisfyConstraints sqrt dt =
        some ({ cl with m_clothParticles := r.2 }, (r.1.map List.sum).sum) := by
      unfold Cloth.SatisfyConstraints
      rw [hloop, hit]
      simp
    refine ⟨r.1, r.2, rfl, hl, hall, hsat2, ?_⟩
    unfold Cloth.SatisfyConstraintsOutput
    rw [hsat2]
    rfl

end Residual

/-- Witness of `SatisfyConstraints_reports_total` on the 2 x 2 sample cloth
(two passes over twelve constraints). -/
theorem SatisfyConstraints_reports_total_witness :
    ∃ errs ps2,
      iterationErrors (fun x => x) (1 / 1000) sampleSquare.m_clothConstraints
        sampleSquare.m_numConstraintSolverIterations sampleSquare.m_clothParticles
          = some (errs, ps2) ∧
      errs.length = sampleSquare.m_numConstraintSolverIterations ∧
      (∀ e ∈ errs, e.length = sampleSquare.m_clothConstraints.length) ∧
      sampleSquare.SatisfyConstraints (fun x => x) (1 / 1000) =
        some ({ sampleSquare with m_clothParticles := ps2 }, (errs.map List.sum).sum) ∧
      sampleSquare.SatisfyConstraintsOutput (fun x => x) (1 / 1000)
        = some [(errs.map List.sum).sum] :=
  SatisfyConstraints_reports_total (fun x => x) sampleSquare (1 / 1000) (by decide)

/-- C11, counterexample: the 2 x 2 sample cloth runs two iteration passes,
and `SatisfyConstraints` reports one value, not two. -/
theorem SatisfyConstraints_reports_once :
    sampleSquare.m_numConstraintSolverIterations = 2 ∧
    sampleSquare.m_clothConstraints.length = 12 ∧
    (sampleSquare.SatisfyConstraintsOutput (fun x => x) (1 / 1000)).map List.length = some 1 := by
  refine ⟨by decide, by decide, by decide!⟩


/-! ## `MoveClothByOffset` -/

section MoveCloth

variable {α : Type} [Field α]

theorem moveTopRowParticle_step (cl0 st : Cloth α) (o : Vector3 α) (k : Nat)
    (hR : 0 ≤ cl0.m_numRows) (hk : (k : Int) < cl0.m_numCols)
    (hlen : cl0.m_numCols.toNat ≤ cl0.m_clothParticles.length)
    (hinv : MoveInv cl0 o k st) :
    ∃ st2, Cloth.moveTopRowParticle o (k : Int) st = some st2 ∧ MoveInv cl0 o (k + 1) st2 := by
  obtain ⟨hR1, hC1, hcs, hcur, horig, hl, hps⟩ := hinv
  have hklt : k < cl0.m_clothParticles.length := by omega
  obtain ⟨p, hp⟩ : ∃ p, cl0.m_clothParticles[k]? = some p :=
    ⟨_, List.getElem?_eq_getElem hklt⟩
  have hcurp : st.m_clothParticles[k]? = some p := by
    rw [hps k p hp]
    simp
  have hget : st.GetParticle 0 (k : Int) = some (k : Int) := by
    rw [GetParticle_eq st 0 k (by omega) (by omega)]
    simp
  cases hgp : p.GetPosition with
  | none =>
    refine ⟨st, ?_, hR1, hC1, hcs, hcur, horig, hl, ?_⟩
    · unfold Cloth.moveTopRowParticle
      simp only [hget, derefParticle_natCast, hcurp, hgp]
    · intro i q hq
      rw [hps i q hq]
      by_cases hik : i = k
      · subst hik
        rw [hp] at hq
        cases hq
        simp [Particle.movedBy, hgp]
      · have : i < k + 1 ↔ i < k := by omega
        simp only [this]
  | some pos =>
    refine ⟨{ st with m_clothParticles :=
        st.m_clothParticles.set k (p.SetPosition (pos.add o)) }, ?_, hR1, hC1, hcs, hcur,
      horig, ?_, ?_⟩
    · unfold Cloth.moveTopRowParticle
      simp only [hget, derefParticle_natCast, hcurp, hgp,
        modifyParticle_natCast _ k _ p hcurp, Option.map_some']
    · simp [hl]
    · intro i q hq
      by_cases hik : i = k
      · subst hik
        rw [hp] at hq
        cases hq
        show (st.m_clothParticles.set i _)[i]? = _
        rw [List.getElem?_set_self (by rw [hl]; exact hklt), if_pos (Nat.lt_succ_self i)]
        simp [Particle.movedBy, hgp]
      · show (st.m_clothParticles.set k _)[i]? = _
        rw [List.getElem?_set_ne (Ne.symm hik), hps i q hq]
        have : i < k + 1 ↔ i < k := by omega
        simp only [this]

/-- `MoveClothByOffset` in closed form, on a cloth with at least one column
whose top row lies in the particle vector: the particles at positions below
`numCols` are moved by the offset, the others are kept, and
`m_currentTopLeftPosition` takes the position of the particle at position 0
when it has one. -/
theorem MoveClothByOffset_total (cl : Cloth α) (o : Vector3 α)
    (hR : 0 ≤ cl.m_numRows) (hC : 1 ≤ cl.m_numCols)
    (hlen : cl.m_numCols.toNat ≤ cl.m_clothParticles.length) :
    ∃ cl2, cl.MoveClothByOffset o = some cl2 ∧
      cl2.m_numRows = cl.m_numRows ∧ cl2.m_numCols = cl.m_numCols ∧
      cl2.m_clothConstraints = cl.m_clothConstraints ∧
      cl2.m_originalTopLeftPosition = cl.m_originalTopLeftPosition ∧
      cl2.m_clothParticles.length = cl.m_clothParticles.length ∧
      (∀ (i : Nat) (p : Particle α), cl.m_clothParticles[i]? = some p →
        cl2.m_clothParticles[i]? =
          some (if (i : Int) < cl.m_numCols then p.movedBy o else p)) ∧
      (∀ p0, cl.m_clothParticles[0]? = some p0 →
        cl2.m_currentTopLeftPosition =
          ((p0.movedBy o).GetPosition).getD cl.m_currentTopLeftPosition) := by
  obtain ⟨st, hst, hinv⟩ := forLoop_total cl.m_numCols.toNat (Cloth.moveTopRowParticle o)
    (MoveInv cl o) cl ⟨rfl, rfl, rfl, rfl, rfl, rfl, fun i p hp => by simpa using hp⟩
    (fun k st hk hinv =>
      moveTopRowParticle_step cl st o k hR (Int.lt_toNat.mp hk) hlen hinv)
  obtain ⟨hR1, hC1, hcs, hcur, horig, hl, hps⟩ := hinv
  have h0lt : 0 < cl.m_clothParticles.length := by omega
  obtain ⟨p0, hp0⟩ : ∃ p, cl.m_clothParticles[0]? = some p :=
    ⟨_, List.getElem?_eq_getElem h0lt⟩
  have hst0 : st.m_clothParticles[0]? = some (p0.movedBy o) := by
    rw [hps 0 p0 hp0, if_pos (by omega)]
  have hget : st.GetParticle 0 0 = some ((0 : Nat) : Int) := by
    rw [GetParticle_eq st 0 0 (by omega) (by omega)]
    simp
  have hconv : ∀ i : Nat, (i < cl.m_numCols.toNat) ↔ ((i : Int) < cl.m_numCols) :=
    fun i => Int.lt_toNat
  cases hgp : (p0.movedBy o).GetPosition with
  | none =>
    refine ⟨st, ?_, hR1, hC1, hcs, horig, hl, ?_, ?_⟩
    · unfold Cloth.MoveClothByOffset
      rw [forLoop_toNat, hst]
      simp only [Option.some_bind, hget, derefParticle_natCast, hst0, hgp]
    · intro i p hp
      rw [hps i p hp]
      simp only [hconv]
    · intro q hq
      rw [hp0] at hq
      cases hq
      rw [hgp, hcur]
      rfl
  | some pos =>
    refine ⟨{ st with m_currentTopLeftPosition := pos }, ?_, hR1, hC1, hcs, horig, hl, ?_, ?_⟩
    · unfold Cloth.MoveClothByOffset
      rw [forLoop_toNat, hst]
      simp only [Option.some_bind, hget, derefParticle_natCast, hst0, hgp]
    · intro i p hp
      show st.m_clothParticles[i]? = _
      rw [hps i p hp]
      simp only [hconv]
    · intro q hq
      rw [hp0] at hq
      cases hq
      rw [hgp]
      rfl

/-- C12: on a cloth of at least one row and one column whose particle
vector is the grid and whose particles all own a dynamics state,
`MoveClothByOffset( o )` returns; each particle at a position below `numCols`
(the top row) has its old position plus `o`, every other particle keeps its
position, and velocities, pin flags, lifetimes and the constraint list are
unchanged. -/
theorem MoveClothByOffset_moves_top_row (cl : Cloth α) (o : Vector3 α)
    (hR : 1 ≤ cl.m_numRows) (hC : 1 ≤ cl.m_numCols)
    (hlen : cl.m_clothParticles.length = (cl.m_numRows * cl.m_numCols).toNat)
    (hstate : ∀ p ∈ cl.m_clothParticles, p.m_state.isSome = true) :
    ∃ cl2, cl.MoveClothByOffset o = some cl2 ∧
      cl2.m_clothConstraints = cl.m_clothConstraints ∧
      cl2.m_clothParticles.length = cl.m_clothParticles.length ∧
      ∀ (i : Nat) (p : Particle α), cl.m_clothParticles[i]? = some p →
        ∃ q s s2, cl2.m_clothParticles[i]? = some q ∧ p.m_state = some s ∧
          q.m_state = some s2 ∧
          s2.m_position =
            (if (i : Int) < cl.m_numCols then s.m_position.add o else s.m_position) ∧
          s2.m_velocity = s.m_velocity ∧
          q.m_isPinned = p.m_isPinned ∧ q.m_secondsToLive = p.m_secondsToLive := by
  have hle : cl.m_numCols.toNat ≤ cl.m_clothParticles.length := by
    rw [hlen]
    have : cl.m_numCols ≤ cl.m_numRows * cl.m_numCols := by nlinarith
    omega
  obtain ⟨cl2, hmove, -, -, hcs, -, hl, hps, -⟩ :=
    MoveClothByOffset_total cl o (by omega) hC hle
  refine ⟨cl2, hmove, hcs, hl, fun i p hp => ?_⟩
  obtain ⟨s, hs⟩ := Option.isSome_iff_exists.mp (hstate p (List.getElem?_mem hp))
  have hgp : p.GetPosition = some s.m_position := by simp [Particle.GetPosition, hs]
  by_cases hi : (i : Int) < cl.m_numCols
  · refine ⟨p.movedBy o, s, { s with m_position := s.m_position.add o }, ?_, hs, ?_, ?_, rfl,
      ?_, ?_⟩
    · rw [hps i p hp, if_pos hi]
    · simp [Particle.movedBy, hgp, Particle.SetPosition, hs]
    · rw [if_pos hi]
    · simp [Particle.movedBy, hgp, Particle.SetPosition]
    · simp [Particle.movedBy, hgp, Particle.SetPosition]
  · refine ⟨p, s, s, ?_, hs, hs, ?_, rfl, rfl, rfl⟩
    · rw [hps i p hp, if_neg hi]
    · rw [if_neg hi]

end MoveCloth

/-- Witness of `MoveClothByOffset_moves_top_row` on the 2 x 2 sample
cloth. -/
theorem MoveClothByOffset_moves_top_row_witness :
    ∃ cl2, sampleSquare.MoveClothByOffset ⟨1, 2, 3⟩ = some cl2 ∧
      cl2.m_clothConstraints = sampleSquare.m_clothConstraints ∧
      cl2.m_clothParticles.length = sampleSquare.m_clothParticles.length ∧
      ∀ (i : Nat) (p : Particle ℚ), sampleSquare.m_clothParticles[i]? = some p →
        ∃ q s s2, cl2.m_clothParticles[i]? = some q ∧ p.m_state = some s ∧
          q.m_state = some s2 ∧
          s2.m_position =
            (if (i : Int) < sampleSquare.m_numCols then s.m_position.add ⟨1, 2, 3⟩
              else s.m_position) ∧
          s2.m_velocity = s.m_velocity ∧
          q.m_isPinned = p.m_isPinned ∧ q.m_secondsToLive = p.m_secondsToLive :=
  MoveClothByOffset_moves_top_row sampleSquare ⟨1, 2, 3⟩ (by decide) (by decide) (by decide)
    (by decide)

/-! ## Positions after construction of a square cloth -/

theorem Particle.cloneForces_state {α : Type} (p src : Particle α) (s : LinearDynamicsState α)
    (hs : p.m_state = some s) :
    (p.CloneForcesFromParticle src).m_state =
      some { s with m_forces := s.m_forces ++ src.GetForces } := by
  unfold Particle.CloneForcesFromParticle
  generalize src.GetForces = fs
  induction fs generalizing p s with
  | nil => simp [hs]
  | cons f fs ih =>
    rw [List.foldl_cons]
    rw [ih (p.AddForce f) (s.AddForce f) (by simp [Particle.AddForce, hs])]
    simp [LinearDynamicsState.AddForce]

section SquarePositions

variable {α : Type} [Field α]

theorem assignCell_square_step (cl0 st : Cloth α) (b : α) (v : Vector3 α) (T : Particle α)
    (n r c : Nat) (hR : cl0.m_numRows = (n : Int)) (hC : cl0.m_numCols = (n : Int))
    (hlen : cl0.m_clothParticles.length = n * n) (hr : r < n) (hc : c < n)
    (hinv : AssignSquareInv cl0 b v T n (r * n + c) st) :
    ∃ st2, Cloth.assignCell b v (r : Int) (c : Int) st = some st2 ∧
      AssignSquareInv cl0 b v T n (r * n + c + 1) st2 := by
  obtain ⟨hframe, hT, hps⟩ := hinv
  obtain ⟨hR1, hC1, hcs, ho, hcur, hit, hmap⟩ := hframe
  have hlt : r * n + c < cl0.m_clothParticles.length := by
    rw [hlen]
    have : r * n + n ≤ n * n := by
      have h1 : (r + 1) * n ≤ n * n := Nat.mul_le_mul_right n hr
      rw [Nat.add_mul, Nat.one_mul] at h1
      exact h1
    omega
  obtain ⟨p0, hp0⟩ : ∃ p, cl0.m_clothParticles[r * n + c]? = some p :=
    ⟨_, List.getElem?_eq_getElem hlt⟩
  have hcurp : st.m_clothParticles[r * n + c]? = some p0 := by
    rw [hps _ p0 hp0]
    simp
  have hget : st.GetParticle (r : Int) (c : Int) = some ((r * n + c : Nat) : Int) := by
    rw [GetParticle_eq st r c (by omega) (by omega), hR1, hR]
    push_cast
    rfl
  have hdiv : (r * n + c) / n = r := by
    rw [Nat.add_comm, Nat.add_mul_div_right _ _ (by omega), Nat.div_eq_of_lt hc, Nat.zero_add]
  have hmod : (r * n + c) % n = c := by
    rw [Nat.add_comm, Nat.add_mul_mod_self_right, Nat.mod_eq_of_lt hc]
  refine ⟨{ st with m_clothParticles := (st.m_clothParticles.set (r * n + c)
      (assignedParticle b v cl0.m_currentTopLeftPosition T (r : Int) (c : Int) p0)) }, ?_,
    ⟨hR1, hC1, hcs, ho, hcur, hit, ?_⟩, hT, ?_⟩
  · unfold Cloth.assignCell
    simp only [hget, modifyParticle_natCast _ _ _ p0 hcurp, Option.map_some', hT, hcur]
    rfl
  · rw [← hmap]
    exact set_withoutState _ _ p0 _ hcurp (by
      unfold assignedParticle
      rw [Particle.withoutState_cloneForces]
      rfl)
  · intro i q hq
    show (st.m_clothParticles.set (r * n + c) _)[i]? = _
    by_cases hi : i = r * n + c
    · subst hi
      rw [hp0] at hq
      cases hq
      rw [List.getElem?_set_self (by
        have := congrArg List.length hmap
        simp only [List.length_map] at this
        rw [this]
        exact hlt), if_pos (Nat.lt_succ_self _), hdiv, hmod]
    · rw [List.getElem?_set_ne (Ne.symm hi), hps i q hq]
      have : i < r * n + c + 1 ↔ i < r * n + c := by omega
      simp only [this]

/-- `AssignParticleStates` on a square grid of side `n`, in closed form:
every particle of the grid is replaced by the particle assigned to its
cell. -/
theorem AssignParticleStates_square (cl0 : Cloth α) (b d : α) (v : Vector3 α) (n : Nat)
    (hR : cl0.m_numRows = (n : Int)) (hC : cl0.m_numCols = (n : Int))
    (hlen : cl0.m_clothParticles.length = n * n) :
    ∃ cl1, cl0.AssignParticleStates b d v = some cl1 ∧
      AssignSquareInv cl0 b v
        ((cl0.m_particleTemplate.SetParticleState ⟨Vector3.ZERO, Vector3.ZERO, []⟩).AddForce
          (GravityForce (981 / 100) ⟨0, 0, -1⟩)) n (n * n) cl1 := by
  unfold Cloth.AssignParticleStates
  simp only []
  rw [hR, hC]
  apply forLoop_total n _ (fun r st => AssignSquareInv cl0 b v _ n (r * n) st)
  · refine ⟨⟨hR.symm, hC.symm, rfl, rfl, rfl, rfl, rfl⟩, rfl, fun i p0 hp0 => ?_⟩
    simpa using hp0
  · intro r st hr hst
    have hend : (r + 1) * n = r * n + n := by rw [Nat.add_mul, Nat.one_mul]
    rw [hend]
    apply forLoop_total n _ (fun c st2 => AssignSquareInv cl0 b v _ n (r * n + c) st2) st hst
    intro c st2 hc hst2
    exact assignCell_square_step cl0 st2 b v _ n r c hR hC hlen hr hc hst2

theorem assignedParticle_state (b : α) (v O : Vector3 α) (T : Particle α) (r c : Int)
    (p : Particle α) :
    (assignedParticle b v O T r c p).m_state =
      some ⟨(Vector3.mk ((c : α) * b) 0 (-(r : α) * b)).add O, v, T.GetForces⟩ := by
  unfold assignedParticle
  rw [Particle.cloneForces_state _ T ⟨_, v, []⟩ rfl]
  simp

/-- C13: for a square cloth of side `N ≥ 1` built at the origin `O` with
base distance `b` and initial velocity `v`, construction succeeds and the
particle of every in-range cell `(r, c)`, at position `r * N + c` of the grid,
has position `O + (c * b, 0, -(r * b))`, whose `y` component is `O.y`, and
velocity `v`. -/
theorem constructed_positions_square (addr : Nat → Nat) (o : Vector3 α) (ty : ParticleType)
    (m rad : α) (N : Int) (it : Nat) (b s k : α) (v : Vector3 α) (hN : 1 ≤ N) :
    ∃ cl, Cloth.new addr o ty m rad N N it b s k v = some cl ∧
      ∀ r c : Int, 0 ≤ r → r < N → 0 ≤ c → c < N →
        ∃ q st, cl.GetParticle r c = some (r * N + c) ∧
          derefParticle cl.m_clothParticles (cl.GetParticle r c) = some q ∧
          q.m_state = some st ∧
          st.m_position = o.add ⟨(c : α) * b, 0, -((r : α) * b)⟩ ∧
          st.m_position.y = o.y ∧ st.m_velocity = v := by
  obtain ⟨cl1, cl, h1, -, hnew, hRn, hCn, -, hlen, hps⟩ :=
    new_total addr o ty m rad N N it b s k v hN le_rfl
  obtain ⟨n, rfl⟩ : ∃ n : Nat, N = (n : Int) := ⟨N.toNat, (Int.toNat_of_nonneg (by omega)).symm⟩
  have hlenA : (Cloth.allocate o ty m rad (n : Int) (n : Int) it b s k).m_clothParticles.length
      = n * n := by
    show (List.replicate ((n : Int) * (n : Int)).toNat _).length = n * n
    rw [List.length_replicate, ← Nat.cast_mul, Int.toNat_natCast]
  obtain ⟨cl1b, h1b, -, -, hsq⟩ :=
    AssignParticleStates_square (Cloth.allocate o ty m rad (n : Int) (n : Int) it b s k) b o.y v
      n rfl rfl hlenA
  have hcl : cl1b = cl1 := by
    rw [h1] at h1b
    exact (Option.some.inj h1b).symm
  subst hcl
  refine ⟨cl, hnew, fun r c hr0 hr hc0 hc => ?_⟩
  obtain ⟨rn, rfl⟩ : ∃ k : Nat, r = (k : Int) := ⟨r.toNat, (Int.toNat_of_nonneg hr0).symm⟩
  obtain ⟨cn, rfl⟩ : ∃ k : Nat, c = (k : Int) := ⟨c.toNat, (Int.toNat_of_nonneg hc0).symm⟩
  have hrn : rn < n := by omega
  have hcn : cn < n := by omega
  have hlt : rn * n + cn < n * n := by
    have h2 : (rn + 1) * n ≤ n * n := Nat.mul_le_mul_right n hrn
    rw [Nat.add_mul, Nat.one_mul] at h2
    omega
  have hget : cl.GetParticle (rn : Int) (cn : Int) = some ((rn : Int) * (n : Int) + (cn : Int)) := by
    rw [GetParticle_eq cl _ _ (by omega) (by omega), hRn]
  have hidx : ((rn : Int) * (n : Int) + (cn : Int)) = ((rn * n + cn : Nat) : Int) := by
    push_cast
    rfl
  have hdiv : (rn * n + cn) / n = rn := by
    rw [Nat.add_comm, Nat.add_mul_div_right _ _ (by omega), Nat.div_eq_of_lt hcn, Nat.zero_add]
  have hmod : (rn * n + cn) % n = cn := by
    rw [Nat.add_comm, Nat.add_mul_mod_self_right, Nat.mod_eq_of_lt hcn]
  have hA : (Cloth.allocate o ty m rad (n : Int) (n : Int) it b s k).m_clothParticles[rn * n + cn]?
      = some (Particle.new ty m 1 rad) := by
    simp only [Cloth.allocate, List.getElem?_replicate]
    rw [if_pos (by rw [← Nat.cast_mul, Int.toNat_natCast]; exact hlt)]
  have h1p := hsq _ _ hA
  rw [if_pos hlt, hdiv, hmod] at h1p
  have hclp := hps _ _ h1p
  have hst := assignedParticle_state b v
    (Cloth.allocate o ty m rad (n : Int) (n : Int) it b s k).m_currentTopLeftPosition
    ((Cloth.allocate o ty m rad (n : Int) (n : Int) it b s k).m_particleTemplate.SetParticleState
      ⟨Vector3.ZERO, Vector3.ZERO, []⟩ |>.AddForce (GravityForce (981 / 100) ⟨0, 0, -1⟩))
    (rn : Int) (cn : Int) (Particle.new ty m 1 rad)
  have hq : ∃ q, cl.m_clothParticles[rn * n + cn]? = some q ∧
      q.m_state = (assignedParticle b v
        (Cloth.allocate o ty m rad (n : Int) (n : Int) it b s k).m_currentTopLeftPosition
        ((Cloth.allocate o ty m rad (n : Int) (n : Int) it b s
          k).m_particleTemplate.SetParticleState
            ⟨Vector3.ZERO, Vector3.ZERO, []⟩ |>.AddForce (GravityForce (981 / 100) ⟨0, 0, -1⟩))
        (rn : Int) (cn : Int) (Particle.new ty m 1 rad)).m_state := by
    refine ⟨_, hclp, ?_⟩
    split_ifs <;> rfl
  obtain ⟨q, hq1, hq2⟩ := hq
  rw [hst] at hq2
  refine ⟨q, _, hget, ?_, hq2, ?_, ?_, rfl⟩
  · rw [hget, hidx, derefParticle_natCast]
    exact hq1
  · simp only [Vector3.add, Cloth.allocate, Vector3.mk.injEq]
    refine ⟨by ring, by ring, by ring⟩
  · simp [Vector3.add, Cloth.allocate]

end SquarePositions

/-- Witness of `constructed_positions_square`: the 3 x 3 sample cloth. -/
theorem constructed_positions_square_witness :
    ∃ cl, sampleCloth 3 3 = some cl ∧
      ∀ r c : Int, 0 ≤ r → r < 3 → 0 ≤ c → c < 3 →
        ∃ q st, cl.GetParticle r c = some (r * 3 + c) ∧
          derefParticle cl.m_clothParticles (cl.GetParticle r c) = some q ∧
          q.m_state = some st ∧
          st.m_position = (⟨0, 0, 0⟩ : Vector3 ℚ).add ⟨(c : ℚ) * 1, 0, -((r : ℚ) * 1)⟩ ∧
          st.m_position.y = 0 ∧ st.m_velocity = ⟨0, 0, 0⟩ :=
  constructed_positions_square id ⟨0, 0, 0⟩ .PARTICLE_SPHERE 1 1 3 2 1 (3 / 2) 2 ⟨0, 0, 0⟩
    (by decide)

/-! ## Claim on the grid index of non-square grids -/

/-- C21: the index of `GetParticle` on a non-square grid.  With
`2 ≤ numRows < numCols` the distinct in-range cells `(0, numRows)` and `(1, 0)`
are given the same particle, at position `numRows`; with
`numRows > numCols ≥ 1` the in-range cell `(numRows - 1, numCols - 1)` is given
an index that is at least `numRows * numCols`, which no particle of a grid of
`numRows * numCols` particles has. -/
theorem GetParticle_nonsquare_misbehaves {α : Type} (cl : Cloth α) :
    (2 ≤ cl.m_numRows → cl.m_numRows < cl.m_numCols →
      ((0 : Int) < cl.m_numRows ∧ 0 ≤ cl.m_numRows ∧ cl.m_numRows < cl.m_numCols) ∧
      ((0 : Int) ≤ 1 ∧ 1 < cl.m_numRows ∧ (0 : Int) < cl.m_numCols) ∧
      ((0 : Int), cl.m_numRows) ≠ (1, 0) ∧
      cl.GetParticle 0 cl.m_numRows = some cl.m_numRows ∧
      cl.GetParticle 1 0 = some cl.m_numRows) ∧
    (1 ≤ cl.m_numCols → cl.m_numCols < cl.m_numRows →
      (0 ≤ cl.m_numRows - 1 ∧ cl.m_numRows - 1 < cl.m_numRows) ∧
      (0 ≤ cl.m_numCols - 1 ∧ cl.m_numCols - 1 < cl.m_numCols) ∧
      ∃ i : Int, cl.GetParticle (cl.m_numRows - 1) (cl.m_numCols - 1) = some i ∧
        cl.m_numRows * cl.m_numCols ≤ i ∧
        (cl.m_clothParticles.length = (cl.m_numRows * cl.m_numCols).toNat →
          derefParticle cl.m_clothParticles
            (cl.GetParticle (cl.m_numRows - 1) (cl.m_numCols - 1)) = none)) := by
  constructor
  · intro hR hRC
    refine ⟨⟨by omega, by omega, hRC⟩, ⟨by omega, by omega, by omega⟩, ?_, ?_, ?_⟩
    · intro h
      have := congrArg Prod.fst h
      simp at this
    · rw [GetParticle_eq cl 0 cl.m_numRows (by omega) (by omega)]
      simp
    · rw [GetParticle_eq cl 1 0 (by omega) (by omega)]
      simp
  · intro hC hRC
    have hidx : cl.m_numRows * cl.m_numCols ≤
        (cl.m_numRows - 1) * cl.m_numRows + (cl.m_numCols - 1) := by
      nlinarith [mul_nonneg (show (0 : Int) ≤ cl.m_numRows - cl.m_numCols - 1 by omega)
        (show (0 : Int) ≤ cl.m_numRows - 2 by omega)]
    have hget := GetParticle_eq cl (cl.m_numRows - 1) (cl.m_numCols - 1) (by omega) (by omega)
    refine ⟨⟨by omega, by omega⟩, ⟨by omega, by omega⟩, _, hget, hidx, fun hlen => ?_⟩
    rw [hget]
    have hpos : 0 ≤ (cl.m_numRows - 1) * cl.m_numRows + (cl.m_numCols - 1) := by
      have : 0 ≤ cl.m_numRows * cl.m_numCols := by nlinarith
      omega
    simp only [derefParticle, if_pos hpos]
    apply List.getElem?_eq_none
    rw [hlen]
    omega

/-- Witness of `GetParticle_nonsquare_misbehaves`: on the 2 x 3 sample cloth
the cells `(0, 2)` and `(1, 0)` share the particle at position 2; on the 3 x 2
grid of six particles the cell `(2, 1)` is given the index 7. -/
theorem GetParticle_nonsquare_misbehaves_witness :
    (sampleWide.GetParticle 0 2 = some 2 ∧ sampleWide.GetParticle 1 0 = some 2) ∧
    (∃ i : Int, allocatedTall.GetParticle 2 1 = some i ∧ 6 ≤ i ∧
      derefParticle allocatedTall.m_clothParticles (allocatedTall.GetParticle 2 1) = none) := by
  obtain ⟨-, -, -, h1, h2⟩ :=
    (GetParticle_nonsquare_misbehaves sampleWide).1 (by decide) (by decide)
  obtain ⟨-, -, i, h3, h4, h5⟩ :=
    (GetParticle_nonsquare_misbehaves allocatedTall).2 (by decide) (by decide)
  exact ⟨⟨h1, h2⟩, i, h3, h4, h5 (by decide)⟩

/-! ## Claims on the algebra of one correction step -/

theorem Vector3.sub_eq_zero_iff {α : Type} [LinearOrderedField α] (a b : Vector3 α) :
    b.sub a = Vector3.ZERO ↔ b = a := by
  rcases a with ⟨ax, ay, az⟩
  rcases b with ⟨bx, by1, bz⟩
  simp only [Vector3.sub, Vector3.ZERO, Vector3.mk.injEq, sub_eq_zero]

/-- C24: over the reals, one correction step on a constraint between two
distinct unpinned particles returns and leaves the sum, hence the midpoint, of
the two endpoint positions as it was.  When the displacement is not zero,
`p1` is translated by `h * 1 * step` and `p2` by `-h * 1 * step`, the opposite
vector, `h` being the half-correction vector computed from the positions before
the step; when it is zero the step is skipped. -/
theorem correction_preserves_midpoint (dt : ℝ) (cc : ClothConstraint ℝ)
    (ps : List (Particle ℝ)) (n : ℝ) (i j : Nat) (q1 q2 : Particle ℝ)
    (s1 s2 : LinearDynamicsState ℝ)
    (h1 : cc.p1 = some (i : Int)) (h2 : cc.p2 = some (j : Int)) (hij : i ≠ j)
    (hq1 : ps[i]? = some q1) (hq2 : ps[j]? = some q2)
    (hs1 : q1.m_state = some s1) (hs2 : q2.m_state = some s2)
    (hp1 : q1.GetIsPinned = false) (hp2 : q2.GetIsPinned = false) :
    ∃ ps2 n2 a b, Cloth.satisfyConstraint Real.sqrt dt cc (ps, n) = some (ps2, n2) ∧
      (ps2[i]?).bind Particle.GetPosition = some a ∧
      (ps2[j]?).bind Particle.GetPosition = some b ∧
      a.add b = s1.m_position.add s2.m_position ∧
      (a.add b).scale (1 / 2) = (s1.m_position.add s2.m_position).scale (1 / 2) ∧
      (s2.m_position.sub s1.m_position ≠ Vector3.ZERO →
        ps2[i]? = some (q1.Translate
          (((halfCorrection Real.sqrt cc.restDistance
            (s2.m_position.sub s1.m_position)).scale 1).scale dt)) ∧
        ps2[j]? = some (q2.Translate
          (((halfCorrection Real.sqrt cc.restDistance
            (s2.m_position.sub s1.m_position)).neg.scale 1).scale dt)) ∧
        ((halfCorrection Real.sqrt cc.restDistance
            (s2.m_position.sub s1.m_position)).neg.scale 1).scale dt =
          (((halfCorrection Real.sqrt cc.restDistance
            (s2.m_position.sub s1.m_position)).scale 1).scale dt).neg) ∧
      (s2.m_position.sub s1.m_position = Vector3.ZERO → ps2 = ps) := by
  have hg1 : q1.GetPosition = some s1.m_position := by simp [Particle.GetPosition, hs1]
  have hg2 : q2.GetPosition = some s2.m_position := by simp [Particle.GetPosition, hs2]
  have hi : i < ps.length := (List.getElem?_eq_some_iff.mp hq1).1
  have hj : j < ps.length := (List.getElem?_eq_some_iff.mp hq2).1
  by_cases hd : s2.m_position.sub s1.m_position = Vector3.ZERO
  · have hpos : s2.m_position = s1.m_position := (Vector3.sub_eq_zero_iff _ _).mp hd
    have hd1 : derefParticle ps cc.p1 = some q1 := by rw [h1, derefParticle_natCast]; exact hq1
    have hd2 : derefParticle ps cc.p2 = some q2 := by rw [h2, derefParticle_natCast]; exact hq2
    refine ⟨ps, n, s1.m_position, s2.m_position,
      satisfyConstraint_zero Real.sqrt dt cc (ps, n) q1 q2 s1.m_position hd1 hd2 hg1
        (by rw [hg2, hpos]), ?_, ?_, rfl, rfl, fun hne => absurd hd hne, fun _ => rfl⟩
    · rw [hq1]; exact hg1
    · rw [hq2]; exact hg2
  · obtain ⟨-, heq⟩ := satisfyConstraint_nonzero Real.sqrt dt cc ps n i j q1 q2 s1 s2
      h1 h2 hq1 hq2 hs1 hs2 hd
    simp only [hp1, hp2, if_true, Bool.false_eq_true, if_false] at heq
    have hsum : (s1.m_position.add (((halfCorrection Real.sqrt cc.restDistance
          (s2.m_position.sub s1.m_position)).scale 1).scale dt)).add
        (s2.m_position.add (((halfCorrection Real.sqrt cc.restDistance
          (s2.m_position.sub s1.m_position)).neg.scale 1).scale dt)) =
        s1.m_position.add s2.m_position := by
      simp only [Vector3.add, Vector3.scale, Vector3.neg, Vector3.mk.injEq]
      refine ⟨by ring, by ring, by ring⟩
    have hi2 : (ps.set i (q1.Translate (((halfCorrection Real.sqrt cc.restDistance
          (s2.m_position.sub s1.m_position)).scale 1).scale dt)) |>.set j
        (q2.Translate (((halfCorrection Real.sqrt cc.restDistance
          (s2.m_position.sub s1.m_position)).neg.scale 1).scale dt)))[i]? =
        some (q1.Translate (((halfCorrection Real.sqrt cc.restDistance
          (s2.m_position.sub s1.m_position)).scale 1).scale dt)) := by
      rw [List.getElem?_set_ne (Ne.symm hij), List.getElem?_set_self hi]
    have hj2 : (ps.set i (q1.Translate (((halfCorrection Real.sqrt cc.restDistance
          (s2.m_position.sub s1.m_position)).scale 1).scale dt)) |>.set j
        (q2.Translate (((halfCorrection Real.sqrt cc.restDistance
          (s2.m_position.sub s1.m_position)).neg.scale 1).scale dt)))[j]? =
        some (q2.Translate (((halfCorrection Real.sqrt cc.restDistance
          (s2.m_position.sub s1.m_position)).neg.scale 1).scale dt)) := by
      rw [List.getElem?_set_self (by rw [List.length_set]; exact hj)]
    refine ⟨_, _, _, _, heq, ?_, ?_, hsum, by rw [hsum], fun _ => ⟨hi2, hj2, ?_⟩,
      fun h0 => absurd h0 hd⟩
    · rw [hi2]
      exact Particle.translate_position q1 s1 _ hs1
    · rw [hj2]
      exact Particle.translate_position q2 s2 _ hs2
    · simp only [Vector3.scale, Vector3.neg, Vector3.mk.injEq]
      refine ⟨by ring, by ring, by ring⟩

/-- Witness of `correction_preserves_midpoint`: two free particles at the
origin and at `(3, 0, 0)` joined by a constraint of rest distance 1. -/
theorem correction_preserves_midpoint_witness :
    ∃ ps2 n2 a b, Cloth.satisfyConstraint Real.sqrt (1 / 1000) (sampleStretch ℝ)
        (samplePair ℝ false false, 0) = some (ps2, n2) ∧
      (ps2[0]?).bind Particle.GetPosition = some a ∧
      (ps2[1]?).bind Particle.GetPosition = some b ∧
      a.add b = (⟨0, 0, 0⟩ : Vector3 ℝ).add ⟨3, 0, 0⟩ := by
  obtain ⟨ps2, n2, a, b, h, ha, hb, hsum, -⟩ :=
    correction_preserves_midpoint (1 / 1000) (sampleStretch ℝ) (samplePair ℝ false false) 0 0 1
      (restingParticle ⟨0, 0, 0⟩ false) (restingParticle ⟨3, 0, 0⟩ false)
      ⟨⟨0, 0, 0⟩, Vector3.ZERO, []⟩ ⟨⟨3, 0, 0⟩, Vector3.ZERO, []⟩ rfl rfl (by decide) rfl rfl
      rfl rfl rfl rfl
  exact ⟨ps2, n2, a, b, h, ha, hb, hsum⟩

section AtRest

variable {α : Type} [LinearOrderedField α]

theorem set_getElem_self_eq {β : Type} (l : List β) (i : Nat) (a : β) (h : l[i]? = some a) :
    l.set i a = l := by
  apply List.ext_getElem?
  intro k
  by_cases hik : i = k
  · subst hik
    rw [List.getElem?_set_self (List.getElem?_eq_some_iff.mp h).1, h]
  · rw [List.getElem?_set_ne hik]

theorem Particle.translate_zero (q : Particle α) : q.Translate ⟨0, 0, 0⟩ = q := by
  rcases q with ⟨m, l, t, r, st, pin⟩
  cases st with
  | none => rfl
  | some s =>
    rcases s with ⟨⟨x, y, z⟩, v, f⟩
    simp [Particle.Translate, Vector3.add]

theorem halfCorrection_at_rest (sqrt : α → α) (rest : α) (d : Vector3 α)
    (hne : d.CalculateMagnitude sqrt ≠ 0) (heq : d.CalculateMagnitude sqrt = rest) (m dt : α) :
    ((halfCorrection sqrt rest d).scale m).scale dt = ⟨0, 0, 0⟩ ∧
    ((halfCorrection sqrt rest d).neg.scale m).scale dt = ⟨0, 0, 0⟩ := by
  have h1 : rest / d.CalculateMagnitude sqrt = 1 := by
    rw [← heq]
    exact div_self hne
  simp [halfCorrection, Vector3.scale, Vector3.neg, h1]

/-- One correction step on a constraint whose endpoints are at a non-zero
distance equal to the rest distance changes neither the particles nor
`norm`. -/
theorem satisfyConstraint_at_rest (sqrt : α → α) (dt : α) (cc : ClothConstraint α)
    (ps : List (Particle α)) (n : α) (h : atRest sqrt ps cc) :
    Cloth.satisfyConstraint sqrt dt cc (ps, n) = some (ps, n) := by
  obtain ⟨q1, q2, a, b, hd1, hd2, hg1, hg2, hne, heq⟩ := h
  by_cases hz : b.sub a = Vector3.ZERO
  · have hba : b = a := (Vector3.sub_eq_zero_iff a b).mp hz
    exact satisfyConstraint_zero sqrt dt cc (ps, n) q1 q2 a hd1 hd2 hg1 (by rw [hg2, hba])
  · obtain ⟨i, h1, hq1⟩ := derefParticle_eq_some hd1
    obtain ⟨j, h2, hq2⟩ := derefParticle_eq_some hd2
    obtain ⟨s1, hs1⟩ : ∃ s, q1.m_state = some s := by
      cases hs : q1.m_state with
      | none => simp [Particle.GetPosition, hs] at hg1
      | some s => exact ⟨s, rfl⟩
    obtain ⟨s2, hs2⟩ : ∃ s, q2.m_state = some s := by
      cases hs : q2.m_state with
      | none => simp [Particle.GetPosition, hs] at hg2
      | some s => exact ⟨s, rfl⟩
    have ha : s1.m_position = a := by simpa [Particle.GetPosition, hs1] using hg1
    have hb : s2.m_position = b := by simpa [Particle.GetPosition, hs2] using hg2
    subst ha hb
    obtain ⟨-, hstep⟩ := satisfyConstraint_nonzero sqrt dt cc ps n i j q1 q2 s1 s2 h1 h2 hq1 hq2
      hs1 hs2 hz
    rw [hstep]
    have hset1 : ps.set i q1 = ps := set_getElem_self_eq _ _ _ hq1
    have hset2 : ps.set j q2 = ps := set_getElem_self_eq _ _ _ hq2
    simp only [(halfCorrection_at_rest sqrt cc.restDistance _ hne heq _ dt).1,
      (halfCorrection_at_rest sqrt cc.restDistance _ hne heq _ dt).2, Particle.translate_zero,
      hset1, hset2, ite_self, heq, sub_self, mul_zero, add_zero]

end AtRest

/-- C25: over the reals, on a cloth state in which the endpoints of every
constraint are at a non-zero distance equal to the rest distance of the
constraint, `SatisfyConstraints` returns the state it was given, whatever
the iteration count and the pin flags, and the residual it reports is 0. -/
theorem SatisfyConstraints_identity_at_rest (cl : Cloth ℝ) (dt : ℝ)
    (h : ∀ cc ∈ cl.m_clothConstraints, atRest Real.sqrt cl.m_clothParticles cc) :
    cl.SatisfyConstraints Real.sqrt dt = some (cl, 0) ∧
    (∀ cl2 norm, cl.SatisfyConstraints Real.sqrt dt = some (cl2, norm) →
      cl2.m_clothParticles.map Particle.GetPosition =
        cl.m_clothParticles.map Particle.GetPosition ∧ norm = 0) ∧
    cl.SatisfyConstraintsOutput Real.sqrt dt = some [0] := by
  have hpass : ∀ cs : List (ClothConstraint ℝ),
      (∀ cc ∈ cs, atRest Real.sqrt cl.m_clothParticles cc) →
      Cloth.satisfyPass Real.sqrt dt cs (cl.m_clothParticles, 0) =
        some (cl.m_clothParticles, 0) := by
    intro cs
    induction cs with
    | nil => intro _; rfl
    | cons cc rest ih =>
      intro hcs
      unfold Cloth.satisfyPass at ih ⊢
      rw [List.foldlM_cons,
        satisfyConstraint_at_rest Real.sqrt dt cc _ 0 (hcs cc (List.mem_cons_self _ _))]
      exact ih (fun c hc => hcs c (List.mem_cons_of_mem _ hc))
  have hloop : ∀ k : Nat,
      forLoop (k : Int)
        (fun _ st => Cloth.satisfyPass Real.sqrt dt cl.m_clothConstraints st)
        (cl.m_clothParticles, 0) = some (cl.m_clothParticles, 0) := by
    intro k
    induction k with
    | zero => exact forLoop_zero _ _
    | succ k ih =>
      rw [forLoop_succ, ih]
      exact hpass _ h
  have hsat : cl.SatisfyConstraints Real.sqrt dt = some (cl, 0) := by
    unfold Cloth.SatisfyConstraints
    rw [hloop]
    rfl
  refine ⟨hsat, fun cl2 norm h2 => ?_, ?_⟩
  · rw [hsat] at h2
    simp only [Option.some.injEq, Prod.mk.injEq] at h2
    obtain ⟨rfl, rfl⟩ := h2
    exact ⟨rfl, rfl⟩
  · unfold Cloth.SatisfyConstraintsOutput
    rw [hsat]
    rfl

/-- Witness of `SatisfyConstraints_identity_at_rest`: two free particles 3
apart joined by a constraint of rest distance 3, five solver iterations. -/
theorem SatisfyConstraints_identity_at_rest_witness :
    (restingPairCloth ℝ false false 5).SatisfyConstraints Real.sqrt (1 / 1000) =
      some (restingPairCloth ℝ false false 5, 0) := by
  refine (SatisfyConstraints_identity_at_rest (restingPairCloth ℝ false false 5) (1 / 1000)
    (fun cc hcc => ?_)).1
  have hcc2 : cc = ⟨.STRETCH, some 0, some 1, 3⟩ := by
    simpa [restingPairCloth] using hcc
  subst hcc2
  have hs : ((⟨3, 0, 0⟩ : Vector3 ℝ).sub ⟨0, 0, 0⟩).CalculateMagnitude Real.sqrt = 3 := by
    simp only [Vector3.CalculateMagnitude, Vector3.sub]
    rw [show ((3 : ℝ) - 0) * (3 - 0) + (0 - 0) * (0 - 0) + (0 - 0) * (0 - 0) = 3 * 3 by ring]
    exact Real.sqrt_mul_self (by norm_num)
  refine ⟨restingParticle ⟨0, 0, 0⟩ false, restingParticle ⟨3, 0, 0⟩ false, ⟨0, 0, 0⟩,
    ⟨3, 0, 0⟩, rfl, rfl, rfl, rfl, ?_, ?_⟩
  · rw [hs]
    norm_num
  · exact hs

/-! ## Claim on the numbers of constraints -/

section Counting

open Finset in
theorem sum_range_lt (n m k : Nat) :
    ∑ i in range n, (if i + k < m then 1 else 0) = min n (m - k) := by
  induction n with
  | zero => simp
  | succ n ih =>
    rw [Finset.sum_range_succ, ih]
    split_ifs <;> omega

open Finset in
theorem sum_range_ge (n k : Nat) :
    ∑ i in range n, (if k ≤ i then 1 else 0) = n - k := by
  induction n with
  | zero => simp
  | succ n ih =>
    rw [Finset.sum_range_succ, ih]
    split_ifs <;> omega

theorem countP_flatMap_range {β : Type} (p : β → Bool) (f : Nat → List β) (n : Nat) :
    ((List.range n).flatMap f).countP p = ∑ i in Finset.range n, (f i).countP p := by
  induction n with
  | zero => simp
  | succ n ih =>
    rw [List.range_succ, List.flatMap_append, List.countP_append, ih, Finset.sum_range_succ,
      List.flatMap_singleton]

theorem countP_ite_singleton {β : Type} (p : β → Bool) (c : Prop) [Decidable c] (x : β) :
    (if c then [x] else []).countP p = if c then (if p x then 1 else 0) else 0 := by
  split_ifs <;> simp [*]

theorem cellConstraints_counts {α : Type} (cl : Cloth α) (b sd bd : α) (n m r c : Nat)
    (hR : cl.m_numRows = (n : Int)) (hC : cl.m_numCols = (m : Int)) :
    countType .STRETCH (cl.cellConstraints b sd bd (r : Int) (c : Int)) =
      (if r + 1 < n then 1 else 0) + (if 1 ≤ r then 1 else 0) +
        (if c + 1 < m then 1 else 0) + (if 1 ≤ c then 1 else 0) ∧
    countType .SHEAR (cl.cellConstraints b sd bd (r : Int) (c : Int)) =
      (if r + 1 < n ∧ c + 1 < m then 1 else 0) + (if 1 ≤ r ∧ c + 1 < m then 1 else 0) +
        (if r + 1 < n ∧ 1 ≤ c then 1 else 0) + (if 1 ≤ r ∧ 1 ≤ c then 1 else 0) ∧
    countType .BEND (cl.cellConstraints b sd bd (r : Int) (c : Int)) =
      (if r + 2 < n then 1 else 0) + (if 2 ≤ r then 1 else 0) +
        (if c + 2 < m then 1 else 0) + (if 2 ≤ c then 1 else 0) := by
  have e1 : ((r : Int) + 1 < cl.m_numRows) ↔ r + 1 < n := by rw [hR]; omega
  have e2 : ((r : Int) - 1 ≥ 0) ↔ 1 ≤ r := by omega
  have e3 : ((c : Int) + 1 < cl.m_numCols) ↔ c + 1 < m := by rw [hC]; omega
  have e4 : ((c : Int) - 1 ≥ 0) ↔ 1 ≤ c := by omega
  have e5 : ((r : Int) + 2 < cl.m_numRows) ↔ r + 2 < n := by rw [hR]; omega
  have e6 : ((r : Int) - 2 ≥ 0) ↔ 2 ≤ r := by omega
  have e7 : ((c : Int) + 2 < cl.m_numCols) ↔ c + 2 < m := by rw [hC]; omega
  have e8 : ((c : Int) - 2 ≥ 0) ↔ 2 ≤ c := by omega
  simp only [Cloth.cellConstraints, countType, List.countP_append, countP_ite_singleton,
    e1, e2, e3, e4, e5, e6, e7, e8]
  simp

theorem sum_range_lt_self (m k : Nat) :
    ∑ i in Finset.range m, (if i + k < m then 1 else 0) = m - k := by
  rw [sum_range_lt]
  omega

theorem sum_range_ite_const (n : Nat) (P : Nat → Prop) [DecidablePred P] (K : Nat) :
    ∑ i in Finset.range n, (if P i then K else 0) =
      K * ∑ i in Finset.range n, (if P i then 1 else 0) := by
  rw [Finset.mul_sum]
  apply Finset.sum_congr rfl
  intro i _
  split_ifs <;> simp

theorem sum_ite_outer (s : Finset Nat) (P : Prop) [Decidable P] (g : Nat → Nat) :
    ∑ c in s, (if P then g c else 0) = if P then ∑ c in s, g c else 0 := by
  split_ifs <;> simp

theorem newConstraints_sum {α : Type} [Mul α] (cl : Cloth α) (b s k : α) (n m : Nat)
    (hR : cl.m_numRows = (n : Int)) (hC : cl.m_numCols = (m : Int)) (t : ConstraintType) :
    countType t (cl.newConstraints b s k) =
      ∑ r in Finset.range n, ∑ c in Finset.range m,
        countType t (cl.cellConstraints b (b * s) (b * k) (r : Int) (c : Int)) := by
  unfold countType Cloth.newConstraints
  simp only [hR, hC, Int.toNat_natCast, countP_flatMap_range]

/-- The numbers of constraints that `AddConstraints` allocates on a grid of
`n` rows and `m` columns, by type. -/
theorem newConstraints_counts {α : Type} [Mul α] (cl : Cloth α) (b s k : α) (n m : Nat)
    (hR : cl.m_numRows = (n : Int)) (hC : cl.m_numCols = (m : Int)) :
    countType .STRETCH (cl.newConstraints b s k) = 2 * ((n - 1) * m + n * (m - 1)) ∧
    countType .SHEAR (cl.newConstraints b s k) = 4 * ((n - 1) * (m - 1)) ∧
    countType .BEND (cl.newConstraints b s k) = 2 * ((n - 2) * m + n * (m - 2)) := by
  refine ⟨?_, ?_, ?_⟩
  · rw [newConstraints_sum cl b s k n m hR hC,
      Finset.sum_congr rfl (fun r _ => Finset.sum_congr rfl (fun c _ =>
        (cellConstraints_counts cl b (b * s) (b * k) n m r c hR hC).1))]
    simp only [Finset.sum_add_distrib, Finset.sum_const, Finset.card_range, smul_eq_mul,
      sum_range_lt_self, sum_range_ge, ← Finset.mul_sum]
    ring
  · rw [newConstraints_sum cl b s k n m hR hC,
      Finset.sum_congr rfl (fun r _ => Finset.sum_congr rfl (fun c _ =>
        (cellConstraints_counts cl b (b * s) (b * k) n m r c hR hC).2.1))]
    simp only [ite_and, Finset.sum_add_distrib, sum_ite_outer, sum_range_lt_self, sum_range_ge]
    rw [sum_range_ite_const n (fun r => r + 1 < n), sum_range_ite_const n (fun r => 1 ≤ r),
      sum_range_lt_self, sum_range_ge]
    ring
  · rw [newConstraints_sum cl b s k n m hR hC,
      Finset.sum_congr rfl (fun r _ => Finset.sum_congr rfl (fun c _ =>
        (cellConstraints_counts cl b (b * s) (b * k) n m r c hR hC).2.2))]
    simp only [Finset.sum_add_distrib, Finset.sum_const, Finset.card_range, smul_eq_mul,
      sum_range_lt_self, sum_range_ge, ← Finset.mul_sum]
    ring

theorem length_eq_countType {α : Type} (cs : List (ClothConstraint α)) :
    cs.length = countType .STRETCH cs + countType .SHEAR cs + countType .BEND cs := by
  induction cs with
  | nil => rfl
  | cons cc rest ih =>
    unfold countType at ih ⊢
    rw [List.length_cons, List.countP_cons, List.countP_cons, List.countP_cons, ih]
    cases ht : cc.type <;> simp <;> omega

end Counting

/-- C23: for `R ≥ 1` rows and `C ≥ 1` columns and an allocator that gives
distinct addresses to distinct constraints, the list that `AddConstraints`
builds from an empty one has `2 * ((R-1) * C + R * (C-1))` `STRETCH` entries,
`4 * (R-1) * (C-1)` `SHEAR` entries and `2 * (max(R-2, 0) * C + R * max(C-2, 0))`
`BEND` entries, and no others; for `R ≤ C`, where the constructor returns, this
is the constraint list of the constructed cloth. -/
theorem AddConstraints_counts {α : Type} [Field α] (addr : Nat → Nat)
    (hinj : Function.Injective addr) (o : Vector3 α) (ty : ParticleType) (m rad : α)
    (R C : Int) (it : Nat) (b s k : α) (v : Vector3 α) (hR : 1 ≤ R) (hC : 1 ≤ C) :
    (∀ cl : Cloth α, cl.m_numRows = R → cl.m_numCols = C → cl.m_clothConstraints = [] →
      gridConstraintCounts (cl.AddConstraints addr b s k).m_clothConstraints R C) ∧
    (R ≤ C → ∃ cl, Cloth.new addr o ty m rad R C it b s k v = some cl ∧
      gridConstraintCounts cl.m_clothConstraints R C) := by
  have hA : ∀ cl : Cloth α, cl.m_numRows = R → cl.m_numCols = C → cl.m_clothConstraints = [] →
      gridConstraintCounts (cl.AddConstraints addr b s k).m_clothConstraints R C := by
    intro cl hRn hCn hnil
    obtain ⟨n, rfl⟩ : ∃ n : Nat, R = (n : Int) := ⟨R.toNat, (Int.toNat_of_nonneg (by omega)).symm⟩
    obtain ⟨c, rfl⟩ : ∃ c : Nat, C = (c : Int) := ⟨C.toNat, (Int.toNat_of_nonneg (by omega)).symm⟩
    have hperm := AddConstraints_perm cl addr hinj b s k
    rw [hnil, List.nil_append] at hperm
    obtain ⟨h1, h2, h3⟩ := newConstraints_counts cl b s k n c hRn hCn
    have hc : ∀ t, countType t (cl.AddConstraints addr b s k).m_clothConstraints =
        countType t (cl.newConstraints b s k) := fun t => hperm.countP_eq _
    have hn1 : ((n - 1 : Nat) : Int) = (n : Int) - 1 := by omega
    have hc1 : ((c - 1 : Nat) : Int) = (c : Int) - 1 := by omega
    have hn2 : ((n - 2 : Nat) : Int) = max ((n : Int) - 2) 0 := by omega
    have hc2 : ((c - 2 : Nat) : Int) = max ((c : Int) - 2) 0 := by omega
    have e1 : ((countType .STRETCH (cl.AddConstraints addr b s k).m_clothConstraints : Nat) : Int)
        = 2 * (((n : Int) - 1) * c + n * ((c : Int) - 1)) := by
      rw [hc, h1]
      push_cast
      rw [hn1, hc1]
    have e2 : ((countType .SHEAR (cl.AddConstraints addr b s k).m_clothConstraints : Nat) : Int)
        = 4 * ((n : Int) - 1) * ((c : Int) - 1) := by
      rw [hc, h2]
      push_cast
      rw [hn1, hc1]
      ring
    have e3 : ((countType .BEND (cl.AddConstraints addr b s k).m_clothConstraints : Nat) : Int)
        = 2 * (max ((n : Int) - 2) 0 * c + n * max ((c : Int) - 2) 0) := by
      rw [hc, h3]
      push_cast
      rw [hn2, hc2]
    refine ⟨e1, e2, e3, ?_⟩
    rw [length_eq_countType]
    push_cast
    rw [e1, e2, e3]
  refine ⟨hA, fun hRC => ?_⟩
  obtain ⟨cl1, cl, -, hframe, hnew, -, -, hcs, -, -⟩ :=
    new_total addr o ty m rad R C it b s k v hR hRC
  obtain ⟨hR1, hC1, hcs1, -, -, -, -⟩ := hframe
  refine ⟨cl, hnew, ?_⟩
  rw [hcs]
  exact hA cl1 hR1 hC1 hcs1

/-- Witness of `AddConstraints_counts`: the 3 x 3 sample cloth has
24 + 16 + 12 = 52 constraints. -/
theorem AddConstraints_counts_witness :
    ∃ cl, sampleCloth 3 3 = some cl ∧
      countType .STRETCH cl.m_clothConstraints = 24 ∧
      countType .SHEAR cl.m_clothConstraints = 16 ∧
      countType .BEND cl.m_clothConstraints = 12 ∧
      cl.m_clothConstraints.length = 52 := by
  obtain ⟨cl, hcl, h1, h2, h3, h4⟩ :=
    (AddConstraints_counts id Function.injective_id (⟨0, 0, 0⟩ : Vector3 ℚ) .PARTICLE_SPHERE 1 1
      3 3 2 1 (3 / 2) 2 ⟨0, 0, 0⟩ (by decide) (by decide)).2 (by decide)
  refine ⟨cl, hcl, ?_, ?_, ?_, ?_⟩
  · have : ((countType .STRETCH cl.m_clothConstraints : Nat) : Int) = 24 := by
      rw [h1]; norm_num
    exact_mod_cast this
  · have : ((countType .SHEAR cl.m_clothConstraints : Nat) : Int) = 16 := by
      rw [h2]; norm_num
    exact_mod_cast this
  · have : ((countType .BEND cl.m_clothConstraints : Nat) : Int) = 12 := by
      rw [h3]; norm_num
    exact_mod_cast this
  · have : ((cl.m_clothConstraints.length : Nat) : Int) = 52 := by
      rw [h4]; norm_num
    exact_mod_cast this

/-! ## Claim on the distances after construction -/

section SquareLayout

variable {α : Type} [Field α]

/-- The layout of a constructed square cloth of side `N ≥ 1`: the particle of
cell `(r, c)` is at position `r * N + c` of the grid and at the point
`O + (c * b, 0, -(r * b))`, and every constraint joins the particles of two
related in-range cells. -/
theorem new_square_layout (addr : Nat → Nat) (o : Vector3 α) (ty : ParticleType)
    (m rad : α) (N : Int) (it : Nat) (b s k : α) (v : Vector3 α) (hN : 1 ≤ N) :
    ∃ cl, Cloth.new addr o ty m rad N N it b s k v = some cl ∧
      (∀ r c : Int, 0 ≤ r → r < N → 0 ≤ c → c < N →
        ∃ q st, derefParticle cl.m_clothParticles (some (r * N + c)) = some q ∧
          q.m_state = some st ∧
          st.m_position = o.add ⟨(c : α) * b, 0, -((r : α) * b)⟩) ∧
      (∀ cc ∈ cl.m_clothConstraints,
        ∃ (r1 c1 r2 c2 : Int) (t : ConstraintType),
          (0 ≤ r1 ∧ r1 < N) ∧ (0 ≤ c1 ∧ c1 < N) ∧ (0 ≤ r2 ∧ r2 < N) ∧ (0 ≤ c2 ∧ c2 < N) ∧
          cellsRelated t r1 c1 r2 c2 ∧
          cc = ⟨t, some (r1 * N + c1), some (r2 * N + c2), restDistanceOf b s k t⟩) := by
  obtain ⟨cl1, cl, h1, hframe, hnew, hRn, hCn, hcs, hlen, hps⟩ :=
    new_total addr o ty m rad N N it b s k v hN le_rfl
  refine ⟨cl, hnew, ?_, ?_⟩
  · obtain ⟨n, rfl⟩ : ∃ n : Nat, N = (n : Int) :=
      ⟨N.toNat, (Int.toNat_of_nonneg (by omega)).symm⟩
    have hlenA :
        (Cloth.allocate o ty m rad (n : Int) (n : Int) it b s k).m_clothParticles.length
          = n * n := by
      show (List.replicate ((n : Int) * (n : Int)).toNat _).length = n * n
      rw [List.length_replicate, ← Nat.cast_mul, Int.toNat_natCast]
    obtain ⟨cl1b, h1b, -, -, hsq⟩ :=
      AssignParticleStates_square (Cloth.allocate o ty m rad (n : Int) (n : Int) it b s k) b
        o.y v n rfl rfl hlenA
    have hcl : cl1b = cl1 := by
      rw [h1] at h1b
      exact (Option.some.inj h1b).symm
    subst hcl
    intro r c hr0 hr hc0 hc
    obtain ⟨rn, rfl⟩ : ∃ j : Nat, r = (j : Int) := ⟨r.toNat, (Int.toNat_of_nonneg hr0).symm⟩
    obtain ⟨cn, rfl⟩ : ∃ j : Nat, c = (j : Int) := ⟨c.toNat, (Int.toNat_of_nonneg hc0).symm⟩
    have hrn : rn < n := by omega
    have hcn : cn < n := by omega
    have hlt : rn * n + cn < n * n := by
      have h2 : (rn + 1) * n ≤ n * n := Nat.mul_le_mul_right n hrn
      rw [Nat.add_mul, Nat.one_mul] at h2
      omega
    have hidx : ((rn : Int) * (n : Int) + (cn : Int)) = ((rn * n + cn : Nat) : Int) := by
      push_cast
      rfl
    have hdiv : (rn * n + cn) / n = rn := by
      rw [Nat.add_comm, Nat.add_mul_div_right _ _ (by omega), Nat.div_eq_of_lt hcn,
        Nat.zero_add]
    have hmod : (rn * n + cn) % n = cn := by
      rw [Nat.add_comm, Nat.add_mul_mod_self_right, Nat.mod_eq_of_lt hcn]
    have hA :
        (Cloth.allocate o ty m rad (n : Int) (n : Int) it b s k).m_clothParticles[rn * n + cn]?
          = some (Particle.new ty m 1 rad) := by
      simp only [Cloth.allocate, List.getElem?_replicate]
      rw [if_pos (by rw [← Nat.cast_mul, Int.toNat_natCast]; exact hlt)]
    have h1p := hsq _ _ hA
    rw [if_pos hlt, hdiv, hmod] at h1p
    have hclp := hps _ _ h1p
    have hst := assignedParticle_state b v
      (Cloth.allocate o ty m rad (n : Int) (n : Int) it b s k).m_currentTopLeftPosition
      ((Cloth.allocate o ty m rad (n : Int) (n : Int) it b s
        k).m_particleTemplate.SetParticleState
          ⟨Vector3.ZERO, Vector3.ZERO, []⟩ |>.AddForce (GravityForce (981 / 100) ⟨0, 0, -1⟩))
      (rn : Int) (cn : Int) (Particle.new ty m 1 rad)
    have hq : ∃ q, cl.m_clothParticles[rn * n + cn]? = some q ∧
        q.m_state = (assignedParticle b v
          (Cloth.allocate o ty m rad (n : Int) (n : Int) it b s k).m_currentTopLeftPosition
          ((Cloth.allocate o ty m rad (n : Int) (n : Int) it b s
            k).m_particleTemplate.SetParticleState
              ⟨Vector3.ZERO, Vector3.ZERO, []⟩ |>.AddForce
                (GravityForce (981 / 100) ⟨0, 0, -1⟩))
          (rn : Int) (cn : Int) (Particle.new ty m 1 rad)).m_state := by
      refine ⟨_, hclp, ?_⟩
      split_ifs <;> rfl
    obtain ⟨q, hq1, hq2⟩ := hq
    rw [hst] at hq2
    refine ⟨q, _, ?_, hq2, ?_⟩
    · rw [hidx, derefParticle_natCast]
      exact hq1
    · simp only [Vector3.add, Cloth.allocate, Vector3.mk.injEq]
      refine ⟨by ring, by ring, by ring⟩
  · obtain ⟨hR1, hC1, hcs1, -, -, -, -⟩ := hframe
    have hR1b : cl1.m_numRows = N := hR1
    have hC1b : cl1.m_numCols = N := hC1
    have hcs1b : cl1.m_clothConstraints = [] := hcs1
    intro cc hcc
    rw [hcs] at hcc
    rcases AddConstraints_subset cl1 addr b s k cc hcc with h2 | h2
    · rw [hcs1b] at h2
      cases h2
    · obtain ⟨r1, c1, r2, c2, t, hr1, hc1, hr2, hc2, hrel, rfl⟩ :=
        (mem_newConstraints_iff cl1 b s k cc).mp h2
      rw [hR1b] at hr1 hr2
      rw [hC1b] at hc1 hc2
      refine ⟨r1, c1, r2, c2, t, hr1, hc1, hr2, hc2, hrel, ?_⟩
      rw [GetParticle_eq cl1 r1 c1 (by omega) (by omega),
        GetParticle_eq cl1 r2 c2 (by omega) (by omega), hR1b]

end SquareLayout

theorem cellsRelated_sq (t : ConstraintType) (r1 c1 r2 c2 : Int)
    (h : cellsRelated t r1 c1 r2 c2) :
    (c2 - c1) * (c2 - c1) + (r2 - r1) * (r2 - r1) =
      match t with
      | .STRETCH => 1
      | .SHEAR => 2
      | .BEND => 4 := by
  cases t with
  | STRETCH =>
    rcases h with ⟨rfl | rfl, rfl⟩ | ⟨rfl, rfl | rfl⟩ <;> ring
  | SHEAR =>
    rcases h with ⟨rfl | rfl, rfl | rfl⟩ <;> ring
  | BEND =>
    rcases h with ⟨rfl | rfl, rfl⟩ | ⟨rfl, rfl | rfl⟩ <;> ring

/-- The distance between the start positions of two cells of the grid, over
the reals. -/
theorem grid_distance (o : Vector3 ℝ) (b : ℝ) (hb : 0 ≤ b) (r1 c1 r2 c2 : Int) :
    ((o.add ⟨(c2 : ℝ) * b, 0, -((r2 : ℝ) * b)⟩).sub
        (o.add ⟨(c1 : ℝ) * b, 0, -((r1 : ℝ) * b)⟩)).CalculateMagnitude Real.sqrt =
      Real.sqrt (((c2 - c1) * (c2 - c1) + (r2 - r1) * (r2 - r1) : Int) : ℝ) * b := by
  simp only [Vector3.CalculateMagnitude, Vector3.sub, Vector3.add]
  have h : (o.x + (c2 : ℝ) * b - (o.x + (c1 : ℝ) * b)) * (o.x + (c2 : ℝ) * b - (o.x + (c1 : ℝ) * b))
      + (o.y + 0 - (o.y + 0)) * (o.y + 0 - (o.y + 0))
      + (o.z + -((r2 : ℝ) * b) - (o.z + -((r1 : ℝ) * b))) *
        (o.z + -((r2 : ℝ) * b) - (o.z + -((r1 : ℝ) * b))) =
      (((c2 - c1) * (c2 - c1) + (r2 - r1) * (r2 - r1) : Int) : ℝ) * (b * b) := by
    push_cast
    ring
  rw [h, Real.sqrt_mul (by exact_mod_cast add_nonneg (mul_self_nonneg _) (mul_self_nonneg _)),
    Real.sqrt_mul_self hb]

/-- C26: over the reals, in a square cloth constructed with base distance
`b > 0`, whatever the shear and bend factors, the two endpoints of every
`STRETCH` constraint are `b` apart, which is its rest distance, those of every
`SHEAR` constraint are `b * sqrt 2` apart and those of every `BEND` constraint
are `2 * b` apart. -/
theorem constructed_distances_square (addr : Nat → Nat) (o : Vector3 ℝ) (ty : ParticleType)
    (m rad : ℝ) (N : Int) (it : Nat) (b s k : ℝ) (v : Vector3 ℝ) (hN : 1 ≤ N) (hb : 0 < b) :
    ∃ cl, Cloth.new addr o ty m rad N N it b s k v = some cl ∧
      ∀ cc ∈ cl.m_clothConstraints,
        ∃ q1 q2 a c, derefParticle cl.m_clothParticles cc.p1 = some q1 ∧
          derefParticle cl.m_clothParticles cc.p2 = some q2 ∧
          q1.GetPosition = some a ∧ q2.GetPosition = some c ∧
          (cc.type = .STRETCH → (c.sub a).CalculateMagnitude Real.sqrt = b ∧
            (c.sub a).CalculateMagnitude Real.sqrt = cc.restDistance) ∧
          (cc.type = .SHEAR → (c.sub a).CalculateMagnitude Real.sqrt = b * Real.sqrt 2) ∧
          (cc.type = .BEND → (c.sub a).CalculateMagnitude Real.sqrt = 2 * b) := by
  obtain ⟨cl, hnew, hpos, hcs⟩ := new_square_layout addr o ty m rad N it b s k v hN
  refine ⟨cl, hnew, fun cc hcc => ?_⟩
  obtain ⟨r1, c1, r2, c2, t, hr1, hc1, hr2, hc2, hrel, rfl⟩ := hcs cc hcc
  obtain ⟨q1, st1, hq1, hs1, hp1⟩ := hpos r1 c1 hr1.1 hr1.2 hc1.1 hc1.2
  obtain ⟨q2, st2, hq2, hs2, hp2⟩ := hpos r2 c2 hr2.1 hr2.2 hc2.1 hc2.2
  have hdist := grid_distance o b hb.le r1 c1 r2 c2
  rw [cellsRelated_sq t r1 c1 r2 c2 hrel] at hdist
  refine ⟨q1, q2, st1.m_position, st2.m_position, hq1, hq2, ?_, ?_, ?_, ?_, ?_⟩
  · simp [Particle.GetPosition, hs1]
  · simp [Particle.GetPosition, hs2]
  · intro ht
    have ht2 : t = .STRETCH := ht
    subst ht2
    rw [hp1, hp2, hdist]
    simp [restDistanceOf]
  · intro ht
    have ht2 : t = .SHEAR := ht
    subst ht2
    rw [hp1, hp2, hdist]
    simp [mul_comm]
  · intro ht
    have ht2 : t = .BEND := ht
    subst ht2
    rw [hp1, hp2, hdist]
    have h4 : Real.sqrt ((4 : Int) : ℝ) = 2 := by
      rw [show ((4 : Int) : ℝ) = 2 * 2 by norm_num]
      exact Real.sqrt_mul_self (by norm_num)
    exact_mod_cast congrArg (· * b) h4

/-- Witness of `constructed_distances_square`: the 2 x 2 cloth over the
reals with base distance 1, shear factor 3/2 and bend factor 2. -/
theorem constructed_distances_square_witness :
    ∃ cl, Cloth.new id (⟨0, 0, 0⟩ : Vector3 ℝ) .PARTICLE_SPHERE 1 1 2 2 2 1 (3 / 2) 2
        ⟨0, 0, 0⟩ = some cl ∧
      ∀ cc ∈ cl.m_clothConstraints,
        ∃ q1 q2 a c, derefParticle cl.m_clothParticles cc.p1 = some q1 ∧
          derefParticle cl.m_clothParticles cc.p2 = some q2 ∧
          q1.GetPosition = some a ∧ q2.GetPosition = some c ∧
          (cc.type = .STRETCH → (c.sub a).CalculateMagnitude Real.sqrt = 1 ∧
            (c.sub a).CalculateMagnitude Real.sqrt = cc.restDistance) ∧
          (cc.type = .SHEAR → (c.sub a).CalculateMagnitude Real.sqrt = 1 * Real.sqrt 2) ∧
          (cc.type = .BEND → (c.sub a).CalculateMagnitude Real.sqrt = 2 * 1) :=
  constructed_distances_square id ⟨0, 0, 0⟩ .PARTICLE_SPHERE 1 1 2 2 1 (3 / 2) 2 ⟨0, 0, 0⟩
    (by decide) (by norm_num)

/-! ## Claim on the texture coordinates of `Render` -/

section RenderUV

variable {α : Type} [LinearOrderedField α]

/-- A block of `Render` that is not skipped emits one quad, whose four
vertices carry the texture coordinates of the four cells of the block. -/
theorem renderBlock_texCoords (cl : Cloth α) (r c : Int)
    (st st2 : RenderLocals α × List (QuadCall α)) (h : cl.renderBlock r c st = some st2) :
    st2.2 = st.2 ∨
    ∃ q, st2.2 = st.2 ++ [q] ∧ q.r = r ∧ q.c = c ∧
      q.topLeft.texCoords = cellUV cl r c ∧ q.topRight.texCoords = cellUV cl r (c + 1) ∧
      q.bottomLeft.texCoords = cellUV cl (r + 1) c ∧
      q.bottomRight.texCoords = cellUV cl (r + 1) (c + 1) := by
  unfold Cloth.renderBlock at h
  split at h
  · cases h
  · split_ifs at h with hskip
    · left
      cases h
      rfl
    · right
      split at h
      · split at h
        · cases h
          refine ⟨_, rfl, rfl, rfl, ?_, ?_, ?_, ?_⟩ <;>
            simp [cellUV, Vector2.add, Vector2.sub, Vector2.scale, Vector2.UNIT_X,
              Vector2.UNIT_Y]
        · cases h
      · cases h

/-- Every quad that the `showCloth` part of `Render` emits belongs to a block
`(r, c)` with `r + 1 < numRows` and `c + 1 < numCols`, and its vertices carry
the texture coordinates of the cells `(r + 1, c)`, `(r + 1, c + 1)`,
`(r, c + 1)` and `(r, c)`. -/
theorem renderQuads_texCoords (cl : Cloth α) (quads : List (QuadCall α))
    (h : cl.renderQuads = some quads) :
    ∀ q ∈ quads, (0 ≤ q.r ∧ q.r + 1 < cl.m_numRows) ∧ (0 ≤ q.c ∧ q.c + 1 < cl.m_numCols) ∧
      q.topLeft.texCoords = cellUV cl q.r q.c ∧
      q.topRight.texCoords = cellUV cl q.r (q.c + 1) ∧
      q.bottomLeft.texCoords = cellUV cl (q.r + 1) q.c ∧
      q.bottomRight.texCoords = cellUV cl (q.r + 1) (q.c + 1) := by
  unfold Cloth.renderQuads at h
  simp only [Option.map_eq_some'] at h
  obtain ⟨st, hst, rfl⟩ := h
  refine forLoop_preserves _ _
    (fun st : RenderLocals α × List (QuadCall α) => ∀ q ∈ st.2,
      (0 ≤ q.r ∧ q.r + 1 < cl.m_numRows) ∧ (0 ≤ q.c ∧ q.c + 1 < cl.m_numCols) ∧
      q.topLeft.texCoords = cellUV cl q.r q.c ∧
      q.topRight.texCoords = cellUV cl q.r (q.c + 1) ∧
      q.bottomLeft.texCoords = cellUV cl (q.r + 1) q.c ∧
      q.bottomRight.texCoords = cellUV cl (q.r + 1) (q.c + 1)) ?_ _ st hst ?_
  · intro r s1 s2 hr0 hr hb hs1
    refine forLoop_preserves _ _
      (fun st : RenderLocals α × List (QuadCall α) => ∀ q ∈ st.2,
        (0 ≤ q.r ∧ q.r + 1 < cl.m_numRows) ∧ (0 ≤ q.c ∧ q.c + 1 < cl.m_numCols) ∧
        q.topLeft.texCoords = cellUV cl q.r q.c ∧
        q.topRight.texCoords = cellUV cl q.r (q.c + 1) ∧
        q.bottomLeft.texCoords = cellUV cl (q.r + 1) q.c ∧
        q.bottomRight.texCoords = cellUV cl (q.r + 1) (q.c + 1)) ?_ _ s2 hb hs1
    intro c s3 s4 hc0 hc hb2 hs3 q hq
    rcases renderBlock_texCoords cl r c s3 s4 hb2 with h1 | ⟨q2, h1, hqr, hqc, h2, h3, h4, h5⟩
    · rw [h1] at hq
      exact hs3 q hq
    · rw [h1] at hq
      rcases List.mem_append.mp hq with h6 | h6
      · exact hs3 q h6
      · rw [List.mem_singleton] at h6
        subst h6
        rw [hqr, hqc]
        exact ⟨⟨hr0, by omega⟩, ⟨hc0, by omega⟩, h2, h3, h4, h5⟩
  · intro q hq
    cases hq

end RenderUV

/-- On a square grid the index of `GetParticle` tells the in-range cells
apart. -/
theorem index_injective_square (N r1 c1 r2 c2 : Int) (hc1 : 0 ≤ c1 ∧ c1 < N)
    (hc2 : 0 ≤ c2 ∧ c2 < N) (h : r1 * N + c1 = r2 * N + c2) : r1 = r2 ∧ c1 = c2 := by
  have hr : r1 = r2 := by
    by_contra hne
    rcases lt_or_gt_of_ne hne with hlt | hgt
    · have : (r2 - r1 - 1) * N ≥ 0 := mul_nonneg (by omega) (by omega)
      nlinarith
    · have : (r1 - r2 - 1) * N ≥ 0 := mul_nonneg (by omega) (by omega)
      nlinarith
  subst hr
  exact ⟨rfl, by omega⟩

/-- With at least two rows and two columns the divisors `numRows - 1` and
`numCols - 1` are not zero, and the texture coordinate of every in-range cell
has both components between 0 and 1. -/
theorem cellUV_range {α : Type} [LinearOrderedField α] (cl : Cloth α) (hR : 2 ≤ cl.m_numRows)
    (hC : 2 ≤ cl.m_numCols) (row col : Int) (hrow : 0 ≤ row ∧ row < cl.m_numRows)
    (hcol : 0 ≤ col ∧ col < cl.m_numCols) :
    ((cl.m_numRows - 1 : Int) : α) ≠ 0 ∧ ((cl.m_numCols - 1 : Int) : α) ≠ 0 ∧
    (0 ≤ (cellUV cl row col).x ∧ (cellUV cl row col).x ≤ 1) ∧
    (0 ≤ (cellUV cl row col).y ∧ (cellUV cl row col).y ≤ 1) := by
  have hRpos : (0 : α) < ((cl.m_numRows - 1 : Int) : α) := by
    exact_mod_cast (by omega : (0 : Int) < cl.m_numRows - 1)
  have hCpos : (0 : α) < ((cl.m_numCols - 1 : Int) : α) := by
    exact_mod_cast (by omega : (0 : Int) < cl.m_numCols - 1)
  have hrow0 : (0 : α) ≤ (row : α) := by exact_mod_cast hrow.1
  have hcol0 : (0 : α) ≤ (col : α) := by exact_mod_cast hcol.1
  have hrow1 : (row : α) ≤ ((cl.m_numRows - 1 : Int) : α) := by
    exact_mod_cast (by omega : row ≤ cl.m_numRows - 1)
  have hcol1 : (col : α) ≤ ((cl.m_numCols - 1 : Int) : α) := by
    exact_mod_cast (by omega : col ≤ cl.m_numCols - 1)
  refine ⟨hRpos.ne', hCpos.ne', ⟨?_, ?_⟩, ⟨?_, ?_⟩⟩
  · show 0 ≤ 1 - (col : α) / _
    have := (div_le_one hCpos).mpr hcol1
    linarith
  · show 1 - (col : α) / _ ≤ 1
    have := div_nonneg hcol0 hCpos.le
    linarith
  · exact div_nonneg hrow0 hRpos.le
  · exact (div_le_one hRpos).mpr hrow1

/-- C22, at the failing input: in the 2 x 3 sample cloth the cells `(1, 0)`
and `(0, 2)` are given the same particle, at position 2 of the grid;
`Render( true )` emits it as the bottom-left vertex of the quad of block
`(0, 0)` with texture coordinate `(1, 1)` and as the top-right vertex of the
quad of block `(0, 1)` with texture coordinate `(0, 0)`. -/
theorem Render_aliased_particle_two_uvs :
    sampleWide.m_numRows = 2 ∧ sampleWide.m_numCols = 3 ∧
    sampleWide.GetParticle 1 0 = some 2 ∧ sampleWide.GetParticle 0 2 = some 2 ∧
    ∃ q0 q1 p, (sampleWide.Render true false false).map (fun out => out.quads) = some [q0, q1] ∧
      (q0.r, q0.c) = (0, 0) ∧ (q1.r, q1.c) = (0, 1) ∧
      sampleWide.m_clothParticles[2]? = some p ∧
      some q0.bottomLeft.pos = p.GetPosition ∧ some q1.topRight.pos = p.GetPosition ∧
      q0.bottomLeft.texCoords = ⟨1, 1⟩ ∧ q1.topRight.texCoords = ⟨0, 0⟩ ∧
      q0.bottomLeft.texCoords ≠ q1.topRight.texCoords := by
  refine ⟨by decide, by decide, by decide, by decide, _, _, _, by rfl, by decide, by decide,
    by rfl, by decide!, by decide!, by decide!, by decide!, by decide!⟩

/-! ## Claim on the top-left position in the reachable states -/

section LoopIterations

variable {σ : Type}

/-- In a counted loop that returns, every iteration was run, from a state that
satisfies every property the body keeps, and returned. -/
theorem forLoop_iterations (n : Int) (body : Int → σ → Option σ) (P : σ → Prop)
    (hstep : ∀ i st st2, 0 ≤ i → i < n → body i st = some st2 → P st → P st2)
    (s st : σ) (h : forLoop n body s = some st) (h0 : P s) :
    ∀ i : Int, 0 ≤ i → i < n → ∃ a a2, P a ∧ body i a = some a2 := by
  rw [forLoop_toNat] at h
  have key : ∀ k : Nat, k ≤ n.toNat → ∀ st, forLoop (k : Int) body s = some st →
      ∀ i : Nat, i < k → ∃ a a2, P a ∧ body (i : Int) a = some a2 := by
    intro k
    induction k with
    | zero =>
      intro _ st _ i hi
      omega
    | succ k ih =>
      intro hk st hst i hi
      rw [forLoop_succ] at hst
      cases hm : forLoop (k : Int) body s with
      | none => rw [hm] at hst; simp at hst
      | some mid =>
        rw [hm] at hst
        simp only [Option.some_bind] at hst
        by_cases hik : i = k
        · subst hik
          refine ⟨mid, st, ?_, hst⟩
          exact forLoop_preserves (i : Int) body P
            (fun j a a2 hj0 hj hb hP => hstep j a a2 hj0 (by omega) hb hP) s mid hm h0
        · exact ih (Nat.le_of_succ_le hk) mid hm i (by omega)
  intro i hi0 hi
  have := key n.toNat le_rfl st h i.toNat (by omega)
  rwa [Int.toNat_of_nonneg hi0] at this

end LoopIterations

section ConstructionDefined

variable {α : Type} [Field α]

theorem assignCell_shape (b : α) (v : Vector3 α) (r c : Int) (st st2 : Cloth α)
    (h : Cloth.assignCell b v r c st = some st2) :
    st2.m_numRows = st.m_numRows ∧ st2.m_numCols = st.m_numCols ∧
    st2.m_clothParticles.length = st.m_clothParticles.length ∧
    st2.m_currentTopLeftPosition = st.m_currentTopLeftPosition ∧
    st2.m_originalTopLeftPosition = st.m_originalTopLeftPosition := by
  unfold Cloth.assignCell at h
  simp only [Option.map_eq_some'] at h
  obtain ⟨ps, hps, rfl⟩ := h
  refine ⟨rfl, rfl, ?_, rfl, rfl⟩
  unfold modifyParticle at hps
  cases hd : derefParticle st.m_clothParticles (st.GetParticle r c) with
  | none => rw [hd] at hps; simp at hps
  | some p =>
    rw [hd] at hps
    simp only [Option.some.injEq] at hps
    show ps.length = _
    rw [← hps, List.length_set]

/-- The constructor has no defined result when there are more rows than
columns: the write through `GetParticle( numRows - 1, numCols - 1 )` in
`AssignParticleStates` is outside the particle vector. -/
theorem new_rows_le_cols (addr : Nat → Nat) (o : Vector3 α) (ty : ParticleType) (m rad : α)
    (R C : Int) (it : Nat) (b s k : α) (v : Vector3 α) (cl : Cloth α) (hC : 1 ≤ C)
    (h : Cloth.new addr o ty m rad R C it b s k v = some cl) : R ≤ C := by
  by_contra hgt
  have hRC : C < R := by omega
  unfold Cloth.new at h
  cases h1 : (Cloth.allocate o ty m rad R C it b s k).AssignParticleStates b o.y v with
  | none => rw [h1] at h; simp at h
  | some cl1 =>
    unfold Cloth.AssignParticleStates at h1
    simp only [] at h1
    have hP0 : (fun st : Cloth α => st.m_numRows = R ∧ st.m_numCols = C ∧
        st.m_clothParticles.length = (R * C).toNat)
        { Cloth.allocate o ty m rad R C it b s k with
          m_particleTemplate :=
            ((Cloth.allocate o ty m rad R C it b s k).m_particleTemplate.SetParticleState
              ⟨Vector3.ZERO, Vector3.ZERO, []⟩).AddForce
                (GravityForce (981 / 100) ⟨0, 0, -1⟩) } := by
      refine ⟨rfl, rfl, ?_⟩
      simp [Cloth.allocate]
    have hcell : ∀ (r c : Int) (st st2 : Cloth α), Cloth.assignCell b v r c st = some st2 →
        (st.m_numRows = R ∧ st.m_numCols = C ∧ st.m_clothParticles.length = (R * C).toNat) →
        (st2.m_numRows = R ∧ st2.m_numCols = C ∧
          st2.m_clothParticles.length = (R * C).toNat) := by
      intro r c st st2 hb hst
      obtain ⟨e1, e2, e3, -, -⟩ := assignCell_shape b v r c st st2 hb
      exact ⟨e1.trans hst.1, e2.trans hst.2.1, e3.trans hst.2.2⟩
    have hrow : ∀ (r : Int) (st st2 : Cloth α),
        forLoop C (fun c st2 => Cloth.assignCell b v r c st2) st = some st2 →
        (st.m_numRows = R ∧ st.m_numCols = C ∧ st.m_clothParticles.length = (R * C).toNat) →
        (st2.m_numRows = R ∧ st2.m_numCols = C ∧
          st2.m_clothParticles.length = (R * C).toNat) := by
      intro r st st2 hb hst
      exact forLoop_preserves C _ (fun st : Cloth α => st.m_numRows = R ∧ st.m_numCols = C ∧
        st.m_clothParticles.length = (R * C).toNat)
        (fun c a a2 _ _ hb2 ha => hcell r c a a2 hb2 ha) st st2 hb hst
    obtain ⟨a, a2, ha, hbody⟩ := forLoop_iterations R _
      (fun st : Cloth α => st.m_numRows = R ∧ st.m_numCols = C ∧
        st.m_clothParticles.length = (R * C).toNat)
      (fun r st st2 _ _ hb hst => hrow r st st2 hb hst) _ cl1 h1 hP0 (R - 1) (by omega)
      (by omega)
    obtain ⟨a3, a4, ha3, hbody2⟩ := forLoop_iterations C _
      (fun st : Cloth α => st.m_numRows = R ∧ st.m_numCols = C ∧
        st.m_clothParticles.length = (R * C).toNat)
      (fun c st st2 _ _ hb hst => hcell (R - 1) c st st2 hb hst) a a2 hbody ha (C - 1)
      (by omega) (by omega)
    obtain ⟨hR3, hC3, hlen3⟩ := ha3
    have hidx : R * C ≤ (R - 1) * R + (C - 1) := by
      nlinarith [mul_nonneg (show (0 : Int) ≤ R - C - 1 by omega)
        (show (0 : Int) ≤ R - 2 by omega)]
    have hpos : 0 ≤ (R - 1) * R + (C - 1) := by
      have : 0 ≤ R * C := by nlinarith
      omega
    unfold Cloth.assignCell at hbody2
    rw [GetParticle_eq a3 (R - 1) (C - 1) (by omega) (by omega), hR3] at hbody2
    have hnone : derefParticle a3.m_clothParticles (some ((R - 1) * R + (C - 1))) = none := by
      simp only [derefParticle, if_pos hpos]
      apply List.getElem?_eq_none
      rw [hlen3]
      omega
    simp [modifyParticle, hnone] at hbody2

end ConstructionDefined

section GridStates

variable {α : Type} [Field α]

theorem assignCell_grid_step (cl0 st : Cloth α) (b : α) (v : Vector3 α) (n m r c : Nat)
    (hR : cl0.m_numRows = (n : Int)) (hC : cl0.m_numCols = (m : Int)) (hnm : n ≤ m)
    (hlen : cl0.m_clothParticles.length = n * m) (hr : r < n) (hc : c < m)
    (hinv : AssignGridInv cl0 n r c st) :
    ∃ st2, Cloth.assignCell b v (r : Int) (c : Int) st = some st2 ∧
      AssignGridInv cl0 n r (c + 1) st2 := by
  obtain ⟨hframe, hstates, hzero⟩ := hinv
  obtain ⟨hR1, hC1, hcs, ho, hcur, hit, hmap⟩ := hframe
  have hlen2 : st.m_clothParticles.length = n * m := by
    have := congrArg List.length hmap
    simp only [List.length_map] at this
    rw [this, hlen]
  have hlt : r * n + c < n * m := by
    have h1 : r * n ≤ (n - 1) * m := Nat.mul_le_mul (by omega) hnm
    have h2 : (n - 1) * m + m = n * m := by
      obtain ⟨n2, rfl⟩ : ∃ n2, n = n2 + 1 := ⟨n - 1, by omega⟩
      simp [Nat.add_mul]
    omega
  obtain ⟨p, hp⟩ : ∃ p, st.m_clothParticles[r * n + c]? = some p :=
    ⟨_, List.getElem?_eq_getElem (by rw [hlen2]; exact hlt)⟩
  have hget : st.GetParticle (r : Int) (c : Int) = some ((r * n + c : Nat) : Int) := by
    rw [GetParticle_eq st r c (by omega) (by omega), hR1, hR]
    push_cast
    rfl
  have hassigned : (assignedParticle b v st.m_currentTopLeftPosition st.m_particleTemplate
      (r : Int) (c : Int) p).m_state =
      some ⟨(Vector3.mk (((c : Int) : α) * b) 0 (-((r : Int) : α) * b)).add
        st.m_currentTopLeftPosition, v, st.m_particleTemplate.GetForces⟩ :=
    assignedParticle_state b v _ _ _ _ p
  refine ⟨{ st with m_clothParticles := (st.m_clothParticles.set (r * n + c)
      (assignedParticle b v st.m_currentTopLeftPosition st.m_particleTemplate
        (r : Int) (c : Int) p)) }, ?_, ⟨hR1, hC1, hcs, ho, hcur, hit, ?_⟩, ?_, ?_⟩
  · unfold Cloth.assignCell
    simp only [hget, modifyParticle_natCast _ _ _ p hp, Option.map_some']
    rfl
  · rw [← hmap]
    exact set_withoutState _ _ p _ hp (by
      unfold assignedParticle
      rw [Particle.withoutState_cloneForces]
      rfl)
  · intro r2 c2 hcell hc2
    show ∃ q, (st.m_clothParticles.set (r * n + c) _)[r2 * n + c2]? = some q ∧ _
    by_cases hi : r2 * n + c2 = r * n + c
    · rw [hi, List.getElem?_set_self (by rw [hlen2]; exact hlt)]
      exact ⟨_, rfl, by rw [hassigned]; rfl⟩
    · rw [List.getElem?_set_ne (Ne.symm hi)]
      apply hstates r2 c2 _ hc2
      rcases hcell with h | ⟨h1, h2⟩
      · exact Or.inl h
      · right
        refine ⟨h1, ?_⟩
        by_contra hge
        have : c2 = c := by omega
        subst this
        subst h1
        exact hi rfl
  · intro _
    show ∃ q s, (st.m_clothParticles.set (r * n + c) _)[0]? = some q ∧ _
    by_cases hi : r * n + c = 0
    · have hc0 : c = 0 := by omega
      have hr0 : r = 0 := by
        have h1 : r * n = 0 := by omega
        rcases Nat.mul_eq_zero.mp h1 with h2 | h2
        · exact h2
        · omega
      subst hc0 hr0
      rw [hi, List.getElem?_set_self (by rw [hlen2]; omega)]
      refine ⟨_, _, rfl, hassigned, ?_⟩
      rw [hcur]
      simp [Vector3.add]
    · rw [List.getElem?_set_ne hi]
      apply hzero
      by_contra hno
      have hr0 : r = 0 := by omega
      have hc0 : c = 0 := by omega
      subst hr0 hc0
      exact hi (by simp)

/-- `AssignParticleStates` on a grid of `n ≤ m` columns whose particle vector
has `n * m` elements: it returns, the particle of every cell owns a state
afterwards, and the particle at position 0 is at the top-left position. -/
theorem AssignParticleStates_grid (cl0 : Cloth α) (b d : α) (v : Vector3 α) (n m : Nat)
    (hR : cl0.m_numRows = (n : Int)) (hC : cl0.m_numCols = (m : Int)) (hn : 1 ≤ n)
    (hnm : n ≤ m) (hlen : cl0.m_clothParticles.length = n * m) :
    ∃ cl1, cl0.AssignParticleStates b d v = some cl1 ∧ AssignGridInv cl0 n n 0 cl1 := by
  unfold Cloth.AssignParticleStates
  simp only []
  rw [hR, hC]
  apply forLoop_total n _ (fun r st => AssignGridInv cl0 n r 0 st)
  · refine ⟨⟨hR.symm, hC.symm, rfl, rfl, rfl, rfl, rfl⟩, fun r2 c2 h _ => ?_, fun h => ?_⟩
    · omega
    · omega
  · intro r st hr hst
    obtain ⟨st2, hst2, hinv2⟩ := forLoop_total m
      (fun c st2 => Cloth.assignCell b v (r : Int) c st2)
      (fun c st2 => AssignGridInv cl0 n r c st2) st hst
      (fun c st2 hc hst2 => assignCell_grid_step cl0 st2 b v n m r c hR hC hnm hlen hr hc hst2)
    refine ⟨st2, hst2, hinv2.1, fun r2 c2 h hc2 => ?_, fun _ => ?_⟩
    · apply hinv2.2.1 r2 c2 _ hc2
      rcases h with h | ⟨h1, h2⟩
      · by_cases h3 : r2 = r
        · right
          refine ⟨h3, ?_⟩
          rw [hC] at hc2
          omega
        · left
          omega
      · omega
    · apply hinv2.2.2
      right
      omega

end GridStates

section TopLeftFrame

variable {α : Type}

theorem pinCorners_topLeft (cl cl2 : Cloth α) (numCols : Int)
    (h : cl.pinCorners numCols = some cl2) :
    cl2.m_currentTopLeftPosition = cl.m_currentTopLeftPosition ∧
    cl2.m_originalTopLeftPosition = cl.m_originalTopLeftPosition := by
  unfold Cloth.pinCorners at h
  cases h3 : modifyParticle cl.m_clothParticles (cl.GetParticle 0 0)
      (fun p => p.SetIsPinned true) with
  | none => rw [h3] at h; simp at h
  | some ps3 =>
    rw [h3] at h
    simp only [Option.some_bind] at h
    cases h4 : modifyParticle ps3 (cl.GetParticle 0 (numCols - 1))
        (fun p => p.SetIsPinned true) with
    | none => rw [h4] at h; simp at h
    | some ps4 =>
      rw [h4] at h
      simp only [Option.map_some', Option.some.injEq] at h
      rw [← h]
      exact ⟨rfl, rfl⟩

variable [Field α]

/-- In every successfully constructed cloth the current and the original
top-left position are the origin given to the constructor. -/
theorem new_topLeft (addr : Nat → Nat) (o : Vector3 α) (ty : ParticleType) (m rad : α)
    (R C : Int) (it : Nat) (b s k : α) (v : Vector3 α) (cl : Cloth α)
    (h : Cloth.new addr o ty m rad R C it b s k v = some cl) :
    cl.m_currentTopLeftPosition = o ∧ cl.m_originalTopLeftPosition = o := by
  unfold Cloth.new at h
  cases h1 : (Cloth.allocate o ty m rad R C it b s k).AssignParticleStates b o.y v with
  | none => rw [h1] at h; simp at h
  | some cl1 =>
    rw [h1] at h
    simp only [Option.some_bind] at h
    have hcl1 : cl1.m_currentTopLeftPosition = o ∧ cl1.m_originalTopLeftPosition = o := by
      unfold Cloth.AssignParticleStates at h1
      simp only [] at h1
      refine forLoop_preserves _ _ (fun st : Cloth α => st.m_currentTopLeftPosition = o ∧
        st.m_originalTopLeftPosition = o) ?_ _ cl1 h1 ⟨rfl, rfl⟩
      intro r st st2 _ _ hb hst
      refine forLoop_preserves _ _ (fun st3 : Cloth α => st3.m_currentTopLeftPosition = o ∧
        st3.m_originalTopLeftPosition = o) ?_ _ st2 hb hst
      intro c st3 st4 _ _ hb2 hst3
      obtain ⟨-, -, -, e1, e2⟩ := assignCell_shape b v r c st3 st4 hb2
      exact ⟨e1.trans hst3.1, e2.trans hst3.2⟩
    obtain ⟨e1, e2⟩ := pinCorners_topLeft _ _ _ h
    exact ⟨e1.trans hcl1.1, e2.trans hcl1.2⟩

end TopLeftFrame

section Reachable

variable {α : Type} [LinearOrderedField α]

theorem Vector3.add_zero_right (a : Vector3 α) : a.add Vector3.ZERO = a := by
  rcases a with ⟨x, y, z⟩
  simp [Vector3.add, Vector3.ZERO]

theorem Vector3.add_assoc_right (a b c : Vector3 α) : (a.add b).add c = a.add (b.add c) := by
  simp only [Vector3.add, Vector3.mk.injEq]
  exact ⟨add_assoc _ _ _, add_assoc _ _ _, add_assoc _ _ _⟩

/-- The constructed cloth satisfies the invariant at the origin. -/
theorem new_topLeftInv (addr : Nat → Nat) (o : Vector3 α) (ty : ParticleType) (m rad : α)
    (R C : Int) (it : Nat) (b s k : α) (v : Vector3 α) (hR : 1 ≤ R) (hC : 1 ≤ C)
    (cl : Cloth α) (hnew : Cloth.new addr o ty m rad R C it b s k v = some cl) :
    TopLeftInv o o cl := by
  have hRC : R ≤ C := new_rows_le_cols addr o ty m rad R C it b s k v cl hC hnew
  obtain ⟨cl1, cl2, h1, hframe, hnew2, hRn, hCn, hcs, hlen, hps⟩ :=
    new_total addr o ty m rad R C it b s k v hR hRC
  have hcl : cl2 = cl := by
    rw [hnew] at hnew2
    exact (Option.some.inj hnew2).symm
  subst hcl
  obtain ⟨n, rfl⟩ : ∃ n : Nat, R = (n : Int) := ⟨R.toNat, (Int.toNat_of_nonneg (by omega)).symm⟩
  obtain ⟨c, rfl⟩ : ∃ c : Nat, C = (c : Int) := ⟨C.toNat, (Int.toNat_of_nonneg (by omega)).symm⟩
  have hlenA : (Cloth.allocate o ty m rad (n : Int) (c : Int) it b s k).m_clothParticles.length
      = n * c := by
    show (List.replicate ((n : Int) * (c : Int)).toNat _).length = n * c
    rw [List.length_replicate, ← Nat.cast_mul, Int.toNat_natCast]
  obtain ⟨cl1b, h1b, -, hstates, hzero⟩ :=
    AssignParticleStates_grid (Cloth.allocate o ty m rad (n : Int) (c : Int) it b s k) b o.y v
      n c rfl rfl (by omega) (by omega) hlenA
  have hcl1 : cl1b = cl1 := by
    rw [h1] at h1b
    exact (Option.some.inj h1b).symm
  subst hcl1
  obtain ⟨hR1, hC1, hcs1, -, -, -, -⟩ := hframe
  have hR1b : cl1b.m_numRows = (n : Int) := hR1
  have hC1b : cl1b.m_numCols = (c : Int) := hC1
  have hcs1b : cl1b.m_clothConstraints = [] := hcs1
  obtain ⟨hcur, horig⟩ := new_topLeft addr o ty m rad n c it b s k v cl2 hnew
  have hvalid : ∀ r1 c1 : Int, 0 ≤ r1 → r1 < n → 0 ≤ c1 → c1 < c →
      validEndpoint cl2.m_clothParticles (some (r1 * n + c1)) = true := by
    intro r1 c1 hr0 hr hc0 hc
    obtain ⟨rn, rfl⟩ : ∃ j : Nat, r1 = (j : Int) := ⟨r1.toNat, (Int.toNat_of_nonneg hr0).symm⟩
    obtain ⟨cn, rfl⟩ : ∃ j : Nat, c1 = (j : Int) := ⟨c1.toNat, (Int.toNat_of_nonneg hc0).symm⟩
    obtain ⟨q, hq, hqs⟩ := hstates rn cn (Or.inl (by omega)) hc
    have hidx : ((rn : Int) * (n : Int) + (cn : Int)) = ((rn * n + cn : Nat) : Int) := by
      push_cast
      rfl
    unfold LaundrySquadron.validEndpoint
    rw [hidx, derefParticle_natCast, hps _ q hq]
    dsimp only
    split_ifs <;> exact hqs
  refine ⟨⟨?_, ?_⟩, by omega, by omega, hcur, horig, ?_⟩
  · rw [hRn, hCn, hlen]
  · intro cc hcc
    rw [hcs] at hcc
    rcases AddConstraints_subset cl1b addr b s k cc hcc with h2 | h2
    · rw [hcs1b] at h2
      cases h2
    · obtain ⟨r1, c1, r2, c2, t, hr1, hc1, hr2, hc2, -, rfl⟩ :=
        (mem_newConstraints_iff cl1b b s k cc).mp h2
      rw [hR1b] at hr1 hr2
      rw [hC1b] at hc1 hc2
      rw [GetParticle_eq cl1b r1 c1 (by omega) (by omega),
        GetParticle_eq cl1b r2 c2 (by omega) (by omega), hR1b]
      exact ⟨hvalid r1 c1 hr1.1 hr1.2 hc1.1 hc1.2, hvalid r2 c2 hr2.1 hr2.2 hc2.1 hc2.2⟩
  · obtain ⟨q, s0, hq, hqs, hqp⟩ := hzero (Or.inl (by omega))
    have h0 := hps 0 q hq
    rw [if_pos (Or.inl rfl)] at h0
    refine ⟨_, s0, h0, hqs, hqp, rfl, ?_⟩
    have hlife := (new_lifetimes addr o ty m rad n c it b s k v cl2 hnew).2 _
      (List.getElem?_mem h0)
    simp [Particle.IsExpired, hlife]

theorem Particle.movedBy_state (p : Particle α) (o : Vector3 α) (s : LinearDynamicsState α)
    (hs : p.m_state = some s) :
    (p.movedBy o).m_state = some { s with m_position := s.m_position.add o } ∧
    (p.movedBy o).m_isPinned = p.m_isPinned ∧
    (p.movedBy o).m_secondsToLive = p.m_secondsToLive := by
  have hg : p.GetPosition = some s.m_position := by simp [Particle.GetPosition, hs]
  simp [Particle.movedBy, hg, Particle.SetPosition, hs]

theorem Particle.movedBy_isSome (p : Particle α) (o : Vector3 α) :
    (p.movedBy o).m_state.isSome = p.m_state.isSome := by
  cases hs : p.m_state with
  | none => simp [Particle.movedBy, Particle.GetPosition, hs]
  | some s => rw [(Particle.movedBy_state p o s hs).1]; rfl

/-- `Update` keeps the invariant, with the same position. -/
theorem Update_topLeftInv (sqrt : α → α) (origin pos : Vector3 α) (cl : Cloth α) (dt : α)
    (hinv : TopLeftInv origin pos cl) :
    ∃ cl2, cl.Update sqrt dt = some cl2 ∧ TopLeftInv origin pos cl2 := by
  obtain ⟨hwf, hR, hC, hcur, horig, p0, s0, hp0, hs0, hpos, hpin, hexp⟩ := hinv
  obtain ⟨st, cl3, -, hint, -, herase, hup, hcs, hrel⟩ := Update_phases sqrt cl dt hwf
  have hfields : cl3.m_numRows = cl.m_numRows ∧ cl3.m_numCols = cl.m_numCols ∧
      cl3.m_currentTopLeftPosition = cl.m_currentTopLeftPosition ∧
      cl3.m_originalTopLeftPosition = cl.m_originalTopLeftPosition := by
    have h := hup
    unfold Cloth.Update at h
    simp only [herase, Option.some_bind, Cloth.SatisfyConstraints, Option.map_map,
      Option.map_eq_some'] at h
    obtain ⟨r, -, rfl⟩ := h
    exact ⟨rfl, rfl, rfl, rfl⟩
  obtain ⟨e1, e2, e3, e4⟩ := hfields
  refine ⟨cl3, hup, ⟨?_, ?_⟩, by rw [e1]; exact hR, by rw [e2]; exact hC, e3.trans hcur,
    e4.trans horig, ?_⟩
  · rw [e1, e2, hrel.1, hint.1]
    exact hwf.1
  · intro cc hcc
    rw [hcs] at hcc
    have hcc2 := hwf.2 cc (List.mem_of_mem_filter hcc)
    exact ⟨relaxRel_validEndpoint hrel (integrationInv_validEndpoint hint hcc2.1),
      relaxRel_validEndpoint hrel (integrationInv_validEndpoint hint hcc2.2)⟩
  · have h1 : st.1[0]? = some p0 := by
      rw [hint.2.1 0 p0 hp0]
      have : p0.isIntegrated = false := by
        simp [Particle.isIntegrated, Particle.GetIsPinned, hpin, hexp]
      simp [this]
    obtain ⟨q, hq, hsame⟩ := hrel.2 0 p0 h1
    have hqp : q = p0 := hsame.2.2.2 hpin
    subst hqp
    exact ⟨q, s0, hq, hs0, hpos, hpin, hexp⟩

/-- `MoveClothByOffset` keeps the invariant, at the position moved by the
offset. -/
theorem MoveClothByOffset_topLeftInv (origin pos o : Vector3 α) (cl : Cloth α)
    (hinv : TopLeftInv origin pos cl) :
    ∃ cl2, cl.MoveClothByOffset o = some cl2 ∧ TopLeftInv origin (pos.add o) cl2 := by
  obtain ⟨hwf, hR, hC, hcur, horig, p0, s0, hp0, hs0, hpos, hpin, hexp⟩ := hinv
  have hle : cl.m_numCols.toNat ≤ cl.m_clothParticles.length := by
    have h1 := hwf.1
    have : cl.m_numCols ≤ cl.m_numRows * cl.m_numCols := by nlinarith
    omega
  obtain ⟨cl2, hmove, e1, e2, hcs, e4, hl, hps, hcur2⟩ :=
    MoveClothByOffset_total cl o (by omega) hC hle
  obtain ⟨hm1, hm2, hm3⟩ := Particle.movedBy_state p0 o s0 hs0
  refine ⟨cl2, hmove, ⟨?_, ?_⟩, by rw [e1]; exact hR, by rw [e2]; exact hC, ?_,
    e4.trans horig, ?_⟩
  · rw [e1, e2, hl]
    exact hwf.1
  · have hv : ∀ ptr, validEndpoint cl.m_clothParticles ptr = true →
        validEndpoint cl2.m_clothParticles ptr = true := by
      intro ptr hptr
      obtain ⟨p, s, hp, hs⟩ := validEndpoint_deref hptr
      obtain ⟨i, rfl, hi⟩ := derefParticle_eq_some hp
      unfold LaundrySquadron.validEndpoint
      rw [derefParticle_natCast, hps i p hi]
      dsimp only
      split_ifs
      · rw [Particle.movedBy_isSome, hs]
        rfl
      · rw [hs]
        rfl
    intro cc hcc
    rw [hcs] at hcc
    exact ⟨hv _ (hwf.2 cc hcc).1, hv _ (hwf.2 cc hcc).2⟩
  · rw [hcur2 p0 hp0]
    simp [Particle.GetPosition, hm1, hpos]
  · refine ⟨p0.movedBy o, _, ?_, hm1, ?_, hm2.trans hpin, ?_⟩
    · rw [hps 0 p0 hp0, if_pos (by omega)]
    · simp [hpos]
    · have : (p0.movedBy o).IsExpired = p0.IsExpired := by
        simp [Particle.IsExpired, hm3]
      rw [this]
      exact hexp

/-- Every sequence of calls started in a state that satisfies the invariant
returns, in a state that satisfies it at the position moved by the sum of the
offsets. -/
theorem run_topLeftInv (sqrt : α → α) (origin : Vector3 α) (calls : List (ClothCall α)) :
    ∀ (pos : Vector3 α) (cl : Cloth α), TopLeftInv origin pos cl →
      ∃ cl2, cl.run sqrt calls = some cl2 ∧ TopLeftInv origin (pos.add (sumOffsets calls)) cl2 := by
  induction calls with
  | nil =>
    intro pos cl hinv
    refine ⟨cl, rfl, ?_⟩
    show TopLeftInv origin (pos.add Vector3.ZERO) cl
    rw [Vector3.add_zero_right]
    exact hinv
  | cons call rest ih =>
    intro pos cl hinv
    cases call with
    | Update dt =>
      obtain ⟨cl1, h1, hinv1⟩ := Update_topLeftInv sqrt origin pos cl dt hinv
      obtain ⟨cl2, h2, hinv2⟩ := ih pos cl1 hinv1
      refine ⟨cl2, ?_, hinv2⟩
      unfold Cloth.run at h2 ⊢
      rw [List.foldlM_cons]
      show (cl.Update sqrt dt).bind _ = _
      rw [h1]
      exact h2
    | MoveClothByOffset o =>
      obtain ⟨cl1, h1, hinv1⟩ := MoveClothByOffset_topLeftInv origin pos o cl hinv
      obtain ⟨cl2, h2, hinv2⟩ := ih (pos.add o) cl1 hinv1
      refine ⟨cl2, ?_, ?_⟩
      · unfold Cloth.run at h2 ⊢
        rw [List.foldlM_cons]
        show (cl.MoveClothByOffset o).bind _ = _
        rw [h1]
        exact h2
      · show TopLeftInv origin (pos.add (o.add (sumOffsets rest))) cl2
        rw [← Vector3.add_assoc_right]
        exact hinv2

end Reachable

/-- C27: over the reals, for `numRows ≥ 1` and `numCols ≥ 1`, every sequence
of `Update` and `MoveClothByOffset` calls made on a constructed cloth returns,
and in the state reached `GetCurrentTopLeftPosition()` is the position of the
particle of cell `(0, 0)`, which is the construction origin plus the sum of the
offsets passed to `MoveClothByOffset`; that particle is pinned and not expired;
and `GetOriginalTopLeftPosition()` is the construction origin. -/
theorem topLeft_tracks_offsets (addr : Nat → Nat) (o : Vector3 ℝ) (ty : ParticleType)
    (m rad : ℝ) (R C : Int) (it : Nat) (b s k : ℝ) (v : Vector3 ℝ) (hR : 1 ≤ R) (hC : 1 ≤ C)
    (cl0 : Cloth ℝ) (hnew : Cloth.new addr o ty m rad R C it b s k v = some cl0)
    (calls : List (ClothCall ℝ)) :
    ∃ cl p0 pos, cl0.run Real.sqrt calls = some cl ∧
      derefParticle cl.m_clothParticles (cl.GetParticle 0 0) = some p0 ∧
      p0.GetPosition = some pos ∧ cl.GetCurrentTopLeftPosition = pos ∧
      pos = o.add (sumOffsets calls) ∧
      p0.GetIsPinned = true ∧ p0.IsExpired = false ∧
      cl.GetOriginalTopLeftPosition = o := by
  have hbase := new_topLeftInv addr o ty m rad R C it b s k v hR hC cl0 hnew
  obtain ⟨cl, hrun, -, hR2, hC2, hcur, horig, p0, s0, hp0, hs0, hpos, hpin, hexp⟩ :=
    run_topLeftInv Real.sqrt o calls o cl0 hbase
  have hget : cl.GetParticle 0 0 = some ((0 : Nat) : Int) := by
    rw [GetParticle_eq cl 0 0 (by omega) (by omega)]
    simp
  refine ⟨cl, p0, s0.m_position, hrun, ?_, ?_, ?_, hpos, hpin, hexp, horig⟩
  · rw [hget, derefParticle_natCast]
    exact hp0
  · simp [Particle.GetPosition, hs0]
  · rw [hpos]
    exact hcur

/-- Witness of `topLeft_tracks_offsets`: the 2 x 2 cloth over the reals,
moved, updated and moved again. -/
theorem topLeft_tracks_offsets_witness :
    ∃ cl0, Cloth.new id (⟨0, 0, 0⟩ : Vector3 ℝ) .PARTICLE_SPHERE 1 1 2 2 2 1 (3 / 2) 2
        ⟨0, 0, 0⟩ = some cl0 ∧
      ∃ cl p0 pos,
        cl0.run Real.sqrt
          [.MoveClothByOffset ⟨1, 2, 3⟩, .Update 1, .MoveClothByOffset ⟨1, 0, 0⟩] = some cl ∧
        derefParticle cl.m_clothParticles (cl.GetParticle 0 0) = some p0 ∧
        p0.GetPosition = some pos ∧ cl.GetCurrentTopLeftPosition = pos ∧
        pos = (⟨0, 0, 0⟩ : Vector3 ℝ).add
          (sumOffsets [.MoveClothByOffset ⟨1, 2, 3⟩, .Update 1, .MoveClothByOffset ⟨1, 0, 0⟩]) ∧
        p0.GetIsPinned = true ∧ p0.IsExpired = false ∧
        cl.GetOriginalTopLeftPosition = ⟨0, 0, 0⟩ := by
  obtain ⟨-, cl0, -, -, hnew, -⟩ :=
    new_total id (⟨0, 0, 0⟩ : Vector3 ℝ) .PARTICLE_SPHERE 1 1 2 2 2 1 (3 / 2) 2 ⟨0, 0, 0⟩
      (by decide) (by decide)
  exact ⟨cl0, hnew,
    topLeft_tracks_offsets id ⟨0, 0, 0⟩ .PARTICLE_SPHERE 1 1 2 2 2 1 (3 / 2) 2 ⟨0, 0, 0⟩
      (by decide) (by decide) cl0 hnew _⟩

/-! ## Claims on `Mesh::CreateCube` and `Mesh::CreateIcoSphere` -/

/-- C28: for every side length `s`, `CreateCube` builds 8 vertices, vertex
`i` having along each axis the coordinate `-s/2` when the bit of that axis is
set in `i` and `s/2` otherwise, and 36 indices, all below 8, that is 12
triangles; the three corners of every triangle lie on one face and so agree in
one coordinate; each of the 6 faces carries exactly two triangles, and every
one of its four corners belongs to one of the two.  A face is the set of the
four corners whose bit of the axis has the value of the side; for `s ≠ 0` these
are the corners whose coordinate along the axis is that of the face. -/
theorem CreateCube_geometry {α : Type} [LinearOrderedField α] (s : α) (color : RGBA) :
    (Mesh.CreateCube s color).m_verts.length = 8 ∧
    (∀ i : Nat, i < 8 → ∃ v, (Mesh.CreateCube s color).m_verts[i]? = some v ∧
      ∀ axis : Nat, axis < 3 →
        v.pos.coordinate axis = if i.testBit axis then -(s / 2) else s / 2) ∧
    (Mesh.CreateCube s color).m_indices.length = 36 ∧
    (∀ k ∈ (Mesh.CreateCube s color).m_indices, k < 8) ∧
    (trianglesOf (Mesh.CreateCube s color).m_indices).length = 12 ∧
    (∀ t ∈ trianglesOf (Mesh.CreateCube s color).m_indices,
      ∃ axis side, axis < 3 ∧ triangleOnFace axis side t = true ∧
        ∃ a b c, (Mesh.CreateCube s color).m_verts[t.1]? = some a ∧
          (Mesh.CreateCube s color).m_verts[t.2.1]? = some b ∧
          (Mesh.CreateCube s color).m_verts[t.2.2]? = some c ∧
          a.pos.coordinate axis = b.pos.coordinate axis ∧
          b.pos.coordinate axis = c.pos.coordinate axis) ∧
    (∀ axis : Nat, axis < 3 → ∀ side : Bool,
      ((trianglesOf (Mesh.CreateCube s color).m_indices).filter
        (triangleOnFace axis side)).length = 2 ∧
      ((List.range 8).filter (cornerOnFace axis side)).length = 4 ∧
      ∀ i : Nat, i < 8 → cornerOnFace axis side i = true →
        ∃ t ∈ (trianglesOf (Mesh.CreateCube s color).m_indices).filter
          (triangleOnFace axis side), i = t.1 ∨ i = t.2.1 ∨ i = t.2.2) ∧
    (s ≠ 0 → ∀ i : Nat, i < 8 → ∀ axis : Nat, axis < 3 → ∀ (side : Bool) (v : Vertex_PCUTB α),
      (Mesh.CreateCube s color).m_verts[i]? = some v →
      (v.pos.coordinate axis = (if side then -(s / 2) else s / 2) ↔
        cornerOnFace axis side i = true)) := by
  have hidx : (Mesh.CreateCube s color).m_indices =
      [0, 2, 1, 1, 2, 3, 0, 6, 2, 0, 4, 6, 4, 5, 0, 5, 1, 0, 4, 5, 6, 5, 7, 6, 5, 3, 7, 1, 3, 5,
        6, 2, 7, 7, 2, 3] := rfl
  have hverts : (Mesh.CreateCube s color).m_verts =
      (List.range 8).map (fun (i : Nat) => Mesh.cubeVertex (s / 2) color (i : Int)) := rfl
  have hpos : ∀ i : Nat, i < 8 → ∀ axis : Nat, axis < 3 →
      (Mesh.cubeVertex (s / 2) color (i : Int)).pos.coordinate axis =
        if i.testBit axis then -(s / 2) else s / 2 := by
    intro i hi axis ha
    interval_cases i <;> interval_cases axis <;> rfl
  have hget : ∀ i : Nat, i < 8 → (Mesh.CreateCube s color).m_verts[i]? =
      some (Mesh.cubeVertex (s / 2) color (i : Int)) := by
    intro i hi
    rw [hverts, List.getElem?_map, List.getElem?_range hi]
    rfl
  have hbit : ∀ (axis : Nat) (side : Bool) (i : Nat), i < 8 → axis < 3 →
      cornerOnFace axis side i = true →
      (Mesh.cubeVertex (s / 2) color (i : Int)).pos.coordinate axis =
        if side then -(s / 2) else s / 2 := by
    intro axis side i hi ha hc
    rw [hpos i hi axis ha]
    have : i.testBit axis = side := by simpa [cornerOnFace] using hc
    rw [this]
  refine ⟨rfl, fun i hi => ⟨_, hget i hi, hpos i hi⟩, by rw [hidx]; rfl, ?_, by rw [hidx]; rfl,
    ?_, ?_, ?_⟩
  · rw [hidx]
    decide
  · rw [hidx]
    have hcase : ∀ t ∈ trianglesOf [0, 2, 1, 1, 2, 3, 0, 6, 2, 0, 4, 6, 4, 5, 0, 5, 1, 0, 4, 5,
        6, 5, 7, 6, 5, 3, 7, 1, 3, 5, 6, 2, 7, 7, 2, 3],
        ∃ axis, axis < 3 ∧ ∃ side : Bool, triangleOnFace axis side t = true ∧
          t.1 < 8 ∧ t.2.1 < 8 ∧ t.2.2 < 8 := by
      decide
    intro t ht
    obtain ⟨axis, ha, side, hface, h1, h2, h3⟩ := hcase t ht
    have hf : cornerOnFace axis side t.1 = true ∧ cornerOnFace axis side t.2.1 = true ∧
        cornerOnFace axis side t.2.2 = true := by
      simpa [triangleOnFace, and_assoc] using hface
    refine ⟨axis, side, ha, hface, _, _, _, hget _ h1, hget _ h2, hget _ h3, ?_, ?_⟩
    · rw [hbit axis side _ h1 ha hf.1, hbit axis side _ h2 ha hf.2.1]
    · rw [hbit axis side _ h2 ha hf.2.1, hbit axis side _ h3 ha hf.2.2]
  · rw [hidx]
    decide
  · intro hs i hi axis ha side v hv
    rw [hget i hi] at hv
    cases hv
    rw [hpos i hi axis ha]
    have hne : -(s / 2) ≠ s / 2 := by
      intro h
      apply hs
      linarith
    cases hb : i.testBit axis <;> cases side <;> simp [cornerOnFace, hb, hne, hne.symm]

section IcoSphere

variable {α : Type}

theorem atIndex_natCast {β : Type} (v : List β) (k : Nat) : atIndex v (k : Int) = v[k]? := by
  simp [atIndex]

theorem findLocations_total (ops : VectorOps α) (verts : List (Vertex_PCUTB α))
    (point1 point2 point3 : Vector3 α) :
    ∃ loc, Mesh.findLocations ops verts point1 point2 point3 = some loc ∧
      (loc.1 = -1 ∨ (0 ≤ loc.1 ∧ loc.1 < verts.length)) ∧
      (loc.2.1 = -1 ∨ (0 ≤ loc.2.1 ∧ loc.2.1 < verts.length)) ∧
      (loc.2.2 = -1 ∨ (0 ≤ loc.2.2 ∧ loc.2.2 < verts.length)) := by
  unfold Mesh.findLocations
  apply forLoop_total verts.length _
    (fun k (loc : Int × Int × Int) =>
      (loc.1 = -1 ∨ (0 ≤ loc.1 ∧ loc.1 < (k : Int))) ∧
      (loc.2.1 = -1 ∨ (0 ≤ loc.2.1 ∧ loc.2.1 < (k : Int))) ∧
      (loc.2.2 = -1 ∨ (0 ≤ loc.2.2 ∧ loc.2.2 < (k : Int))))
  · exact ⟨Or.inl rfl, Or.inl rfl, Or.inl rfl⟩
  · intro k loc hk hloc
    obtain ⟨vert, hvert⟩ : ∃ vert, verts[k]? = some vert := ⟨_, List.getElem?_eq_getElem hk⟩
    simp only [atIndex_natCast, hvert]
    refine ⟨_, rfl, ?_, ?_, ?_⟩
    · dsimp only
      split_ifs
      · right; omega
      · rcases hloc.1 with h | h
        · exact Or.inl h
        · right; push_cast; omega
    · dsimp only
      split_ifs
      · right; omega
      · rcases hloc.2.1 with h | h
        · exact Or.inl h
        · right; push_cast; omega
    · dsimp only
      split_ifs
      · right; omega
      · rcases hloc.2.2 with h | h
        · exact Or.inl h
        · right; push_cast; omega

theorem addIfMissing_spec (verts : List (Vertex_PCUTB α)) (loc : Int) (v : Vertex_PCUTB α)
    (n : Nat) (hn : n ≤ verts.length) (h : loc = -1 ∨ (0 ≤ loc ∧ loc < (n : Int))) :
    (Mesh.addIfMissing verts loc v).1.toNat < (Mesh.addIfMissing verts loc v).2.length ∧
    verts.length ≤ (Mesh.addIfMissing verts loc v).2.length := by
  unfold Mesh.addIfMissing
  split_ifs with h1
  · simp
  · rcases h with h | h
    · exact absurd h h1
    · simp only [le_refl, and_true]
      omega

theorem mem_set_of_mem {β : Type} {l : List β} {i : Nat} {a b : β} (h : b ∈ l.set i a) :
    b ∈ l ∨ b = a := List.mem_or_eq_of_mem_set h

/-- One run of the body of the face loop: the three reads succeed, nine
indices are pushed and three replaced, all of them below the number of
vertices. -/
theorem subdivideFace_step [Field α] (ops : VectorOps α) (radius : α)
    (color : RGBA) (mesh : Mesh α) (j : Nat) (hidx : 3 * j + 2 < mesh.m_indices.length)
    (hok : mesh.indicesInRange) :
    ∃ mesh2, Mesh.subdivideFace ops radius color (mesh, ((3 * j : Nat) : Int)) =
        some (mesh2, ((3 * (j + 1) : Nat) : Int)) ∧
      mesh2.m_indices.length = mesh.m_indices.length + 9 ∧ mesh2.indicesInRange := by
  obtain ⟨ix, hix⟩ : ∃ i, mesh.m_indices[3 * j]? = some i :=
    ⟨_, List.getElem?_eq_getElem (by omega)⟩
  obtain ⟨iy, hiy⟩ : ∃ i, mesh.m_indices[3 * j + 1]? = some i :=
    ⟨_, List.getElem?_eq_getElem (by omega)⟩
  obtain ⟨iz, hiz⟩ : ∃ i, mesh.m_indices[3 * j + 2]? = some i :=
    ⟨_, List.getElem?_eq_getElem (by omega)⟩
  have hxlt : ix < mesh.m_verts.length := hok ix (List.getElem?_mem hix)
  have hylt : iy < mesh.m_verts.length := hok iy (List.getElem?_mem hiy)
  have hzlt : iz < mesh.m_verts.length := hok iz (List.getElem?_mem hiz)
  obtain ⟨vx, hvx⟩ : ∃ v, mesh.m_verts[ix]? = some v := ⟨_, List.getElem?_eq_getElem hxlt⟩
  obtain ⟨vy, hvy⟩ : ∃ v, mesh.m_verts[iy]? = some v := ⟨_, List.getElem?_eq_getElem hylt⟩
  obtain ⟨vz, hvz⟩ : ∃ v, mesh.m_verts[iz]? = some v := ⟨_, List.getElem?_eq_getElem hzlt⟩
  have ey : ((3 * j : Nat) : Int) + 1 = ((3 * j + 1 : Nat) : Int) := by push_cast; rfl
  have ez : ((3 * j : Nat) : Int) + 2 = ((3 * j + 2 : Nat) : Int) := by push_cast; rfl
  have enext : ((3 * j : Nat) : Int) + 3 = ((3 * (j + 1) : Nat) : Int) := by push_cast; ring
  obtain ⟨loc, hloc, h1, h2, h3⟩ := findLocations_total ops mesh.m_verts
    (ops.Normalize (ops.GetMidpoint vx.pos vy.pos))
    (ops.Normalize (ops.GetMidpoint vy.pos vz.pos))
    (ops.Normalize (ops.GetMidpoint vz.pos vx.pos))
  unfold Mesh.subdivideFace
  simp only [ey, ez, enext, atIndex_natCast, hix, hiy, hiz, hvx, hvy, hvz, hloc, Int.toNat_natCast]
  generalize hr1 : Mesh.addIfMissing mesh.m_verts loc.1
    ⟨(ops.Normalize (ops.GetMidpoint vx.pos vy.pos)).scale radius, color,
      ops.GetMidpoint2 vx.texCoords vy.texCoords⟩ = r1
  generalize hr2 : Mesh.addIfMissing r1.2 loc.2.1
    ⟨(ops.Normalize (ops.GetMidpoint vy.pos vz.pos)).scale radius, color,
      ops.GetMidpoint2 vy.texCoords vz.texCoords⟩ = r2
  generalize hr3 : Mesh.addIfMissing r2.2 loc.2.2
    ⟨(ops.Normalize (ops.GetMidpoint vz.pos vx.pos)).scale radius, color,
      ops.GetMidpoint2 vz.texCoords vx.texCoords⟩ = r3
  have s1 := addIfMissing_spec mesh.m_verts loc.1
    ⟨(ops.Normalize (ops.GetMidpoint vx.pos vy.pos)).scale radius, color,
      ops.GetMidpoint2 vx.texCoords vy.texCoords⟩ mesh.m_verts.length le_rfl h1
  rw [hr1] at s1
  have s2 := addIfMissing_spec r1.2 loc.2.1
    ⟨(ops.Normalize (ops.GetMidpoint vy.pos vz.pos)).scale radius, color,
      ops.GetMidpoint2 vy.texCoords vz.texCoords⟩ mesh.m_verts.length s1.2 h2
  rw [hr2] at s2
  have s3 := addIfMissing_spec r2.2 loc.2.2
    ⟨(ops.Normalize (ops.GetMidpoint vz.pos vx.pos)).scale radius, color,
      ops.GetMidpoint2 vz.texCoords vx.texCoords⟩ mesh.m_verts.length (le_trans s1.2 s2.2) h3
  rw [hr3] at s3
  refine ⟨_, rfl, ?_, ?_⟩
  · simp
  · intro i hi
    show i < r3.2.length
    have hold : ∀ k ∈ mesh.m_indices, k < r3.2.length := fun k hk => by
      have := hok k hk
      omega
    rcases mem_set_of_mem hi with hi | rfl
    · rcases mem_set_of_mem hi with hi | rfl
      · rcases mem_set_of_mem hi with hi | rfl
        · rcases List.mem_append.mp hi with hi | hi
          · exact hold i hi
          · simp only [List.mem_cons, List.mem_singleton, List.not_mem_nil, or_false] at hi
            rcases hi with rfl | rfl | rfl | rfl | rfl | rfl | rfl | rfl | rfl <;> omega
        · omega
      · omega
    · omega

/-- One pass over a mesh of `F` faces whose indices are in range returns,
with four times as many indices, all in range. -/
theorem subdividePass_total [Field α] (ops : VectorOps α) (radius : α)
    (color : RGBA) (mesh : Mesh α) (F : Nat) (hlen : mesh.m_indices.length = 3 * F)
    (hok : mesh.indicesInRange) :
    ∃ mesh2, Mesh.subdividePass ops radius color mesh = some mesh2 ∧
      mesh2.m_indices.length = 4 * mesh.m_indices.length ∧ mesh2.indicesInRange := by
  have hF : mesh.m_indices.length / 3 = F := by omega
  obtain ⟨st, hst, hidx, hl, hok2⟩ := forLoop_total F
    (fun _ st => Mesh.subdivideFace ops radius color st)
    (fun j (st : Mesh α × Int) => st.2 = ((3 * j : Nat) : Int) ∧
      st.1.m_indices.length = 3 * F + 9 * j ∧ st.1.indicesInRange)
    (mesh, 0) ⟨rfl, by simpa using hlen, hok⟩
    (fun j st hj hinv => by
      obtain ⟨h1, h2, h3⟩ := hinv
      obtain ⟨mesh2, hm, hl2, hok2⟩ := subdivideFace_step ops radius color st.1 j (by omega) h3
      have hst : st = (st.1, ((3 * j : Nat) : Int)) := by rw [← h1]
      rw [hst]
      exact ⟨_, hm, rfl, by rw [hl2, h2]; ring, hok2⟩)
  refine ⟨st.1, ?_, by omega, hok2⟩
  unfold Mesh.subdividePass
  simp only [hF, hst, Option.map_some']

/-- The six initial vertices are always built. -/
theorem initialVertices_total [Field α] (ops : VectorOps α) (radius : α) (color : RGBA) :
    ∃ m0, Mesh.initialVertices ops radius color = some m0 ∧ m0.m_verts.length = 6 ∧
      m0.m_indices = [] :=
  ⟨_, rfl, rfl, rfl⟩

end IcoSphere

/-- C29: for every radius and every number `n` of passes, `CreateIcoSphere`
returns (no `at()` throws and every loop ends); the mesh has `24 * 4^n`
indices, that is `8 * 4^n` triangles, each pass giving four times the indices
of the pass before; and every index is below the number of vertices. -/
theorem CreateIcoSphere_indices {α : Type} [Field α] (ops : VectorOps α)
    (radius : α) (color : RGBA) (n : Nat) :
    ∃ mesh, Mesh.CreateIcoSphere ops radius color (n : Int) = some mesh ∧
      mesh.m_indices.length = 24 * 4 ^ n ∧
      mesh.m_indices.length / 3 = 8 * 4 ^ n ∧
      (∀ i ∈ mesh.m_indices, i < mesh.m_verts.length) ∧
      (∀ mesh2, Mesh.CreateIcoSphere ops radius color ((n + 1 : Nat) : Int) = some mesh2 →
        mesh2.m_indices.length = 4 * mesh.m_indices.length) := by
  obtain ⟨m0, hm0, hv0, hi0⟩ := initialVertices_total ops radius color
  have hloop : ∀ k : Nat, ∃ mesh,
      forLoop (k : Int) (fun _ m => Mesh.subdividePass ops radius color m)
        { m0 with
          m_indices := m0.m_indices ++
            [0, 3, 4, 0, 4, 5, 0, 5, 2, 0, 2, 3, 1, 4, 3, 1, 5, 4, 1, 2, 5, 1, 3, 2] } =
          some mesh ∧
      mesh.m_indices.length = 24 * 4 ^ k ∧ mesh.indicesInRange := by
    intro k
    apply forLoop_total k _ (fun i (m : Mesh α) => m.m_indices.length = 24 * 4 ^ i ∧
      m.indicesInRange)
    · refine ⟨by simp [hi0], fun i hi => ?_⟩
      show i < m0.m_verts.length
      rw [hv0]
      have hi2 : i ∈ [0, 3, 4, 0, 4, 5, 0, 5, 2, 0, 2, 3, 1, 4, 3, 1, 5, 4, 1, 2, 5, 1, 3, 2] := by
        simpa [hi0] using hi
      clear hi
      revert i
      decide
    · intro i m _ hinv
      obtain ⟨mesh2, h1, h2, h3⟩ := subdividePass_total ops radius color m (8 * 4 ^ i)
        (by rw [hinv.1]; ring) hinv.2
      exact ⟨mesh2, h1, by rw [h2, hinv.1, pow_succ]; ring, h3⟩
  have hrun : ∀ k : Nat, Mesh.CreateIcoSphere ops radius color (k : Int) =
      forLoop (k : Int) (fun _ m => Mesh.subdividePass ops radius color m)
        { m0 with
          m_indices := m0.m_indices ++
            [0, 3, 4, 0, 4, 5, 0, 5, 2, 0, 2, 3, 1, 4, 3, 1, 5, 4, 1, 2, 5, 1, 3, 2] } := by
    intro k
    unfold Mesh.CreateIcoSphere
    rw [hm0]
    rfl
  obtain ⟨mesh, hmesh, hlen, hok⟩ := hloop n
  refine ⟨mesh, by rw [hrun, hmesh], hlen, by omega, hok, fun mesh2 h2 => ?_⟩
  obtain ⟨mesh3, hmesh3, hlen3, -⟩ := hloop (n + 1)
  rw [hrun, hmesh3] at h2
  cases h2
  rw [hlen3, hlen, pow_succ]
  ring

/-- Witness of `CreateIcoSphere_indices`: two passes with the sample
operations give 384 indices. -/
theorem CreateIcoSphere_indices_witness :
    ∃ mesh, Mesh.CreateIcoSphere sampleOps 1 .WHITE 2 = some mesh ∧
      mesh.m_indices.length = 384 ∧ ∀ i ∈ mesh.m_indices, i < mesh.m_verts.length := by
  obtain ⟨mesh, h, hl, -, hok, -⟩ := CreateIcoSphere_indices sampleOps 1 .WHITE 2
  exact ⟨mesh, h, by rw [hl]; norm_num, hok⟩

end LaundrySquadron
